import Mathlib

/-!
# Splashentation: a shallow embedding of the slideshow sequencer

Embedding of `src/Splashentation/Standard.hpp` and `Standard.cpp`.

* The object's members keep their source names (`m_slides`, `m_playState`, ...).
* `std::unordered_map` is an association list with unique keys; its list order stands for
  the (unspecified) iteration order of the container.
* `std::vector<Slide>::iterator` is the offset from `m_slides.begin()`; `m_slides.end()` is the
  offset `m_slides.size()`.
* `sf::Time` is its count of microseconds, an integer; the sum of two times is the sum of the
  two counts reduced to the 64 bits of the count, in two's complement (`Time.add`).
  `unsigned int` is a natural number reduced modulo `2 ^ 32` where the source converts into
  it. An operation on `float` is the exact operation on rationals followed by a rounding, of
  which only monotonicity and a few fixed points are assumed (`FloatModel`).
* The playback thread `t_play` is a step machine: one step is one section of the loop body
  (loop head and drawing, one `pollEvent`, the external controls with the progression). The
  timer update holds `m_clockMutex` only, not `m_controlsMutex`, so it is three steps: the
  test of the pending-advance flag, the read of the fade state, and the two checks on the
  value read with the write they lead to. The calls `next`, `skip` and `quit` of the owning
  thread interleave with all these steps. The window, the render texture and the decoding of
  asset files are external collaborators; what they return is an input of the step (`Env`).
* Dereferencing an iterator or index that is out of range is undefined behaviour: the
  embedded function returns `none`.
-/

namespace Splashentation

/-! ## Data model (`Standard.hpp`) -/

/-- The enum class `PlayState`. -/
inductive PlayState where
  | Ready
  | Playing
  | Finished
  | Quit
  deriving DecidableEq, Repr

/-- The enum class `ControlAction`. -/
inductive ControlAction where
  | None
  | Next
  | Skip
  | Quit
  deriving DecidableEq, Repr

/-- The private enum class `SlideState`. -/
inductive SlideState where
  | In
  | Show
  deriving DecidableEq, Repr

/-- The unscoped enum `MouseButtons` is a bit mask. -/
abbrev MouseButtons := Nat

/-- The enumerator `MouseButtons::None = 0`. -/
def MouseButtons.None : MouseButtons := 0
/-- The enumerator `MouseButtons::Left = 1`. -/
def MouseButtons.Left : MouseButtons := 1
/-- The enumerator `MouseButtons::Right = 2`. -/
def MouseButtons.Right : MouseButtons := 2
/-- The enumerator `MouseButtons::Middle = 4`. -/
def MouseButtons.Middle : MouseButtons := 4

/-- The enum `sf::Mouse::Button` of the windowing toolkit. -/
inductive Button where
  | Left
  | Right
  | Middle
  | XButton1
  | XButton2
  deriving DecidableEq, Repr

/-- A key code, the value of the enum `sf::Keyboard::Key`. -/
abbrev Key := Int

/-- A duration `sf::Time`, counted in microseconds. -/
abbrev Time := Int

/-- A colour `sf::Color`, as its packed value. -/
abbrev Color := Nat

/-- The events of the window the playback loop tells apart. -/
inductive Event where
  | Closed
  | MouseButtonPressed (button : Button)
  | KeyPressed (code : Key)
  | Other
  deriving DecidableEq, Repr

/-- A `std::unordered_map`: an association list with at most one entry per key. -/
abbrev UnorderedMap (K V : Type) := List (K × V)

namespace UnorderedMap

variable {K V : Type} [DecidableEq K]

/-- The member `find`: the mapped value, or nothing for `end()`. -/
def find (m : UnorderedMap K V) (k : K) : Option V :=
  match m with
  | [] => none
  | (k', v) :: rest => if k' = k then some v else find rest k

/-- The member `count`. -/
def count (m : UnorderedMap K V) (k : K) : Nat :=
  match find m k with
  | some _ => 1
  | none => 0

/-- The assignment `m[k] = v`: overwrites the entry of `k`, or inserts one. -/
def assign (m : UnorderedMap K V) (k : K) (v : V) : UnorderedMap K V :=
  match m with
  | [] => [(k, v)]
  | (k', v') :: rest => if k' = k then (k, v) :: rest else (k', v') :: assign rest k v

/-- The member `erase` by key. -/
def erase (m : UnorderedMap K V) (k : K) : UnorderedMap K V :=
  m.filter (fun e => decide (e.1 ≠ k))

/-- The read `m[k]`: inserts a default-constructed value when `k` has no entry. -/
def index (m : UnorderedMap K V) (k : K) (dflt : V) : V × UnorderedMap K V :=
  match find m k with
  | some v => (v, m)
  | none => (dflt, m ++ [(k, dflt)])

end UnorderedMap

/-- A drawable element of the graphics toolkit, known by its handle. -/
structure Drawable where
  handle : Nat
  deriving DecidableEq, Repr

/-- The struct `OrderedDrawable`; `drawable = none` is the null pointer. -/
structure OrderedDrawable where
  drawable : Option Drawable
  zIndex : Int
  deriving DecidableEq, Repr

/-- The default constructor `OrderedDrawable()`. -/
def OrderedDrawable.default : OrderedDrawable := { drawable := none, zIndex := 0 }

/-- The class `Slide`. -/
structure Slide where
  color : Color
  duration : Time
  transition : Time
  ids : List String
  keys : UnorderedMap Key ControlAction
  mouseButtons : UnorderedMap ControlAction MouseButtons
  deriving DecidableEq, Repr

/-- The default constructor `Slide()`: black, five seconds, two seconds of transition. -/
def Slide.default : Slide :=
  { color := 0, duration := 5000000, transition := 2000000, ids := [], keys := [],
    mouseButtons := [] }

/-- The member `Slide::add`. -/
def Slide.add (sl : Slide) (id : String) : Slide := { sl with ids := sl.ids ++ [id] }

/-- The member `Slide::clear`. -/
def Slide.clear (sl : Slide) : Slide := { sl with ids := [] }

/-- Where a `return` of `t_play` was taken. -/
inductive Exit where
  /-- The event `sf::Event::Closed` (line 211). -/
  | closed
  /-- A call of `priv_processMouseButton` with this control returned false (lines 219, 224). -/
  | mouseButton (control : ControlAction × MouseButtons)
  /-- A call of `priv_processKey` with this control returned false (lines 237, 242). -/
  | key (control : Key × ControlAction)
  /-- The flag `m_controlSkip` (line 277). -/
  | controlSkip
  /-- The flag `m_controlQuit` (line 284). -/
  | controlQuit
  /-- The loop ended with `isComplete` (line 308). -/
  | complete
  deriving DecidableEq, Repr

/-- The section of `t_play` the playback thread executes next. -/
inductive Pc where
  /-- Lines 126 to 200: the two `show` flags, the sorted drawables, the drawing. -/
  | loopHead
  /-- Lines 204 to 249: one call of `pollEvent`. -/
  | pollEvents
  /-- Line 254: the test of `showCurrentSlide` and of the pending-advance flag. -/
  | update
  /-- Line 256: the read of the fade state into `currentSlideState`. -/
  | updateRead
  /-- Lines 257 to 266: the two timer checks on the value read, with their writes. -/
  | updateChecks (currentSlideState : SlideState)
  /-- Lines 271 to 308: the external controls, the progression and the end of the loop. -/
  | controls
  /-- The function has returned. -/
  | returned (site : Exit)
  deriving DecidableEq, Repr

/-- The local variables of `t_play`, with the section it is at. -/
structure TPlay where
  currentSlide : Nat
  previousSlide : Nat
  isComplete : Bool
  showCurrentSlide : Bool
  showPreviousSlide : Bool
  pc : Pc
  deriving DecidableEq, Repr

end Splashentation

/-- The members of the class `Splashentation` that the sequencing logic reads or writes.
`m_playThread = none` is a thread object that is not joinable. -/
structure Splashentation where
  m_slideState : Splashentation.SlideState
  m_drawables : Splashentation.UnorderedMap String Splashentation.OrderedDrawable
  m_slides : List Splashentation.Slide
  m_playState : Splashentation.PlayState
  m_moveOnToNextSlide : Bool
  m_controlSkip : Bool
  m_controlQuit : Bool
  m_currentSlideIndex : Nat
  m_globalKeys : Splashentation.UnorderedMap Splashentation.Key Splashentation.ControlAction
  m_globalMouseButtons :
    Splashentation.UnorderedMap Splashentation.ControlAction Splashentation.MouseButtons
  m_playThread : Option Splashentation.TPlay
  deriving DecidableEq, Repr

namespace Splashentation

/-! ## Accessors and the control hooks (`Standard.cpp`) -/

/-- The member `getPlayState`. -/
def getPlayState (s : Splashentation) : PlayState := s.m_playState

/-- The member `isPlaying`. -/
def isPlaying (s : Splashentation) : Bool := decide (getPlayState s = PlayState.Playing)

/-- The member `getCurrentSlideIndex`. -/
def getCurrentSlideIndex (s : Splashentation) : Nat := s.m_currentSlideIndex

/-- The member `priv_getSlideState`. -/
def priv_getSlideState (s : Splashentation) : SlideState := s.m_slideState

/-- The member `priv_setSlideState`. -/
def priv_setSlideState (s : Splashentation) (slideState : SlideState) : Splashentation :=
  { s with m_slideState := slideState }

/-- The local variables of `t_play` when the thread starts (lines 112, 113 and 120). -/
def TPlay.start (s : Splashentation) : TPlay :=
  { currentSlide := 0, previousSlide := s.m_slides.length, isComplete := false,
    showCurrentSlide := false, showPreviousSlide := false, pc := Pc.loopHead }

/-- The member `play`. Assigning to a thread object that is still joinable calls
`std::terminate`: the result is `none`. -/
def play (s : Splashentation) : Option Splashentation :=
  if isPlaying s || decide (s.m_slides.length = 0) then some s
  else
    match s.m_playThread with
    | some _ => none
    | none =>
      some { s with
        m_currentSlideIndex := 0
        m_moveOnToNextSlide := false
        m_slideState := SlideState.In
        m_playState := PlayState.Playing
        m_playThread := some (TPlay.start s) }

/-- The member `next`. -/
def next (s : Splashentation) : Splashentation :=
  priv_setSlideState { s with m_moveOnToNextSlide := true } SlideState.In

/-- The member `skip`. -/
def skip (s : Splashentation) : Splashentation := { s with m_controlSkip := true }

/-- The member `quit`. -/
def quit (s : Splashentation) : Splashentation := { s with m_controlQuit := true }

/-! ## Slides and control tables -/

/-- The copy constructor `Slide(Slide& slide)`. -/
def Slide.copy (slide : Slide) : Slide :=
  { color := slide.color, duration := slide.duration, transition := slide.transition,
    ids := slide.ids, keys := slide.keys, mouseButtons := slide.mouseButtons }

/-- The member `addSlide`. -/
def addSlide (s : Splashentation) (slide : Slide) : Splashentation :=
  if isPlaying s then s else { s with m_slides := s.m_slides ++ [Slide.copy slide] }

/-- The member `clearSlides`. -/
def clearSlides (s : Splashentation) : Splashentation :=
  if isPlaying s then s else { s with m_slides := [] }

/-- The member `addGlobalControlAction`. -/
def addGlobalControlAction (s : Splashentation) (controlAction : ControlAction) (key : Key) :
    Splashentation :=
  if isPlaying s then s
  else if s.m_globalKeys.count key = 0 then
    { s with m_globalKeys := s.m_globalKeys.assign key controlAction }
  else s

/-- The member `removeGlobalControlAction`. -/
def removeGlobalControlAction (s : Splashentation) (key : Key) : Splashentation :=
  if isPlaying s then s else { s with m_globalKeys := s.m_globalKeys.erase key }

/-- The member `getGlobalControlAction`. -/
def getGlobalControlAction (s : Splashentation) (key : Key) : ControlAction :=
  if isPlaying s then ControlAction.None
  else
    match s.m_globalKeys.find key with
    | none => ControlAction.None
    | some a => a

/-- The member `setGlobalMouseButtons`. -/
def setGlobalMouseButtons (s : Splashentation) (controlAction : ControlAction)
    (mouseButtons : MouseButtons) : Splashentation :=
  if isPlaying s then s
  else { s with m_globalMouseButtons := s.m_globalMouseButtons.assign controlAction mouseButtons }

/-- The member `getGlobalMouseButtons`. -/
def getGlobalMouseButtons (s : Splashentation) (controlAction : ControlAction) : MouseButtons :=
  if isPlaying s then MouseButtons.None
  else
    match s.m_globalMouseButtons.find controlAction with
    | none => MouseButtons.None
    | some b => b

/-- The member `addSlideControlAction`; `m_slides[slideIndex]` is unchecked. -/
def addSlideControlAction (s : Splashentation) (slideIndex : Nat) (controlAction : ControlAction)
    (key : Key) : Option Splashentation :=
  if isPlaying s then some s
  else
    match s.m_slides[slideIndex]? with
    | none => none
    | some sl =>
      if sl.keys.count key = 0 then
        some { s with
          m_slides := s.m_slides.set slideIndex { sl with keys := sl.keys.assign key controlAction } }
      else some s

/-- The member `removeSlideControlAction`; `m_slides[slideIndex]` is unchecked. -/
def removeSlideControlAction (s : Splashentation) (slideIndex : Nat) (key : Key) :
    Option Splashentation :=
  if isPlaying s then some s
  else
    match s.m_slides[slideIndex]? with
    | none => none
    | some sl =>
      some { s with m_slides := s.m_slides.set slideIndex { sl with keys := sl.keys.erase key } }

/-- The member `getSlideControlAction`; `m_slides[slideIndex]` is unchecked. -/
def getSlideControlAction (s : Splashentation) (slideIndex : Nat) (key : Key) :
    Option ControlAction :=
  if isPlaying s then some ControlAction.None
  else
    match s.m_slides[slideIndex]? with
    | none => none
    | some sl =>
      match sl.keys.find key with
      | none => some ControlAction.None
      | some a => some a

/-- The member `setSlideMouseButtons`; `m_slides[slideIndex]` is unchecked. -/
def setSlideMouseButtons (s : Splashentation) (slideIndex : Nat) (controlAction : ControlAction)
    (mouseButtons : MouseButtons) : Option Splashentation :=
  if isPlaying s then some s
  else
    match s.m_slides[slideIndex]? with
    | none => none
    | some sl =>
      some { s with
        m_slides := s.m_slides.set slideIndex
          { sl with mouseButtons := sl.mouseButtons.assign controlAction mouseButtons } }

/-- The member `getSlideMouseButtons`; `m_slides[slideIndex]` is unchecked. -/
def getSlideMouseButtons (s : Splashentation) (slideIndex : Nat) (controlAction : ControlAction) :
    Option MouseButtons :=
  if isPlaying s then some MouseButtons.None
  else
    match s.m_slides[slideIndex]? with
    | none => none
    | some sl =>
      match sl.mouseButtons.find controlAction with
      | none => some MouseButtons.None
      | some b => some b

/-! ## The shared resource dictionaries -/

/-- A font `sf::Font`, known by its handle; the handle `0` is the default-constructed font. -/
structure Font where
  handle : Nat
  deriving DecidableEq, Repr

/-- A texture `sf::Texture`, known by its handle; `0` is the default-constructed texture. -/
structure Texture where
  handle : Nat
  deriving DecidableEq, Repr

/-- The two dictionaries of the anonymous namespace (lines 48 and 49), shared by every
instance. -/
structure Resources where
  fonts : UnorderedMap String Font
  textures : UnorderedMap String Texture
  deriving DecidableEq, Repr

/-- The asset-decoding service: `loadFromFile` of a font and of a texture, giving the flag it
returns and the object as it leaves it. -/
structure Decoder where
  fontFromFile : Font → String → Bool × Font
  textureFromFile : Texture → String → Bool × Texture

/-- The member `clearAllResources`. -/
def clearAllResources (s : Splashentation) (r : Resources) : Resources :=
  if isPlaying s then r else { fonts := [], textures := [] }

/-- The member `addFont`. -/
def addFont (s : Splashentation) (r : Resources) (name : String) (font : Font) : Resources :=
  if isPlaying s then r else { r with fonts := r.fonts.assign name font }

/-- The member `loadFont`. -/
def loadFont (d : Decoder) (s : Splashentation) (r : Resources) (name filename : String) :
    Bool × Resources :=
  if isPlaying s then (false, r)
  else
    let entry := r.fonts.index name { handle := 0 }
    let loaded := d.fontFromFile entry.1 filename
    (loaded.1, { r with fonts := entry.2.assign name loaded.2 })

/-- The member `removeFont`. -/
def removeFont (s : Splashentation) (r : Resources) (name : String) : Resources :=
  if isPlaying s then r else { r with fonts := r.fonts.erase name }

/-- The member `getFont`; `none` is the null pointer. -/
def getFont (s : Splashentation) (r : Resources) (name : String) : Option Font × Resources :=
  if isPlaying s then (none, r)
  else
    let entry := r.fonts.index name { handle := 0 }
    (some entry.1, { r with fonts := entry.2 })

/-- The member `addTexture`. -/
def addTexture (s : Splashentation) (r : Resources) (name : String) (texture : Texture) :
    Resources :=
  if isPlaying s then r else { r with textures := r.textures.assign name texture }

/-- The member `loadTexture`. -/
def loadTexture (d : Decoder) (s : Splashentation) (r : Resources) (name filename : String) :
    Bool × Resources :=
  if isPlaying s then (false, r)
  else
    let entry := r.textures.index name { handle := 0 }
    let loaded := d.textureFromFile entry.1 filename
    (loaded.1, { r with textures := entry.2.assign name loaded.2 })

/-- The member `removeTexture`. -/
def removeTexture (s : Splashentation) (r : Resources) (name : String) : Resources :=
  if isPlaying s then r else { r with textures := r.textures.erase name }

/-- The member `getTexture`; `none` is the null pointer. -/
def getTexture (s : Splashentation) (r : Resources) (name : String) :
    Option Texture × Resources :=
  if isPlaying s then (none, r)
  else
    let entry := r.textures.index name { handle := 0 }
    (some entry.1, { r with textures := entry.2 })

/-! ## The playback thread `t_play` -/

/-- The member `priv_processKey`: the value returned, `foundKey` after the call, the object. -/
def priv_processKey (s : Splashentation) (control : Key × ControlAction) (key : Key)
    (foundKey : Bool) : Bool × Bool × Splashentation :=
  if foundKey || decide (control.1 ≠ key) then (true, foundKey, s)
  else
    match control.2 with
    | ControlAction.Quit => (false, foundKey, { s with m_playState := PlayState.Quit })
    | ControlAction.Skip => (false, foundKey, { s with m_playState := PlayState.Finished })
    | ControlAction.Next =>
      if priv_getSlideState s = SlideState.Show then (true, true, next s)
      else (true, foundKey, s)
    | ControlAction.None => (true, foundKey, s)

/-- The mask `mouseButtons` that `priv_processMouseButton` builds from the pressed button
(lines 631 to 637). -/
def pressedMouseButtons (mouseButton : Button) : MouseButtons :=
  (if mouseButton = Button.Left then MouseButtons.Left else MouseButtons.None) |||
  (if mouseButton = Button.Right then MouseButtons.Right else MouseButtons.None) |||
  (if mouseButton = Button.Middle then MouseButtons.Middle else MouseButtons.None)

/-- The member `priv_processMouseButton`: the value returned, `foundMouseButton` after the
call, the object. -/
def priv_processMouseButton (s : Splashentation) (control : ControlAction × MouseButtons)
    (mouseButton : Button) (foundMouseButton : Bool) : Bool × Bool × Splashentation :=
  if foundMouseButton then (true, foundMouseButton, s)
  else
    let mouseButtons := pressedMouseButtons mouseButton
    if control.2 &&& mouseButtons = mouseButtons then
      match control.1 with
      | ControlAction.Quit => (false, foundMouseButton, { s with m_playState := PlayState.Quit })
      | ControlAction.Skip =>
        (false, foundMouseButton, { s with m_playState := PlayState.Finished })
      | ControlAction.Next =>
        if priv_getSlideState s = SlideState.Show then (true, true, next s)
        else (true, foundMouseButton, s)
      | ControlAction.None => (true, foundMouseButton, s)
    else (true, foundMouseButton, s)

/-- One of the loops `for (auto& key : ...)` of lines 234 to 243: the control whose call
returned false, if one did, `foundKey` and the object after the loop. -/
def processKeys (s : Splashentation) (controls : List (Key × ControlAction)) (key : Key)
    (foundKey : Bool) : Option (Key × ControlAction) × Bool × Splashentation :=
  match controls with
  | [] => (none, foundKey, s)
  | control :: rest =>
    let r := priv_processKey s control key foundKey
    if r.1 then processKeys r.2.2 rest key r.2.1 else (some control, r.2.1, r.2.2)

/-- One of the loops `for (auto& buttons : ...)` of lines 216 to 225. -/
def processMouseButtons (s : Splashentation) (controls : List (ControlAction × MouseButtons))
    (mouseButton : Button) (foundMouseButton : Bool) :
    Option (ControlAction × MouseButtons) × Bool × Splashentation :=
  match controls with
  | [] => (none, foundMouseButton, s)
  | control :: rest =>
    let r := priv_processMouseButton s control mouseButton foundMouseButton
    if r.1 then processMouseButtons r.2.2 rest mouseButton r.2.1
    else (some control, r.2.1, r.2.2)

/-- The body of `while (m_window->pollEvent(event))` for one event (lines 206 to 248). -/
def handleEvent (s : Splashentation) (t : TPlay) (event : Event) :
    Option (Splashentation × TPlay) :=
  match event with
  | Event.Closed =>
    some ({ s with m_playState := PlayState.Quit }, { t with pc := Pc.returned Exit.closed })
  | Event.MouseButtonPressed button =>
    match s.m_slides[t.currentSlide]? with
    | none => none
    | some slide =>
      match processMouseButtons s slide.mouseButtons button false with
      | (some control, _, s1) => some (s1, { t with pc := Pc.returned (Exit.mouseButton control) })
      | (none, found, s1) =>
        match processMouseButtons s1 s1.m_globalMouseButtons button found with
        | (some control, _, s2) =>
          some (s2, { t with pc := Pc.returned (Exit.mouseButton control) })
        | (none, _, s2) => some (s2, t)
  | Event.KeyPressed code =>
    match s.m_slides[t.currentSlide]? with
    | none => none
    | some slide =>
      match processKeys s slide.keys code false with
      | (some control, _, s1) => some (s1, { t with pc := Pc.returned (Exit.key control) })
      | (none, found, s1) =>
        match processKeys s1 s1.m_globalKeys code found with
        | (some control, _, s2) => some (s2, { t with pc := Pc.returned (Exit.key control) })
        | (none, _, s2) => some (s2, t)
  | Event.Other => some (s, t)

/-- The loops of lines 137 to 141 and 146 to 150: the pointers `&m_drawables[id]` pushed,
each known by its key, and the table after the reads `m_drawables[id]`. -/
def collectDrawables (m : UnorderedMap String OrderedDrawable) (ids : List String) :
    List String × UnorderedMap String OrderedDrawable :=
  match ids with
  | [] => ([], m)
  | id :: rest =>
    let entry := m.index id OrderedDrawable.default
    let r := collectDrawables entry.2 rest
    if entry.1.drawable ≠ none then (id :: r.1, r.2) else r

/-- The member `zIndex` behind a pointer into `m_drawables`. -/
def zIndexAt (m : UnorderedMap String OrderedDrawable) (id : String) : Int :=
  match m.find id with
  | some d => d.zIndex
  | none => 0

/-- The calls of `std::sort` of lines 154 to 157, by `zIndex`. -/
def sortByZIndex (m : UnorderedMap String OrderedDrawable) (pointers : List String) :
    List String :=
  pointers.insertionSort (fun a b => zIndexAt m a ≤ zIndexAt m b)

/-- The member `drawable` of the entry of `id` in `m_drawables`; `none` is the null pointer,
also when `id` has no entry. -/
def drawableAt (m : UnorderedMap String OrderedDrawable) (id : String) : Option Drawable :=
  (m.find id).bind (fun d => d.drawable)

/-- The drawables behind a list of pointers into `m_drawables`, in the order drawn. -/
def drawn (m : UnorderedMap String OrderedDrawable) (pointers : List String) : List Drawable :=
  pointers.filterMap (drawableAt m)

/-- The arithmetic of the type `float`, as far as it is used: the rounding of an exact result
to a value of the type. Rounding is monotone, it leaves `0`, `1` and `255` as they are, and a
value that is at least `2 ^ -126`, the least positive normal number, is not rounded to zero. -/
structure FloatModel where
  round : ℚ → ℚ
  round_mono : ∀ x y, x ≤ y → round x ≤ round y
  round_zero : round 0 = 0
  round_one : round 1 = 1
  round_255 : round 255 = 255
  round_normal : ∀ x, 1 / 2 ^ 126 ≤ x → 0 < round x

/-- Exact arithmetic: nothing is rounded. -/
def FloatModel.exact : FloatModel :=
  { round := fun x => x
    round_mono := fun _ _ h => h
    round_zero := rfl
    round_one := rfl
    round_255 := rfl
    round_normal := fun _ h => lt_of_lt_of_le (by positivity) h }

/-- The value `asSeconds` of a time: the count of microseconds, converted to `float`, divided by
`1000000.f`. -/
def asSeconds (fl : FloatModel) (time : Time) : ℚ := fl.round (fl.round (time : ℚ) / 1000000)

/-- The quotient of line 188 where it is a number. A division by zero gives an infinity, which
the clamping of lines 189 to 192 turns into `1` or `0`, or, for `0 / 0`, no number at all
(`none`). -/
def alphaRatio (fl : FloatModel) (slideTime transition : Time) : Option ℚ :=
  if asSeconds fl transition = 0 then
    if asSeconds fl slideTime = 0 then none
    else if 0 < asSeconds fl slideTime then some 1
    else some 0
  else some (fl.round (asSeconds fl slideTime / asSeconds fl transition))

/-- The variable `alpha` after lines 188 to 192; `none` when it is not a number. -/
def alpha (fl : FloatModel) (slideState : SlideState) (slideTime transition : Time) : Option ℚ :=
  let a : Option ℚ :=
    if slideState = SlideState.In then alphaRatio fl slideTime transition else some 1
  a.map (fun a => if a < 0 then 0 else if a > 1 then 1 else a)

/-- The conversion of a `float` to an integer type: the fraction is dropped. -/
def truncate (x : ℚ) : Int := if 0 ≤ x then Rat.floor x else Rat.ceil x

/-- The fourth component of the colour of line 193, `255.f * alpha` converted to an integer,
before it is stored in a `sf::Uint8`. -/
def opacity (fl : FloatModel) (a : ℚ) : Int := truncate (fl.round (255 * a))

/-- What one iteration draws: the colour and the drawables of the previous slide on the window
(`none`: cleared to black), those of the current slide on the render texture, and the opacity
of the render sprite (`none`: not set, or not a number). -/
structure Frame where
  previous : Option (Color × List Drawable)
  current : Option (Color × List Drawable)
  opacity : Option Int

/-- Lines 126 to 157, the loop head: the two flags and the two sorted lists of pointers, with
the table `m_drawables` after the reads. -/
def loopHead (s : Splashentation) (t : TPlay) :
    Option (Splashentation × TPlay × List String × List String) :=
  let showCurrentSlide := decide (t.currentSlide ≠ s.m_slides.length)
  let showPreviousSlide :=
    decide (s.m_slideState = SlideState.In) && decide (t.previousSlide ≠ s.m_slides.length)
  let current :=
    if showCurrentSlide then
      (s.m_slides[t.currentSlide]?).map (fun slide => collectDrawables s.m_drawables slide.ids)
    else some ([], s.m_drawables)
  match current with
  | none => none
  | some c =>
    let previous :=
      if showPreviousSlide then
        (s.m_slides[t.previousSlide]?).map (fun slide => collectDrawables c.2 slide.ids)
      else some ([], c.2)
    match previous with
    | none => none
    | some p =>
      some ({ s with m_drawables := p.2 },
        { t with showCurrentSlide := showCurrentSlide, showPreviousSlide := showPreviousSlide,
                 pc := Pc.pollEvents },
        sortByZIndex p.2 c.1, sortByZIndex p.2 p.1)

/-- Lines 126 to 200: what the iteration draws when the clock reads `slideTime`. -/
def frame (fl : FloatModel) (s : Splashentation) (t : TPlay) (slideTime : Time) :
    Option Frame :=
  match loopHead s t with
  | none => none
  | some (s1, t1, currentSortedDrawables, previousSortedDrawables) =>
    some {
      previous :=
        if t1.showPreviousSlide then
          (s1.m_slides[t1.previousSlide]?).map
            (fun slide => (slide.color, drawn s1.m_drawables previousSortedDrawables))
        else none
      current :=
        if t1.showCurrentSlide then
          (s1.m_slides[t1.currentSlide]?).map
            (fun slide => (slide.color, drawn s1.m_drawables currentSortedDrawables))
        else none
      opacity :=
        if t1.showCurrentSlide then
          (s1.m_slides[t1.currentSlide]?).bind
            (fun slide =>
              (alpha fl (priv_getSlideState s1) slideTime slide.transition).map (opacity fl))
        else none }

/-- The sum of two times, `operator+` of `sf::Time`: the sum of the two counts of
microseconds in the 64 bits of `sf::Int64`, two's complement. The language leaves a signed
sum that overflows without a meaning; the value taken here is the one the addition of the
processor gives. -/
def Time.add (left right : Time) : Time :=
  (left + right + 9223372036854775808) % 18446744073709551616 - 9223372036854775808

/-- Line 254, the test that guards the timer checks: the section that follows. -/
def updateTest (s : Splashentation) (t : TPlay) : Pc :=
  if t.showCurrentSlide && !s.m_moveOnToNextSlide then Pc.updateRead else Pc.controls

/-- Lines 257 to 266: the two timer checks on the fade state `currentSlideState` that line 256
read, when the clock reads `elapsed`. -/
def updateChecks (s : Splashentation) (t : TPlay) (currentSlideState : SlideState)
    (elapsed : Time) : Option (Splashentation × TPlay) :=
  match s.m_slides[t.currentSlide]? with
  | none => none
  | some slide =>
    match currentSlideState with
    | SlideState.In =>
      if slide.transition = 0 || decide (elapsed ≥ slide.transition) then
        some (priv_setSlideState s SlideState.Show, { t with pc := Pc.controls })
      else some (s, { t with pc := Pc.controls })
    | SlideState.Show =>
      if decide (slide.duration > 0) &&
          decide (elapsed ≥ Time.add slide.transition slide.duration) then
        some (next s, { t with pc := Pc.controls })
      else some (s, { t with pc := Pc.controls })

/-- Lines 253 to 267 in one piece, the update as it runs when no call of the owning thread
falls between its three steps: the test, the read of the fade state, the two checks. -/
def update (s : Splashentation) (t : TPlay) (elapsed : Time) : Option (Splashentation × TPlay) :=
  match updateTest s t with
  | Pc.updateRead => updateChecks s t (priv_getSlideState s) elapsed
  | _ => some (s, { t with pc := Pc.controls })

/-- Lines 271 to 308: the external controls, the progression, and the end of the loop when
`isComplete` is set. Incrementing an iterator that is at `end()` is undefined. -/
def controls (s : Splashentation) (t : TPlay) : Option (Splashentation × TPlay) :=
  if s.m_controlSkip then
    some ({ s with m_playState := PlayState.Finished },
      { t with pc := Pc.returned Exit.controlSkip })
  else if s.m_controlQuit then
    some ({ s with m_playState := PlayState.Quit }, { t with pc := Pc.returned Exit.controlQuit })
  else if s.m_moveOnToNextSlide then
    if t.currentSlide ≥ s.m_slides.length then none
    else if t.currentSlide ≠ 0 ∧ t.previousSlide ≥ s.m_slides.length then none
    else
      let previousSlide := if t.currentSlide = 0 then t.currentSlide else t.previousSlide + 1
      let currentSlide := t.currentSlide + 1
      if currentSlide = s.m_slides.length then
        some ({ s with m_moveOnToNextSlide := false, m_playState := PlayState.Finished },
          { t with previousSlide := previousSlide, currentSlide := currentSlide,
                   isComplete := true, pc := Pc.returned Exit.complete })
      else
        some ({ s with m_moveOnToNextSlide := false,
                       m_currentSlideIndex := currentSlide % 4294967296 },
          { t with previousSlide := previousSlide, currentSlide := currentSlide,
                   pc := Pc.loopHead })
  else some (s, { t with pc := Pc.loopHead })

/-- What the environment supplies to a step of the playback thread: the event `pollEvent`
delivers (`none`: the queue is empty) and the reading of `m_clock`. -/
structure Env where
  event : Option Event
  elapsed : Time
  deriving DecidableEq, Repr

/-- One step of the playback thread: the section of `t_play` it is at. Without a thread, or
after the return, nothing happens. The update of lines 253 to 267 takes up to three steps. -/
def threadStep (s : Splashentation) (env : Env) : Option Splashentation :=
  match s.m_playThread with
  | none => some s
  | some t =>
    let r : Option (Splashentation × TPlay) :=
      match t.pc with
      | Pc.loopHead => (loopHead s t).map (fun r => (r.1, r.2.1))
      | Pc.pollEvents =>
        match env.event with
        | none => some (s, { t with pc := Pc.update })
        | some event => handleEvent s t event
      | Pc.update => some (s, { t with pc := updateTest s t })
      | Pc.updateRead => some (s, { t with pc := Pc.updateChecks (priv_getSlideState s) })
      | Pc.updateChecks currentSlideState => updateChecks s t currentSlideState env.elapsed
      | Pc.controls => controls s t
      | Pc.returned _ => some (s, t)
    r.map (fun r => { r.1 with m_playThread := some r.2 })

/-- What can happen during playback: a call from the owning thread, or a step of the playback
thread. -/
inductive Label where
  | next
  | skip
  | quit
  | thread (env : Env)
  deriving DecidableEq, Repr

/-- The effect of one label. -/
def step (s : Splashentation) (l : Label) : Option Splashentation :=
  match l with
  | Label.next => some (next s)
  | Label.skip => some (skip s)
  | Label.quit => some (quit s)
  | Label.thread env => threadStep s env

/-- The effect of a sequence of labels. -/
def run (s : Splashentation) (ls : List Label) : Option Splashentation :=
  match ls with
  | [] => some s
  | l :: rest =>
    match step s l with
    | none => none
    | some s1 => run s1 rest

/-! ## Predicates used to state the properties -/

/-- Two objects that agree on every member a control action leaves alone: they differ at most
in `m_playState`, `m_moveOnToNextSlide` and `m_slideState`. -/
def SameButControls (s s1 : Splashentation) : Prop :=
  s1.m_slides = s.m_slides ∧ s1.m_currentSlideIndex = s.m_currentSlideIndex ∧
  s1.m_playThread = s.m_playThread ∧ s1.m_controlSkip = s.m_controlSkip ∧
  s1.m_controlQuit = s.m_controlQuit ∧ s1.m_drawables = s.m_drawables ∧
  s1.m_globalKeys = s.m_globalKeys ∧ s1.m_globalMouseButtons = s.m_globalMouseButtons

/-- The play state that goes with a return site of `t_play`. -/
def ExitState (x : Exit) (p : PlayState) : Prop :=
  match x with
  | Exit.closed => p = PlayState.Quit
  | Exit.mouseButton control =>
    (control.1 = ControlAction.Quit ∧ p = PlayState.Quit) ∨
    (control.1 = ControlAction.Skip ∧ p = PlayState.Finished)
  | Exit.key control =>
    (control.2 = ControlAction.Quit ∧ p = PlayState.Quit) ∨
    (control.2 = ControlAction.Skip ∧ p = PlayState.Finished)
  | Exit.controlSkip => p = PlayState.Finished
  | Exit.controlQuit => p = PlayState.Quit
  | Exit.complete => p = PlayState.Finished

/-- The playback thread is inside its loop. -/
def TPlay.running (t : TPlay) : Bool :=
  match t.pc with
  | Pc.returned _ => false
  | _ => true

/-- What made `t_play` return at the site `x`, in terms of the state `s`, the local variables
`t` and the input `env` of the step that returned. -/
def ExitCause (s : Splashentation) (t : TPlay) (env : Env) (x : Exit) : Prop :=
  match x with
  | Exit.closed => t.pc = Pc.pollEvents ∧ env.event = some Event.Closed
  | Exit.mouseButton control =>
    t.pc = Pc.pollEvents ∧
    (∃ button, env.event = some (Event.MouseButtonPressed button) ∧
      control.2 &&& pressedMouseButtons button = pressedMouseButtons button) ∧
    ((∃ slide, s.m_slides[t.currentSlide]? = some slide ∧ control ∈ slide.mouseButtons) ∨
      control ∈ s.m_globalMouseButtons)
  | Exit.key control =>
    t.pc = Pc.pollEvents ∧ env.event = some (Event.KeyPressed control.1) ∧
    ((∃ slide, s.m_slides[t.currentSlide]? = some slide ∧ control ∈ slide.keys) ∨
      control ∈ s.m_globalKeys)
  | Exit.controlSkip => t.pc = Pc.controls ∧ s.m_controlSkip = true
  | Exit.controlQuit => t.pc = Pc.controls ∧ s.m_controlSkip = false ∧ s.m_controlQuit = true
  | Exit.complete =>
    t.pc = Pc.controls ∧ s.m_controlSkip = false ∧ s.m_controlQuit = false ∧
    s.m_moveOnToNextSlide = true ∧ t.currentSlide + 1 = s.m_slides.length


/-- The invariant of playback: a thread exists, the slide index is in bounds and, until the
loop has completed, it is the offset of `currentSlide`, with `previousSlide` at `end()` on the
first slide and one slide behind afterwards. -/
def PlaybackInv (s : Splashentation) : Prop :=
  ∃ t, s.m_playThread = some t ∧ s.m_slides.length < 4294967296 ∧
    s.m_currentSlideIndex < s.m_slides.length ∧
    (t.pc ≠ Pc.returned Exit.complete →
      s.m_currentSlideIndex = t.currentSlide ∧
      ((t.currentSlide = 0 ∧ t.previousSlide = s.m_slides.length) ∨
        t.previousSlide + 1 = t.currentSlide))

/-- The label makes a request to advance: it is a call of `next`, or a poll of the playback
thread whose event sets the pending-advance flag through a `Next` control action. -/
def requestsAdvance (s : Splashentation) (l : Label) : Bool :=
  match l with
  | Label.next => true
  | Label.thread env =>
    match s.m_playThread, env.event with
    | some t, some event =>
      decide (t.pc = Pc.pollEvents) &&
        (match handleEvent s t event with
         | some r => r.1.m_moveOnToNextSlide && !s.m_moveOnToNextSlide
         | none => false)
    | _, _ => false
  | _ => false

/-- No label of the run makes a request to advance. -/
def noAdvanceRequested (s : Splashentation) (ls : List Label) : Bool :=
  match ls with
  | [] => true
  | l :: rest =>
    !requestsAdvance s l &&
      (match step s l with
       | some s1 => noAdvanceRequested s1 rest
       | none => true)

/-- The label asks playback to end: it is a call of `skip` or `quit`, or a poll of the
playback thread whose event makes `t_play` return (a `Closed` event, or an input whose control
action is `Quit` or `Skip`). -/
def requestsExit (s : Splashentation) (l : Label) : Bool :=
  match l with
  | Label.skip => true
  | Label.quit => true
  | Label.thread env =>
    match s.m_playThread, env.event with
    | some t, some event =>
      decide (t.pc = Pc.pollEvents) &&
        (match handleEvent s t event with
         | some r => !r.2.running
         | none => false)
    | _, _ => false
  | Label.next => false

/-- No label of the run asks playback to end. -/
def noExitRequested (s : Splashentation) (ls : List Label) : Bool :=
  match ls with
  | [] => true
  | l :: rest =>
    !requestsExit s l &&
      (match step s l with
       | some s1 => noExitRequested s1 rest
       | none => true)

/-- The label is a step of the playback thread that executes the progression of lines 288 to
303: the thread is at its external controls, no flag ends playback, and an advance is
pending. -/
def isAdvance (s : Splashentation) (l : Label) : Bool :=
  match l with
  | Label.thread _ =>
    match s.m_playThread with
    | some t =>
      decide (t.pc = Pc.controls) && !s.m_controlSkip && !s.m_controlQuit &&
        s.m_moveOnToNextSlide
    | none => false
  | _ => false

/-- The number of advances, that is of executions of the progression, in a run. -/
def advances (s : Splashentation) (ls : List Label) : Nat :=
  match ls with
  | [] => 0
  | l :: rest =>
    (if isAdvance s l then 1 else 0) +
      (match step s l with
       | some s1 => advances s1 rest
       | none => 0)

/-- The state of a playback without exit requests after `k` advances. -/
def AdvancedBy (s : Splashentation) (k : Nat) : Prop :=
  ∃ t, s.m_playThread = some t ∧ s.m_slides.length < 4294967296 ∧
    s.m_controlSkip = false ∧ s.m_controlQuit = false ∧
    ((k < s.m_slides.length ∧ s.m_playState = PlayState.Playing ∧ t.running = true ∧
        t.currentSlide = k ∧ s.m_currentSlideIndex = k ∧
        (k = 0 → t.previousSlide = s.m_slides.length) ∧ (k ≠ 0 → t.previousSlide + 1 = k)) ∨
      (k = s.m_slides.length ∧ s.m_playState = PlayState.Finished ∧
        t.pc = Pc.returned Exit.complete ∧ s.m_currentSlideIndex + 1 = s.m_slides.length))

/-- A pending advance goes with the fade state `In`: the flag is set by `next` only, which
also sets the fade state. -/
def AdvanceFadesIn (s : Splashentation) : Prop :=
  s.m_moveOnToNextSlide = true → s.m_slideState = SlideState.In

/-- The playback thread is inside its timer checks: past the test of the pending-advance
flag (line 254) and before the end of the two checks (line 266). -/
def TPlay.insideTimerChecks (t : TPlay) : Bool :=
  match t.pc with
  | Pc.updateRead => true
  | Pc.updateChecks _ => true
  | _ => false

/-- The label is a call of `next` by the owning thread that falls inside the timer checks of
the playback thread. -/
def nextInsideTimerChecks (s : Splashentation) (l : Label) : Bool :=
  match l, s.m_playThread with
  | Label.next, some t => t.insideTimerChecks
  | _, _ => false

/-- No call of `next` in the run falls inside the timer checks of the playback thread. -/
def noNextInsideTimerChecks (s : Splashentation) (ls : List Label) : Bool :=
  match ls with
  | [] => true
  | l :: rest =>
    !nextInsideTimerChecks s l &&
      (match step s l with
       | some s1 => noNextInsideTimerChecks s1 rest
       | none => true)

/-- The invariant of a playback in which no call of `next` falls inside the timer checks: a
pending advance goes with the fade state `In`, and no advance is pending while the thread is
inside its timer checks. -/
def TimerChecksInv (s : Splashentation) : Prop :=
  AdvanceFadesIn s ∧
  ∀ t, s.m_playThread = some t → t.insideTimerChecks = true → s.m_moveOnToNextSlide = false

/-- The playback started in the state `s0` has just entered a slide in the state `s1`, and no
call of `next` fell inside the timer checks on the way: `s1` is `s0` itself, the result of
`play`, or `s1` is the result of a step of the playback thread that executed the progression
and left the thread inside its loop. -/
def JustEntered (s0 s1 : Splashentation) : Prop :=
  s1 = s0 ∨
  ∃ ls s env t1, run s0 ls = some s ∧ noNextInsideTimerChecks s0 ls = true ∧
    isAdvance s (Label.thread env) = true ∧
    step s (Label.thread env) = some s1 ∧ s1.m_playThread = some t1 ∧ t1.running = true

/-- What the owning thread and the playback thread can do to a presentation: the public
operations on the slide list, `play`, and the labels of playback. -/
inductive Operation where
  | addSlide (slide : Slide)
  | clearSlides
  | play
  | label (l : Label)
  deriving DecidableEq, Repr

/-- The effect of one operation; `none` when `play` ends the program. -/
def applyOperation (s : Splashentation) (o : Operation) : Option Splashentation :=
  match o with
  | Operation.addSlide slide => some (addSlide s slide)
  | Operation.clearSlides => some (clearSlides s)
  | Operation.play => play s
  | Operation.label l => step s l

/-- The effect of a sequence of operations. -/
def runOperations (s : Splashentation) (os : List Operation) : Option Splashentation :=
  match os with
  | [] => some s
  | o :: rest =>
    match applyOperation s o with
    | none => none
    | some s1 => runOperations s1 rest

/-- The operation is a call of `clearSlides` that takes effect: the presentation is not
playing. -/
def clearsSlideList (s : Splashentation) (o : Operation) : Bool :=
  match o with
  | Operation.clearSlides => !isPlaying s
  | _ => false

/-- No call of `clearSlides` in the sequence takes effect. -/
def noSlideListCleared (s : Splashentation) (os : List Operation) : Bool :=
  match os with
  | [] => true
  | o :: rest =>
    !clearsSlideList s o &&
      (match applyOperation s o with
       | some s1 => noSlideListCleared s1 rest
       | none => true)

/-- The invariant of a presentation that has been played, under every operation but a
`clearSlides` that takes effect: the slide index is in bounds, and either playback is in
progress, with its own invariant, or the thread has returned and the play state is not
`Playing`. -/
def PlayedInv (s : Splashentation) : Prop :=
  ∃ t, s.m_playThread = some t ∧ s.m_currentSlideIndex < s.m_slides.length ∧
    ((t.running = true ∧ s.m_playState = PlayState.Playing ∧ PlaybackInv s) ∨
      (t.running = false ∧ s.m_playState ≠ PlayState.Playing))

/-- The integer is a count of microseconds that `sf::Time` can hold, a value of `sf::Int64`. -/
def Time.representable (count : Int) : Prop :=
  -9223372036854775808 ≤ count ∧ count ≤ 9223372036854775807

/-- What a playback shows of its timer checks: the fade state, the pending-advance flag, and
the iterator `currentSlide` with the section the thread is at. -/
def playbackView (s : Splashentation) : SlideState × Bool × Option (Nat × Pc) :=
  (s.m_slideState, s.m_moveOnToNextSlide, s.m_playThread.map (fun t => (t.currentSlide, t.pc)))

/-- What a playback shows of its end: the play state, the flags `m_controlSkip` and
`m_controlQuit`, and the section the thread is at. -/
def exitView (s : Splashentation) : PlayState × Bool × Bool × Option Pc :=
  (s.m_playState, s.m_controlSkip, s.m_controlQuit, s.m_playThread.map (fun t => t.pc))

/-! ## A concrete presentation -/

/-- A first slide, shown for one second, with four references to drawables. -/
def demoSlide1 : Slide :=
  { Slide.default with duration := 1000000, ids := ["sun", "bar", "text", "sun"] }

/-- A second slide without a timer; the key `57` is bound to `Next` on it. -/
def demoSlide2 : Slide :=
  { Slide.default with duration := 0, ids := ["sun", "logo"], keys := [(57, ControlAction.Next)] }

/-- A last, empty slide with a short transition. -/
def demoSlide3 : Slide := { Slide.default with duration := 100, transition := 500000 }

/-- A presentation of three slides that has not been played; the key `36` quits. -/
def demoReady : Splashentation :=
  { m_slideState := SlideState.In
    m_drawables :=
      [("sun", { drawable := some { handle := 1 }, zIndex := 0 }),
       ("bar", { drawable := some { handle := 2 }, zIndex := 3 }),
       ("text", { drawable := some { handle := 3 }, zIndex := 2 }),
       ("logo", { drawable := some { handle := 4 }, zIndex := 1 })]
    m_slides := [demoSlide1, demoSlide2, demoSlide3]
    m_playState := PlayState.Ready
    m_moveOnToNextSlide := false
    m_controlSkip := false
    m_controlQuit := false
    m_currentSlideIndex := 0
    m_globalKeys := [(36, ControlAction.Quit)]
    m_globalMouseButtons := []
    m_playThread := none }

/-- The presentation `demoReady` after `play`. -/
def demoPlaying : Splashentation :=
  { demoReady with
    m_playState := PlayState.Playing
    m_playThread := some (TPlay.start demoReady) }

/-- A step of the playback thread that finds no event, with the clock at `elapsed`. -/
def tick (elapsed : Time) : Label := Label.thread { event := none, elapsed := elapsed }

/-- A step of the playback thread that finds the event `event`. -/
def deliver (event : Event) : Label := Label.thread { event := some event, elapsed := 0 }

/-- Shared dictionaries holding one font and one texture. -/
def demoResources : Resources :=
  { fonts := [("arial", { handle := 1 })], textures := [("sun photo", { handle := 2 })] }

/-- A decoding service under which every load succeeds. -/
def demoDecoder : Decoder :=
  { fontFromFile := fun _ _ => (true, { handle := 7 })
    textureFromFile := fun _ _ => (true, { handle := 8 }) }

/-- The presentation `demoPlaying` when its thread has drawn the first frame. -/
def demoPolling : Splashentation :=
  { demoPlaying with
    m_playThread := some { TPlay.start demoReady with showCurrentSlide := true,
                                                      pc := Pc.pollEvents } }

/-- The presentation `demoPlaying` after a call of `skip`, when its thread has reached the
external controls of the first iteration. -/
def demoSkipAtControls : Splashentation :=
  { skip demoPlaying with
    m_playThread := some { TPlay.start demoReady with showCurrentSlide := true,
                                                      pc := Pc.controls } }

/-- The local variables of the thread of `demoOnSecond`. -/
def demoOnSecondThread : TPlay :=
  { currentSlide := 1, previousSlide := 0, isComplete := false, showCurrentSlide := true,
    showPreviousSlide := false, pc := Pc.update }

/-- The presentation `demoPlaying` when it shows its second slide, the one without a timer,
and its thread is at the timer checks. -/
def demoOnSecond : Splashentation :=
  { demoPlaying with
    m_slideState := SlideState.Show
    m_currentSlideIndex := 1
    m_playThread := some demoOnSecondThread }

/-- The presentation `demoPolling` when `setGlobalMouseButtons(Quit, None)` was called before
`play`: the action `Quit` is bound to no mouse button. -/
def demoMouseNone : Splashentation :=
  { demoPolling with m_globalMouseButtons := [(ControlAction.Quit, MouseButtons.None)] }

/-- The local variables of the thread of `demoShowFirst`. -/
def demoShowFirstThread : TPlay :=
  { TPlay.start demoReady with showCurrentSlide := true, pc := Pc.update }

/-- The presentation `demoPlaying` when its first slide is fully shown and its thread is at
the timer checks. -/
def demoShowFirst : Splashentation :=
  { demoPlaying with
    m_slideState := SlideState.Show
    m_playThread := some demoShowFirstThread }

/-- A slide that is meant to stay: the default transition of two seconds and the largest
duration `sf::Time` can hold. -/
def demoForeverSlide : Slide := { Slide.default with duration := 9223372036854775807 }

/-- A presentation of `demoForeverSlide` and a last slide that has not been played. -/
def demoForeverReady : Splashentation :=
  { demoReady with m_slides := [demoForeverSlide, demoSlide3] }

/-- A presentation of the two slides with a timer that has not been played. -/
def demoPairReady : Splashentation := { demoReady with m_slides := [demoSlide1, demoSlide3] }

/-- The presentation `demoOnSecond`, on its second slide in the `Show` state, when the global
table binds to `Quit` the key `57` that the slide binds to `Next`. -/
def demoNextOrQuit : Splashentation :=
  { demoOnSecond with m_globalKeys := [(57, ControlAction.Quit)] }

/-! ## Properties -/

section Lemmas

theorem SameButControls.refl (s : Splashentation) : SameButControls s s := by
  simp [SameButControls]

theorem SameButControls.trans {a b c : Splashentation} (h1 : SameButControls a b)
    (h2 : SameButControls b c) : SameButControls a c := by
  obtain ⟨h11, h12, h13, h14, h15, h16, h17, h18⟩ := h1
  obtain ⟨h21, h22, h23, h24, h25, h26, h27, h28⟩ := h2
  exact ⟨h21.trans h11, h22.trans h12, h23.trans h13, h24.trans h14, h25.trans h15,
    h26.trans h16, h27.trans h17, h28.trans h18⟩

theorem priv_processKey_same (s : Splashentation) (control : Key × ControlAction) (key : Key)
    (foundKey : Bool) : SameButControls s (priv_processKey s control key foundKey).2.2 := by
  unfold priv_processKey
  split
  · exact SameButControls.refl s
  · split <;> try split
    all_goals simp [SameButControls, next, priv_setSlideState]

theorem priv_processKey_true (s : Splashentation) (control : Key × ControlAction) (key : Key)
    (foundKey : Bool) (h : (priv_processKey s control key foundKey).1 = true) :
    (priv_processKey s control key foundKey).2.2.m_playState = s.m_playState := by
  unfold priv_processKey at h ⊢
  split
  · rfl
  · split <;> try split
    all_goals simp_all [next, priv_setSlideState]

theorem priv_processKey_false (s : Splashentation) (control : Key × ControlAction) (key : Key)
    (foundKey : Bool) (h : (priv_processKey s control key foundKey).1 = false) :
    ExitState (Exit.key control) (priv_processKey s control key foundKey).2.2.m_playState := by
  unfold priv_processKey at h ⊢
  split
  · simp_all
  · split <;> try split
    all_goals simp_all [next, priv_setSlideState, ExitState]

theorem priv_processMouseButton_same (s : Splashentation) (control : ControlAction × MouseButtons)
    (mouseButton : Button) (found : Bool) :
    SameButControls s (priv_processMouseButton s control mouseButton found).2.2 := by
  unfold priv_processMouseButton
  split
  · exact SameButControls.refl s
  · simp only
    split
    · split <;> try split
      all_goals simp [SameButControls, next, priv_setSlideState]
    · exact SameButControls.refl s

theorem priv_processMouseButton_true (s : Splashentation)
    (control : ControlAction × MouseButtons) (mouseButton : Button) (found : Bool)
    (h : (priv_processMouseButton s control mouseButton found).1 = true) :
    (priv_processMouseButton s control mouseButton found).2.2.m_playState = s.m_playState := by
  unfold priv_processMouseButton at h ⊢
  split
  · rfl
  · simp only at h ⊢
    split
    · split <;> try split
      all_goals simp_all [next, priv_setSlideState]
    · rfl

theorem priv_processMouseButton_false (s : Splashentation)
    (control : ControlAction × MouseButtons) (mouseButton : Button) (found : Bool)
    (h : (priv_processMouseButton s control mouseButton found).1 = false) :
    ExitState (Exit.mouseButton control)
      (priv_processMouseButton s control mouseButton found).2.2.m_playState := by
  unfold priv_processMouseButton at h ⊢
  split
  · simp_all
  · simp only at h ⊢
    split
    · split <;> try split
      all_goals simp_all [next, priv_setSlideState, ExitState]
    · simp_all

/-- The effect of a loop over a key table: the members outside the controls are kept; when
no call returned false the play state is kept, and otherwise it is the one of the exit. -/
theorem processKeys_spec (controls : List (Key × ControlAction)) (key : Key) :
    ∀ (s : Splashentation) (found : Bool),
      SameButControls s (processKeys s controls key found).2.2 ∧
      (∀ control, (processKeys s controls key found).1 = some control →
        ExitState (Exit.key control) (processKeys s controls key found).2.2.m_playState) ∧
      ((processKeys s controls key found).1 = none →
        (processKeys s controls key found).2.2.m_playState = s.m_playState) := by
  induction controls with
  | nil => intro s found; simp [processKeys, SameButControls.refl]
  | cons c rest ih =>
    intro s found
    unfold processKeys
    simp only
    by_cases h : (priv_processKey s c key found).1 = true
    · rw [if_pos h]
      obtain ⟨h1, h2, h3⟩ := ih (priv_processKey s c key found).2.2
        (priv_processKey s c key found).2.1
      refine ⟨(priv_processKey_same s c key found).trans h1, h2, fun hn => ?_⟩
      rw [h3 hn, priv_processKey_true s c key found h]
    · rw [if_neg h]
      simp only [Bool.not_eq_true] at h
      refine ⟨priv_processKey_same s c key found, fun control hc => ?_, fun hn => ?_⟩
      · simp only [Option.some.injEq] at hc
        subst hc
        exact priv_processKey_false s c key found h
      · simp at hn

/-- The effect of a loop over a mouse-button table. -/
theorem processMouseButtons_spec (controls : List (ControlAction × MouseButtons))
    (mouseButton : Button) :
    ∀ (s : Splashentation) (found : Bool),
      SameButControls s (processMouseButtons s controls mouseButton found).2.2 ∧
      (∀ control, (processMouseButtons s controls mouseButton found).1 = some control →
        ExitState (Exit.mouseButton control)
          (processMouseButtons s controls mouseButton found).2.2.m_playState) ∧
      ((processMouseButtons s controls mouseButton found).1 = none →
        (processMouseButtons s controls mouseButton found).2.2.m_playState = s.m_playState) := by
  induction controls with
  | nil => intro s found; simp [processMouseButtons, SameButControls.refl]
  | cons c rest ih =>
    intro s found
    unfold processMouseButtons
    simp only
    by_cases h : (priv_processMouseButton s c mouseButton found).1 = true
    · rw [if_pos h]
      obtain ⟨h1, h2, h3⟩ := ih (priv_processMouseButton s c mouseButton found).2.2
        (priv_processMouseButton s c mouseButton found).2.1
      refine ⟨(priv_processMouseButton_same s c mouseButton found).trans h1, h2, fun hn => ?_⟩
      rw [h3 hn, priv_processMouseButton_true s c mouseButton found h]
    · rw [if_neg h]
      simp only [Bool.not_eq_true] at h
      refine ⟨priv_processMouseButton_same s c mouseButton found, fun control hc => ?_,
        fun hn => ?_⟩
      · simp only [Option.some.injEq] at hc
        subst hc
        exact priv_processMouseButton_false s c mouseButton found h
      · simp at hn

theorem handleEvent_spec (s s1 : Splashentation) (t t1 : TPlay) (event : Event)
    (h : handleEvent s t event = some (s1, t1)) :
    SameButControls s s1 ∧
    ((t1 = t ∧ s1.m_playState = s.m_playState) ∨
      ∃ x, t1 = { t with pc := Pc.returned x } ∧ ExitState x s1.m_playState ∧
        x ≠ Exit.controlSkip ∧ x ≠ Exit.controlQuit ∧ x ≠ Exit.complete) := by
  unfold handleEvent at h
  cases event with
  | Closed =>
    simp only [Option.some.injEq, Prod.mk.injEq] at h
    obtain ⟨rfl, rfl⟩ := h
    exact ⟨by simp [SameButControls], Or.inr ⟨Exit.closed, rfl, by simp [ExitState]⟩⟩
  | Other =>
    simp only [Option.some.injEq, Prod.mk.injEq] at h
    obtain ⟨rfl, rfl⟩ := h
    exact ⟨SameButControls.refl _, Or.inl ⟨rfl, rfl⟩⟩
  | MouseButtonPressed button =>
    simp only at h
    cases hsl : s.m_slides[t.currentSlide]? with
    | none => simp [hsl] at h
    | some slide =>
      simp only [hsl] at h
      obtain ⟨a1, a2, a3⟩ := processMouseButtons_spec slide.mouseButtons button s false
      generalize processMouseButtons s slide.mouseButtons button false = r1 at h a1 a2 a3
      obtain ⟨o1, f1, u1⟩ := r1
      cases o1 with
      | some control =>
        simp only [Option.some.injEq, Prod.mk.injEq] at h
        obtain ⟨rfl, rfl⟩ := h
        exact ⟨a1, Or.inr ⟨Exit.mouseButton control, rfl, a2 control rfl, by simp⟩⟩
      | none =>
        simp only at h
        obtain ⟨b1, b2, b3⟩ := processMouseButtons_spec u1.m_globalMouseButtons button u1 f1
        generalize processMouseButtons u1 u1.m_globalMouseButtons button f1 = r2 at h b1 b2 b3
        obtain ⟨o2, f2, u2⟩ := r2
        cases o2 with
        | some control =>
          simp only [Option.some.injEq, Prod.mk.injEq] at h
          obtain ⟨rfl, rfl⟩ := h
          exact ⟨a1.trans b1, Or.inr ⟨Exit.mouseButton control, rfl, b2 control rfl, by simp⟩⟩
        | none =>
          simp only [Option.some.injEq, Prod.mk.injEq] at h
          obtain ⟨rfl, rfl⟩ := h
          exact ⟨a1.trans b1, Or.inl ⟨rfl, (b3 rfl).trans (a3 rfl)⟩⟩
  | KeyPressed code =>
    simp only at h
    cases hsl : s.m_slides[t.currentSlide]? with
    | none => simp [hsl] at h
    | some slide =>
      simp only [hsl] at h
      obtain ⟨a1, a2, a3⟩ := processKeys_spec slide.keys code s false
      generalize processKeys s slide.keys code false = r1 at h a1 a2 a3
      obtain ⟨o1, f1, u1⟩ := r1
      cases o1 with
      | some control =>
        simp only [Option.some.injEq, Prod.mk.injEq] at h
        obtain ⟨rfl, rfl⟩ := h
        exact ⟨a1, Or.inr ⟨Exit.key control, rfl, a2 control rfl, by simp⟩⟩
      | none =>
        simp only at h
        obtain ⟨b1, b2, b3⟩ := processKeys_spec u1.m_globalKeys code u1 f1
        generalize processKeys u1 u1.m_globalKeys code f1 = r2 at h b1 b2 b3
        obtain ⟨o2, f2, u2⟩ := r2
        cases o2 with
        | some control =>
          simp only [Option.some.injEq, Prod.mk.injEq] at h
          obtain ⟨rfl, rfl⟩ := h
          exact ⟨a1.trans b1, Or.inr ⟨Exit.key control, rfl, b2 control rfl, by simp⟩⟩
        | none =>
          simp only [Option.some.injEq, Prod.mk.injEq] at h
          obtain ⟨rfl, rfl⟩ := h
          exact ⟨a1.trans b1, Or.inl ⟨rfl, (b3 rfl).trans (a3 rfl)⟩⟩

theorem handleEvent_defined (s : Splashentation) (t : TPlay) (event : Event)
    (h : t.currentSlide < s.m_slides.length) : ∃ r, handleEvent s t event = some r := by
  have hsl : s.m_slides[t.currentSlide]? = some s.m_slides[t.currentSlide] :=
    List.getElem?_eq_getElem h
  unfold handleEvent
  cases event with
  | Closed => exact ⟨_, rfl⟩
  | Other => exact ⟨_, rfl⟩
  | MouseButtonPressed button =>
    simp only [hsl]
    split
    · exact ⟨_, rfl⟩
    · split <;> exact ⟨_, rfl⟩
  | KeyPressed code =>
    simp only [hsl]
    split
    · exact ⟨_, rfl⟩
    · split <;> exact ⟨_, rfl⟩

theorem loopHead_spec (s : Splashentation) (t : TPlay) (h : t.currentSlide < s.m_slides.length)
    (hp : t.previousSlide ≠ s.m_slides.length → t.previousSlide < s.m_slides.length) :
    ∃ m current previous,
      loopHead s t = some ({ s with m_drawables := m },
        { t with showCurrentSlide := true,
                 showPreviousSlide := decide (s.m_slideState = SlideState.In) &&
                   decide (t.previousSlide ≠ s.m_slides.length),
                 pc := Pc.pollEvents }, current, previous) := by
  have hsl : s.m_slides[t.currentSlide]? = some s.m_slides[t.currentSlide] :=
    List.getElem?_eq_getElem h
  have hne : t.currentSlide ≠ s.m_slides.length := Nat.ne_of_lt h
  unfold loopHead
  simp only [hne, ne_eq, not_false_eq_true, decide_True, if_true, hsl, Option.map_some']
  by_cases hq : t.previousSlide = s.m_slides.length
  · simp [hq]
  · have hpl : s.m_slides[t.previousSlide]? = some s.m_slides[t.previousSlide] :=
      List.getElem?_eq_getElem (hp hq)
    by_cases hi : s.m_slideState = SlideState.In
    · simp [hq, hi, hpl]
    · simp [hq, hi]

theorem update_eq (s : Splashentation) (t : TPlay) (elapsed : Time) :
    update s t elapsed =
      if t.showCurrentSlide && !s.m_moveOnToNextSlide then
        updateChecks s t (priv_getSlideState s) elapsed
      else some (s, { t with pc := Pc.controls }) := by
  unfold update updateTest
  split_ifs <;> rfl

theorem updateChecks_spec (s : Splashentation) (t : TPlay) (currentSlideState : SlideState)
    (elapsed : Time) (h : t.currentSlide < s.m_slides.length) :
    ∃ s1, updateChecks s t currentSlideState elapsed = some (s1, { t with pc := Pc.controls }) ∧
      (s1 = s ∨ (currentSlideState = SlideState.In ∧ s1 = priv_setSlideState s SlideState.Show) ∨
        (currentSlideState = SlideState.Show ∧ s1 = next s)) := by
  have hsl : s.m_slides[t.currentSlide]? = some s.m_slides[t.currentSlide] :=
    List.getElem?_eq_getElem h
  unfold updateChecks
  simp only [hsl]
  cases currentSlideState with
  | In =>
    simp only
    split
    · exact ⟨_, rfl, Or.inr (Or.inl ⟨trivial, rfl⟩)⟩
    · exact ⟨_, rfl, Or.inl rfl⟩
  | Show =>
    simp only
    split
    · exact ⟨_, rfl, Or.inr (Or.inr ⟨trivial, rfl⟩)⟩
    · exact ⟨_, rfl, Or.inl rfl⟩

theorem updateChecks_cases (s s1 : Splashentation) (t t1 : TPlay)
    (currentSlideState : SlideState) (elapsed : Time)
    (h : updateChecks s t currentSlideState elapsed = some (s1, t1)) :
    t1 = { t with pc := Pc.controls } ∧
    (s1 = s ∨ (currentSlideState = SlideState.In ∧ s1 = priv_setSlideState s SlideState.Show) ∨
      (currentSlideState = SlideState.Show ∧ s1 = next s)) := by
  unfold updateChecks at h
  cases hsl : s.m_slides[t.currentSlide]? with
  | none => simp [hsl] at h
  | some slide =>
    simp only [hsl] at h
    cases currentSlideState with
    | In =>
      simp only at h
      split_ifs at h <;> cases h
      · exact ⟨rfl, Or.inr (Or.inl ⟨rfl, rfl⟩)⟩
      · exact ⟨rfl, Or.inl rfl⟩
    | Show =>
      simp only at h
      split_ifs at h <;> cases h
      · exact ⟨rfl, Or.inr (Or.inr ⟨rfl, rfl⟩)⟩
      · exact ⟨rfl, Or.inl rfl⟩

theorem update_spec (s : Splashentation) (t : TPlay) (elapsed : Time)
    (h : t.currentSlide < s.m_slides.length) :
    ∃ s1, update s t elapsed = some (s1, { t with pc := Pc.controls }) ∧
      (s1 = s ∨ (s.m_moveOnToNextSlide = false ∧ s.m_slideState = SlideState.In ∧
          s1 = priv_setSlideState s SlideState.Show) ∨
        (s.m_moveOnToNextSlide = false ∧ s.m_slideState = SlideState.Show ∧ s1 = next s)) := by
  rw [update_eq]
  split
  · rename_i hc
    simp only [Bool.and_eq_true, Bool.not_eq_true'] at hc
    obtain ⟨s1, h1, h2⟩ := updateChecks_spec s t (priv_getSlideState s) elapsed h
    refine ⟨s1, h1, ?_⟩
    rcases h2 with h2 | ⟨h2, h3⟩ | ⟨h2, h3⟩
    · exact Or.inl h2
    · exact Or.inr (Or.inl ⟨hc.2, h2, h3⟩)
    · exact Or.inr (Or.inr ⟨hc.2, h2, h3⟩)
  · exact ⟨_, rfl, Or.inl rfl⟩

theorem playbackInv_threadStep (s : Splashentation) (env : Env) (h : PlaybackInv s) :
    ∃ s1, threadStep s env = some s1 ∧ PlaybackInv s1 ∧ s1.m_slides = s.m_slides := by
  obtain ⟨t, ht, hlen, hidx, hrun⟩ := h
  unfold Splashentation.threadStep
  simp only [ht]
  cases hpc : t.pc with
  | loopHead =>
    obtain ⟨hcur, hprev⟩ := hrun (by simp [hpc])
    have hc : t.currentSlide < s.m_slides.length := hcur ▸ hidx
    obtain ⟨m, cs, ps, hm⟩ := loopHead_spec s t hc (by omega)
    simp only [hm, Option.map_some']
    exact ⟨_, rfl, ⟨_, rfl, hlen, hidx, fun _ => ⟨hcur, hprev⟩⟩, rfl⟩
  | pollEvents =>
    obtain ⟨hcur, hprev⟩ := hrun (by simp [hpc])
    have hc : t.currentSlide < s.m_slides.length := hcur ▸ hidx
    cases hev : env.event with
    | none =>
      simp only [Option.map_some']
      exact ⟨_, rfl, ⟨_, rfl, hlen, hidx, fun _ => ⟨hcur, hprev⟩⟩, rfl⟩
    | some event =>
      simp only
      obtain ⟨⟨s1, t1⟩, hr⟩ := handleEvent_defined s t event hc
      obtain ⟨hsame, hcase⟩ := handleEvent_spec s s1 t t1 event hr
      obtain ⟨e1, e2, -⟩ := hsame
      simp only [hr, Option.map_some']
      refine ⟨_, rfl, ⟨t1, rfl, by simpa [e1] using hlen, by simpa [e1, e2] using hidx,
        fun _ => ?_⟩, by simpa using e1⟩
      rcases hcase with ⟨rfl, -⟩ | ⟨x, rfl, -⟩
      · simpa [e1, e2] using And.intro hcur hprev
      · simpa [e1, e2] using And.intro hcur hprev
  | update =>
    obtain ⟨hcur, hprev⟩ := hrun (by simp [hpc])
    simp only [Option.map_some']
    exact ⟨_, rfl, ⟨_, rfl, hlen, hidx, fun _ => ⟨hcur, hprev⟩⟩, rfl⟩
  | updateRead =>
    obtain ⟨hcur, hprev⟩ := hrun (by simp [hpc])
    simp only [Option.map_some']
    exact ⟨_, rfl, ⟨_, rfl, hlen, hidx, fun _ => ⟨hcur, hprev⟩⟩, rfl⟩
  | updateChecks currentSlideState =>
    obtain ⟨hcur, hprev⟩ := hrun (by simp [hpc])
    have hc : t.currentSlide < s.m_slides.length := hcur ▸ hidx
    obtain ⟨s1, hu, hcase⟩ := updateChecks_spec s t currentSlideState env.elapsed hc
    simp only [hu, Option.map_some']
    rcases hcase with rfl | ⟨-, rfl⟩ | ⟨-, rfl⟩
    · exact ⟨_, rfl, ⟨_, rfl, hlen, hidx, fun _ => ⟨hcur, hprev⟩⟩, rfl⟩
    · exact ⟨_, rfl, ⟨_, rfl, hlen, hidx, fun _ => ⟨hcur, hprev⟩⟩, rfl⟩
    · exact ⟨_, rfl, ⟨_, rfl, hlen, hidx, fun _ => ⟨hcur, hprev⟩⟩, rfl⟩
  | controls =>
    obtain ⟨hcur, hprev⟩ := hrun (by simp [hpc])
    have hc : t.currentSlide < s.m_slides.length := hcur ▸ hidx
    unfold Splashentation.controls
    by_cases hskip : s.m_controlSkip = true
    · simp only [hskip, if_true, Option.map_some']
      exact ⟨_, rfl, ⟨_, rfl, hlen, hidx, fun _ => ⟨hcur, hprev⟩⟩, rfl⟩
    · by_cases hquit : s.m_controlQuit = true
      · simp only [hskip, hquit, if_true, if_false, Option.map_some']
        exact ⟨_, rfl, ⟨_, rfl, hlen, hidx, fun _ => ⟨hcur, hprev⟩⟩, rfl⟩
      · by_cases hmove : s.m_moveOnToNextSlide = true
        · have h1 : ¬ t.currentSlide ≥ s.m_slides.length := by omega
          have h2 : ¬ (t.currentSlide ≠ 0 ∧ t.previousSlide ≥ s.m_slides.length) := by omega
          simp only [hskip, hquit, hmove, h1, h2, if_true, if_false]
          by_cases hend : t.currentSlide + 1 = s.m_slides.length
          · simp only [hend, if_true, Option.map_some']
            exact ⟨_, rfl, ⟨_, rfl, hlen, hidx, fun hne => absurd rfl hne⟩, rfl⟩
          · simp only [hend, if_false, Option.map_some']
            have hm : (t.currentSlide + 1) % 4294967296 = t.currentSlide + 1 :=
              Nat.mod_eq_of_lt (by omega)
            refine ⟨_, rfl, ⟨_, rfl, hlen, ?_, fun _ => ⟨?_, ?_⟩⟩, rfl⟩
            · simp only [hm]; omega
            · simp only [hm]
            · simp only
              split <;> omega
        · simp only [hskip, hquit, hmove, if_false, Option.map_some']
          exact ⟨_, rfl, ⟨_, rfl, hlen, hidx, fun _ => ⟨hcur, hprev⟩⟩, rfl⟩
  | returned site =>
    simp only [Option.map_some']
    exact ⟨_, rfl, ⟨t, rfl, hlen, hidx, hrun⟩, rfl⟩

theorem playbackInv_step (s : Splashentation) (l : Label) (h : PlaybackInv s) :
    ∃ s1, step s l = some s1 ∧ PlaybackInv s1 ∧ s1.m_slides = s.m_slides := by
  cases l with
  | next => exact ⟨_, rfl, h, rfl⟩
  | skip => exact ⟨_, rfl, h, rfl⟩
  | quit => exact ⟨_, rfl, h, rfl⟩
  | thread env => exact playbackInv_threadStep s env h

theorem playbackInv_run (ls : List Label) :
    ∀ s : Splashentation, PlaybackInv s →
      ∃ s1, run s ls = some s1 ∧ PlaybackInv s1 ∧ s1.m_slides = s.m_slides := by
  induction ls with
  | nil => intro s h; exact ⟨s, rfl, h, rfl⟩
  | cons l rest ih =>
    intro s h
    obtain ⟨s1, h1, hinv, hsl⟩ := playbackInv_step s l h
    obtain ⟨s2, h2, hinv2, hsl2⟩ := ih s1 hinv
    refine ⟨s2, ?_, hinv2, hsl2.trans hsl⟩
    simp only [Splashentation.run, h1, h2]

theorem play_starts (s s0 : Splashentation) (hplaying : isPlaying s = false)
    (hslides : s.m_slides.length ≠ 0) (hplay : play s = some s0) :
    s.m_playThread = none ∧
    s0 = { s with m_currentSlideIndex := 0, m_moveOnToNextSlide := false,
                  m_slideState := SlideState.In, m_playState := PlayState.Playing,
                  m_playThread := some (TPlay.start s) } := by
  unfold play at hplay
  simp only [hplaying, hslides, decide_False, Bool.or_self, Bool.false_eq_true, if_false] at hplay
  cases ht : s.m_playThread with
  | some t => simp [ht] at hplay
  | none =>
    simp only [ht, Option.some.injEq] at hplay
    exact ⟨rfl, hplay.symm⟩

theorem playbackInv_play (s s0 : Splashentation) (hplaying : isPlaying s = false)
    (hslides : s.m_slides.length ≠ 0) (hsize : s.m_slides.length < 4294967296)
    (hplay : play s = some s0) : PlaybackInv s0 ∧ s0.m_slides = s.m_slides := by
  obtain ⟨-, rfl⟩ := play_starts s s0 hplaying hslides hplay
  refine ⟨⟨_, rfl, hsize, ?_, fun _ => ⟨rfl, Or.inl ⟨rfl, rfl⟩⟩⟩, rfl⟩
  simp only
  omega

theorem UnorderedMap.find_assign_self {K V : Type} [DecidableEq K] (m : UnorderedMap K V) (k : K)
    (v : V) : UnorderedMap.find (UnorderedMap.assign m k v) k = some v := by
  induction m with
  | nil => simp [UnorderedMap.assign, UnorderedMap.find]
  | cons e rest ih =>
    obtain ⟨k1, v1⟩ := e
    by_cases h : k1 = k
    · simp [UnorderedMap.assign, UnorderedMap.find, h]
    · simp [UnorderedMap.assign, UnorderedMap.find, h, ih]

theorem UnorderedMap.find_erase_self {K V : Type} [DecidableEq K] (m : UnorderedMap K V)
    (k : K) : UnorderedMap.find (UnorderedMap.erase m k) k = none := by
  induction m with
  | nil => simp [UnorderedMap.erase, UnorderedMap.find]
  | cons e rest ih =>
    obtain ⟨k1, v1⟩ := e
    by_cases h : k1 = k
    · simpa [UnorderedMap.erase, h] using ih
    · simpa [UnorderedMap.erase, UnorderedMap.find, h] using ih

theorem Slide.copy_eq (slide : Slide) : Slide.copy slide = slide := rfl

theorem isPlaying_eq_true (s : Splashentation) (h : s.m_playState = PlayState.Playing) :
    isPlaying s = true := by
  simp [isPlaying, getPlayState, h]

theorem isPlaying_eq_false (s : Splashentation) (h : s.m_playState ≠ PlayState.Playing) :
    isPlaying s = false := by
  simp [isPlaying, getPlayState, h]

theorem UnorderedMap.count_eq_zero {K V : Type} [DecidableEq K] (m : UnorderedMap K V) (k : K)
    (h : UnorderedMap.count m k = 0) : UnorderedMap.find m k = none := by
  unfold UnorderedMap.count at h
  cases hf : UnorderedMap.find m k with
  | none => rfl
  | some v => simp [hf] at h

theorem priv_processKey_false_key (s : Splashentation) (control : Key × ControlAction)
    (key : Key) (foundKey : Bool) (h : (priv_processKey s control key foundKey).1 = false) :
    control.1 = key := by
  unfold priv_processKey at h
  split at h
  · simp at h
  · rename_i hc
    simp only [Bool.or_eq_true, decide_eq_true_eq, not_or, ne_eq, not_not] at hc
    exact hc.2

theorem priv_processMouseButton_false_mask (s : Splashentation)
    (control : ControlAction × MouseButtons) (mouseButton : Button) (found : Bool)
    (h : (priv_processMouseButton s control mouseButton found).1 = false) :
    control.2 &&& pressedMouseButtons mouseButton = pressedMouseButtons mouseButton := by
  unfold priv_processMouseButton at h
  split at h
  · simp at h
  · simp only at h
    split at h
    · assumption
    · simp at h

theorem processKeys_exit_mem (controls : List (Key × ControlAction)) (key : Key) :
    ∀ (s : Splashentation) (found : Bool) (control : Key × ControlAction),
      (processKeys s controls key found).1 = some control →
      control ∈ controls ∧ control.1 = key := by
  induction controls with
  | nil => intro s found control h; simp [processKeys] at h
  | cons c rest ih =>
    intro s found control h
    unfold processKeys at h
    simp only at h
    by_cases hc : (priv_processKey s c key found).1 = true
    · rw [if_pos hc] at h
      obtain ⟨h1, h2⟩ := ih _ _ control h
      exact ⟨List.mem_cons_of_mem c h1, h2⟩
    · rw [if_neg hc] at h
      simp only [Option.some.injEq] at h
      subst h
      simp only [Bool.not_eq_true] at hc
      exact ⟨List.mem_cons_self _ _, priv_processKey_false_key s c key found hc⟩

theorem processMouseButtons_exit_mem (controls : List (ControlAction × MouseButtons))
    (mouseButton : Button) :
    ∀ (s : Splashentation) (found : Bool) (control : ControlAction × MouseButtons),
      (processMouseButtons s controls mouseButton found).1 = some control →
      control ∈ controls ∧
      control.2 &&& pressedMouseButtons mouseButton = pressedMouseButtons mouseButton := by
  induction controls with
  | nil => intro s found control h; simp [processMouseButtons] at h
  | cons c rest ih =>
    intro s found control h
    unfold processMouseButtons at h
    simp only at h
    by_cases hc : (priv_processMouseButton s c mouseButton found).1 = true
    · rw [if_pos hc] at h
      obtain ⟨h1, h2⟩ := ih _ _ control h
      exact ⟨List.mem_cons_of_mem c h1, h2⟩
    · rw [if_neg hc] at h
      simp only [Option.some.injEq] at h
      subst h
      simp only [Bool.not_eq_true] at hc
      exact ⟨List.mem_cons_self _ _,
        priv_processMouseButton_false_mask s c mouseButton found hc⟩

/-- The exits of the event handling and what caused them. -/
theorem handleEvent_exit_cause (s s1 : Splashentation) (t t1 : TPlay) (event : Event)
    (elapsed : Time) (x : Exit) (hpc : t.pc = Pc.pollEvents)
    (h : handleEvent s t event = some (s1, t1)) (hx : t1.pc = Pc.returned x) :
    ExitCause s t { event := some event, elapsed := elapsed } x := by
  unfold handleEvent at h
  cases event with
  | Closed =>
    simp only [Option.some.injEq, Prod.mk.injEq] at h
    obtain ⟨rfl, rfl⟩ := h
    simp only [Pc.returned.injEq] at hx
    subst hx
    exact ⟨hpc, rfl⟩
  | Other =>
    simp only [Option.some.injEq, Prod.mk.injEq] at h
    obtain ⟨rfl, rfl⟩ := h
    simp [hpc] at hx
  | MouseButtonPressed button =>
    simp only at h
    cases hsl : s.m_slides[t.currentSlide]? with
    | none => simp [hsl] at h
    | some slide =>
      simp only [hsl] at h
      have a1 := processMouseButtons_spec slide.mouseButtons button s false
      have a2 := processMouseButtons_exit_mem slide.mouseButtons button s false
      generalize processMouseButtons s slide.mouseButtons button false = r1 at h a1 a2
      obtain ⟨o1, f1, u1⟩ := r1
      cases o1 with
      | some control =>
        simp only [Option.some.injEq, Prod.mk.injEq] at h
        obtain ⟨rfl, rfl⟩ := h
        simp only [Pc.returned.injEq] at hx
        subst hx
        obtain ⟨hm, hmask⟩ := a2 control rfl
        exact ⟨hpc, ⟨button, rfl, hmask⟩, Or.inl ⟨slide, hsl, hm⟩⟩
      | none =>
        simp only at h
        have b2 := processMouseButtons_exit_mem u1.m_globalMouseButtons button u1 f1
        generalize processMouseButtons u1 u1.m_globalMouseButtons button f1 = r2 at h b2
        obtain ⟨o2, f2, u2⟩ := r2
        cases o2 with
        | some control =>
          simp only [Option.some.injEq, Prod.mk.injEq] at h
          obtain ⟨rfl, rfl⟩ := h
          simp only [Pc.returned.injEq] at hx
          subst hx
          obtain ⟨hm, hmask⟩ := b2 control rfl
          have hg : u1.m_globalMouseButtons = s.m_globalMouseButtons := a1.1.2.2.2.2.2.2.2
          exact ⟨hpc, ⟨button, rfl, hmask⟩, Or.inr (hg ▸ hm)⟩
        | none =>
          simp only [Option.some.injEq, Prod.mk.injEq] at h
          obtain ⟨rfl, rfl⟩ := h
          simp [hpc] at hx
  | KeyPressed code =>
    simp only at h
    cases hsl : s.m_slides[t.currentSlide]? with
    | none => simp [hsl] at h
    | some slide =>
      simp only [hsl] at h
      have a1 := processKeys_spec slide.keys code s false
      have a2 := processKeys_exit_mem slide.keys code s false
      generalize processKeys s slide.keys code false = r1 at h a1 a2
      obtain ⟨o1, f1, u1⟩ := r1
      cases o1 with
      | some control =>
        simp only [Option.some.injEq, Prod.mk.injEq] at h
        obtain ⟨rfl, rfl⟩ := h
        simp only [Pc.returned.injEq] at hx
        subst hx
        obtain ⟨hm, hk⟩ := a2 control rfl
        exact ⟨hpc, by rw [hk], Or.inl ⟨slide, hsl, hm⟩⟩
      | none =>
        simp only at h
        have b2 := processKeys_exit_mem u1.m_globalKeys code u1 f1
        generalize processKeys u1 u1.m_globalKeys code f1 = r2 at h b2
        obtain ⟨o2, f2, u2⟩ := r2
        cases o2 with
        | some control =>
          simp only [Option.some.injEq, Prod.mk.injEq] at h
          obtain ⟨rfl, rfl⟩ := h
          simp only [Pc.returned.injEq] at hx
          subst hx
          obtain ⟨hm, hk⟩ := b2 control rfl
          have hg : u1.m_globalKeys = s.m_globalKeys := a1.1.2.2.2.2.2.2.1
          exact ⟨hpc, by rw [hk], Or.inr (hg ▸ hm)⟩
        | none =>
          simp only [Option.some.injEq, Prod.mk.injEq] at h
          obtain ⟨rfl, rfl⟩ := h
          simp [hpc] at hx

/-- After the return of `t_play` nothing changes the play state or the thread. -/
theorem returned_stable (ls : List Label) :
    ∀ (s : Splashentation) (t : TPlay) (x : Exit), s.m_playThread = some t →
      t.pc = Pc.returned x →
      ∃ s2, run s ls = some s2 ∧ s2.m_playState = s.m_playState ∧ s2.m_playThread = some t ∧
        s2.m_currentSlideIndex = s.m_currentSlideIndex ∧ s2.m_slides = s.m_slides := by
  induction ls with
  | nil => intro s t x ht hx; exact ⟨s, rfl, rfl, ht, rfl, rfl⟩
  | cons l rest ih =>
    intro s t x ht hx
    have hstep : ∃ s1, step s l = some s1 ∧ s1.m_playState = s.m_playState ∧
        s1.m_playThread = some t ∧ s1.m_currentSlideIndex = s.m_currentSlideIndex ∧
        s1.m_slides = s.m_slides := by
      cases l with
      | next => exact ⟨_, rfl, rfl, ht, rfl, rfl⟩
      | skip => exact ⟨_, rfl, rfl, ht, rfl, rfl⟩
      | quit => exact ⟨_, rfl, rfl, ht, rfl, rfl⟩
      | thread env =>
        refine ⟨{ s with m_playThread := some t }, ?_, rfl, rfl, rfl, rfl⟩
        simp only [step, threadStep, ht, hx, Option.map_some']
    obtain ⟨s1, h1, hp1, ht1, hi1, hs1⟩ := hstep
    obtain ⟨s2, h2, hp2, ht2, hi2, hs2⟩ := ih s1 t x ht1 hx
    refine ⟨s2, ?_, hp2.trans hp1, ht2, hi2.trans hi1, hs2.trans hs1⟩
    simp only [run, h1, h2]

theorem loopHead_pc (s : Splashentation) (t : TPlay)
    (r : Splashentation × TPlay × List String × List String) (h : loopHead s t = some r) :
    r.2.1.pc = Pc.pollEvents := by
  unfold loopHead at h
  simp only at h
  split at h
  · cases h
  · split at h
    · cases h
    · simp only [Option.some.injEq] at h
      subst h
      rfl

theorem updateTest_running (s : Splashentation) (t : TPlay) :
    TPlay.running { t with pc := updateTest s t } = true := by
  unfold updateTest TPlay.running
  split_ifs <;> rfl

theorem updateTest_cases (s : Splashentation) (t : TPlay) :
    (updateTest s t = Pc.updateRead ∧ t.showCurrentSlide = true ∧
      s.m_moveOnToNextSlide = false) ∨
    updateTest s t = Pc.controls := by
  unfold updateTest
  split
  · rename_i hc
    simp only [Bool.and_eq_true, Bool.not_eq_true'] at hc
    exact Or.inl ⟨rfl, hc⟩
  · exact Or.inr rfl

/-- A step of the playback thread that leaves the loop: its cause and the play state. -/
theorem threadStep_exit (s s1 : Splashentation) (t t1 : TPlay) (env : Env) (x : Exit)
    (ht : s.m_playThread = some t) (hrun : ∀ x, t.pc ≠ Pc.returned x)
    (hstep : threadStep s env = some s1) (ht1 : s1.m_playThread = some t1)
    (hx : t1.pc = Pc.returned x) :
    ExitCause s t env x ∧ ExitState x s1.m_playState := by
  unfold threadStep at hstep
  simp only [ht] at hstep
  cases hpc : t.pc with
  | loopHead =>
    simp only [hpc] at hstep
    cases hl : loopHead s t with
    | none => simp [hl] at hstep
    | some r =>
      simp only [hl, Option.map_some', Option.some.injEq] at hstep
      subst hstep
      simp only [Option.some.injEq] at ht1
      subst ht1
      rw [loopHead_pc s t r hl] at hx
      cases hx
  | pollEvents =>
    simp only [hpc] at hstep
    obtain ⟨event, elapsed⟩ := env
    cases event with
    | none =>
      simp only [Option.map_some', Option.some.injEq] at hstep
      subst hstep
      simp only [Option.some.injEq] at ht1
      subst ht1
      cases hx
    | some event =>
      simp only at hstep
      cases hh : handleEvent s t event with
      | none => simp [hh] at hstep
      | some r =>
        obtain ⟨u, v⟩ := r
        simp only [hh, Option.map_some', Option.some.injEq] at hstep
        subst hstep
        simp only [Option.some.injEq] at ht1
        subst ht1
        refine ⟨handleEvent_exit_cause s u t v event elapsed x hpc hh hx, ?_⟩
        rcases (handleEvent_spec s u t v event hh).2 with ⟨rfl, -⟩ | ⟨y, rfl, hy, -⟩
        · exact absurd hx (hrun x)
        · simp only [Pc.returned.injEq] at hx
          subst hx
          exact hy
  | update =>
    simp only [hpc, Option.map_some', Option.some.injEq] at hstep
    subst hstep
    simp only [Option.some.injEq] at ht1
    subst ht1
    simp only at hx
    rcases updateTest_cases s t with ⟨h, -⟩ | h <;> rw [h] at hx <;> cases hx
  | updateRead =>
    simp only [hpc, Option.map_some', Option.some.injEq] at hstep
    subst hstep
    simp only [Option.some.injEq] at ht1
    subst ht1
    cases hx
  | updateChecks currentSlideState =>
    simp only [hpc] at hstep
    cases hu : updateChecks s t currentSlideState env.elapsed with
    | none => simp [hu] at hstep
    | some r =>
      obtain ⟨u, v⟩ := r
      simp only [hu, Option.map_some', Option.some.injEq] at hstep
      subst hstep
      simp only [Option.some.injEq] at ht1
      subst ht1
      rw [(updateChecks_cases s u t v currentSlideState env.elapsed hu).1] at hx
      cases hx
  | controls =>
    simp only [hpc] at hstep
    unfold Splashentation.controls at hstep
    by_cases hskip : s.m_controlSkip = true
    · simp only [hskip, if_true, Option.map_some', Option.some.injEq] at hstep
      subst hstep
      simp only [Option.some.injEq] at ht1
      subst ht1
      simp only [Pc.returned.injEq] at hx
      subst hx
      exact ⟨⟨hpc, hskip⟩, rfl⟩
    · simp only [Bool.not_eq_true] at hskip
      by_cases hquit : s.m_controlQuit = true
      · simp only [hskip, hquit, if_true, Bool.false_eq_true, if_false, Option.map_some',
          Option.some.injEq] at hstep
        subst hstep
        simp only [Option.some.injEq] at ht1
        subst ht1
        simp only [Pc.returned.injEq] at hx
        subst hx
        exact ⟨⟨hpc, hskip, hquit⟩, rfl⟩
      · simp only [Bool.not_eq_true] at hquit
        by_cases hmove : s.m_moveOnToNextSlide = true
        · simp only [hskip, hquit, hmove, if_true, Bool.false_eq_true, if_false] at hstep
          split at hstep
          · cases hstep
          · split at hstep
            · cases hstep
            · split at hstep
              · rename_i hend
                simp only [Option.map_some', Option.some.injEq] at hstep
                subst hstep
                simp only [Option.some.injEq] at ht1
                subst ht1
                simp only [Pc.returned.injEq] at hx
                subst hx
                exact ⟨⟨hpc, hskip, hquit, hmove, hend⟩, rfl⟩
              · simp only [Option.map_some', Option.some.injEq] at hstep
                subst hstep
                simp only [Option.some.injEq] at ht1
                subst ht1
                cases hx
        · simp only [hskip, hquit, hmove, Bool.false_eq_true, if_false, Option.map_some',
            Option.some.injEq] at hstep
          subst hstep
          simp only [Option.some.injEq] at ht1
          subst ht1
          cases hx
  | returned site => exact absurd hpc (hrun site)

theorem ExitState.cases (x : Exit) (p : PlayState) (h : ExitState x p) :
    (p = PlayState.Finished ∨ p = PlayState.Quit) ∧
    (p = PlayState.Quit ↔
      x = Exit.closed ∨ (∃ k, x = Exit.key (k, ControlAction.Quit)) ∨
      (∃ m, x = Exit.mouseButton (ControlAction.Quit, m)) ∨ x = Exit.controlQuit) ∧
    (p = PlayState.Finished ↔
      x = Exit.complete ∨ (∃ k, x = Exit.key (k, ControlAction.Skip)) ∨
      (∃ m, x = Exit.mouseButton (ControlAction.Skip, m)) ∨ x = Exit.controlSkip) := by
  cases x with
  | closed => simp_all [ExitState]
  | controlSkip => simp_all [ExitState]
  | controlQuit => simp_all [ExitState]
  | complete => simp_all [ExitState]
  | key control =>
    obtain ⟨k, a⟩ := control
    rcases h with ⟨h1, rfl⟩ | ⟨h1, rfl⟩
    · simp only at h1
      subst h1
      simp
    · simp only at h1
      subst h1
      simp
  | mouseButton control =>
    obtain ⟨a, m⟩ := control
    rcases h with ⟨h1, rfl⟩ | ⟨h1, rfl⟩
    · simp only at h1
      subst h1
      simp
    · simp only at h1
      subst h1
      simp

theorem TPlay.running_iff (t : TPlay) : t.running = true ↔ ∀ x, t.pc ≠ Pc.returned x := by
  unfold TPlay.running
  cases t.pc <;> simp

theorem loopHead_state (s : Splashentation) (t : TPlay)
    (r : Splashentation × TPlay × List String × List String) (h : loopHead s t = some r) :
    ∃ m, r.1 = { s with m_drawables := m } ∧
      r.2.1 = { t with
        showCurrentSlide := decide (t.currentSlide ≠ s.m_slides.length),
        showPreviousSlide := decide (s.m_slideState = SlideState.In) &&
          decide (t.previousSlide ≠ s.m_slides.length),
        pc := Pc.pollEvents } := by
  unfold loopHead at h
  simp only at h
  split at h
  · cases h
  · split at h
    · cases h
    · simp only [Option.some.injEq] at h
      subst h
      exact ⟨_, rfl, rfl⟩

theorem updateChecks_state (s s1 : Splashentation) (t t1 : TPlay)
    (currentSlideState : SlideState) (elapsed : Time)
    (h : updateChecks s t currentSlideState elapsed = some (s1, t1)) :
    s1 = s ∨ s1 = priv_setSlideState s SlideState.Show ∨ s1 = next s := by
  rcases (updateChecks_cases s s1 t t1 currentSlideState elapsed h).2 with
    h1 | ⟨-, h1⟩ | ⟨-, h1⟩
  · exact Or.inl h1
  · exact Or.inr (Or.inl h1)
  · exact Or.inr (Or.inr h1)

/-- The members no section of `t_play` writes. -/
theorem controls_frame (s s1 : Splashentation) (t t1 : TPlay)
    (h : controls s t = some (s1, t1)) :
    s1.m_slides = s.m_slides ∧ s1.m_controlSkip = s.m_controlSkip ∧
    s1.m_controlQuit = s.m_controlQuit ∧ s1.m_globalKeys = s.m_globalKeys ∧
    s1.m_globalMouseButtons = s.m_globalMouseButtons ∧ s1.m_slideState = s.m_slideState ∧
    s1.m_drawables = s.m_drawables := by
  unfold controls at h
  simp only at h
  split_ifs at h <;> cases h <;> exact ⟨rfl, rfl, rfl, rfl, rfl, rfl, rfl⟩

theorem threadStep_frame (s s1 : Splashentation) (env : Env)
    (h : threadStep s env = some s1) :
    s1.m_slides = s.m_slides ∧ s1.m_controlSkip = s.m_controlSkip ∧
    s1.m_controlQuit = s.m_controlQuit ∧ s1.m_globalKeys = s.m_globalKeys ∧
    s1.m_globalMouseButtons = s.m_globalMouseButtons := by
  unfold threadStep at h
  cases ht : s.m_playThread with
  | none =>
    simp only [ht, Option.some.injEq] at h
    subst h
    simp
  | some t =>
    simp only [ht] at h
    cases hpc : t.pc with
    | loopHead =>
      simp only [hpc] at h
      cases hl : loopHead s t with
      | none => simp [hl] at h
      | some r =>
        simp only [hl, Option.map_some', Option.some.injEq] at h
        obtain ⟨m, hm, -⟩ := loopHead_state s t r hl
        subst h
        simp [hm]
    | pollEvents =>
      simp only [hpc] at h
      cases hev : env.event with
      | none =>
        simp only [hev, Option.map_some', Option.some.injEq] at h
        subst h
        simp
      | some event =>
        simp only [hev] at h
        cases hh : handleEvent s t event with
        | none => simp [hh] at h
        | some r =>
          obtain ⟨u, v⟩ := r
          simp only [hh, Option.map_some', Option.some.injEq] at h
          subst h
          obtain ⟨e1, -, -, e4, e5, -, e7, e8⟩ := (handleEvent_spec s u t v event hh).1
          exact ⟨e1, e4, e5, e7, e8⟩
    | update =>
      simp only [hpc, Option.map_some', Option.some.injEq] at h
      subst h
      simp
    | updateRead =>
      simp only [hpc, Option.map_some', Option.some.injEq] at h
      subst h
      simp
    | updateChecks currentSlideState =>
      simp only [hpc] at h
      cases hu : updateChecks s t currentSlideState env.elapsed with
      | none => simp [hu] at h
      | some r =>
        obtain ⟨u, v⟩ := r
        simp only [hu, Option.map_some', Option.some.injEq] at h
        subst h
        rcases updateChecks_state s u t v currentSlideState env.elapsed hu with
          rfl | rfl | rfl <;> simp [next, priv_setSlideState]
    | controls =>
      simp only [hpc] at h
      cases hc : controls s t with
      | none => simp [hc] at h
      | some r =>
        obtain ⟨u, v⟩ := r
        simp only [hc, Option.map_some', Option.some.injEq] at h
        subst h
        obtain ⟨e1, e2, e3, e4, e5, -⟩ := controls_frame s u t v hc
        exact ⟨e1, e2, e3, e4, e5⟩
    | returned site =>
      simp only [hpc, Option.map_some', Option.some.injEq] at h
      subst h
      simp

/-- A flag that is set stays set: nothing in the class clears `m_controlSkip` or
`m_controlQuit`. -/
theorem run_flags (ls : List Label) :
    ∀ s s1 : Splashentation, run s ls = some s1 →
      s1.m_slides = s.m_slides ∧
      (s.m_controlSkip = true → s1.m_controlSkip = true) ∧
      (s.m_controlQuit = true → s1.m_controlQuit = true) := by
  induction ls with
  | nil =>
    intro s s1 h
    simp only [run, Option.some.injEq] at h
    subst h
    exact ⟨rfl, id, id⟩
  | cons l rest ih =>
    intro s s1 h
    unfold run at h
    cases hs : step s l with
    | none => simp [hs] at h
    | some u =>
      simp only [hs] at h
      obtain ⟨i1, i2, i3⟩ := ih u s1 h
      have hu : u.m_slides = s.m_slides ∧ (s.m_controlSkip = true → u.m_controlSkip = true) ∧
          (s.m_controlQuit = true → u.m_controlQuit = true) := by
        cases l with
        | next =>
          simp only [step, Option.some.injEq] at hs
          subst hs
          exact ⟨rfl, id, id⟩
        | skip =>
          simp only [step, Option.some.injEq] at hs
          subst hs
          exact ⟨rfl, fun _ => rfl, id⟩
        | quit =>
          simp only [step, Option.some.injEq] at hs
          subst hs
          exact ⟨rfl, id, fun _ => rfl⟩
        | thread env =>
          obtain ⟨e1, e2, e3, -⟩ := threadStep_frame s u env hs
          exact ⟨e1, fun h1 => e2.trans h1, fun h1 => e3.trans h1⟩
      exact ⟨i1.trans hu.1, fun h1 => i2 (hu.2.1 h1), fun h1 => i3 (hu.2.2 h1)⟩

theorem asSeconds_mono (fl : FloatModel) (e e2 : Time) (h : e ≤ e2) :
    asSeconds fl e ≤ asSeconds fl e2 := by
  unfold asSeconds
  apply fl.round_mono
  apply div_le_div_of_nonneg_right _ (by norm_num)
  apply fl.round_mono
  exact_mod_cast h

theorem asSeconds_pos (fl : FloatModel) (t : Time) (ht : 0 < t) : 0 < asSeconds fl t := by
  unfold asSeconds
  apply fl.round_normal
  have h1 : (1 : ℚ) ≤ fl.round (t : ℚ) := by
    rw [← fl.round_one]
    apply fl.round_mono
    exact_mod_cast ht
  calc (1 : ℚ) / 2 ^ 126 ≤ 1 / 1000000 := by norm_num
    _ ≤ fl.round (t : ℚ) / 1000000 := div_le_div_of_nonneg_right h1 (by norm_num)

theorem alpha_in (fl : FloatModel) (e t : Time) (ht : 0 < t) :
    alpha fl SlideState.In e t
      = some (max 0 (min 1 (fl.round (asSeconds fl e / asSeconds fl t)))) := by
  have hne : asSeconds fl t ≠ 0 := ne_of_gt (asSeconds_pos fl t ht)
  simp only [alpha, alphaRatio, hne, if_true, if_false, Option.map_some', Option.some.injEq]
  split_ifs with h1 h2
  · rw [min_eq_right (by linarith), max_eq_left (le_of_lt h1)]
  · rw [min_eq_left (le_of_lt h2), max_eq_right (by norm_num)]
  · push_neg at h1 h2
    rw [min_eq_right h2, max_eq_right h1]

theorem asSeconds_exact_div (e t : Time) :
    FloatModel.exact.round (asSeconds FloatModel.exact e / asSeconds FloatModel.exact t)
      = (e : ℚ) / (t : ℚ) := by
  simp only [asSeconds, FloatModel.exact]
  rw [div_div_div_cancel_right₀ (by norm_num : (1000000 : ℚ) ≠ 0)]

theorem opacity_range (fl : FloatModel) (a : ℚ) (h0 : 0 ≤ a) (h1 : a ≤ 1) :
    opacity fl a = ⌊fl.round (255 * a)⌋ ∧ 0 ≤ opacity fl a ∧ opacity fl a ≤ 255 := by
  have hpos : (0 : ℚ) ≤ fl.round (255 * a) := by
    rw [← fl.round_zero]
    exact fl.round_mono _ _ (by positivity)
  have hle : fl.round (255 * a) ≤ 255 := by
    have h := fl.round_mono (255 * a) 255 (by linarith)
    rwa [fl.round_255] at h
  have he : opacity fl a = ⌊fl.round (255 * a)⌋ := by
    simp only [opacity, truncate, hpos, if_true]
    rfl
  refine ⟨he, ?_, ?_⟩
  · rw [he]; exact Int.floor_nonneg.2 hpos
  · rw [he]
    have : (⌊fl.round (255 * a)⌋ : ℚ) ≤ 255 := le_trans (Int.floor_le _) hle
    exact_mod_cast this

theorem updateChecks_without_timer (s : Splashentation) (t : TPlay) (slide : Slide)
    (currentSlideState : SlideState) (elapsed : Time)
    (hslide : s.m_slides[t.currentSlide]? = some slide) (hduration : slide.duration ≤ 0) :
    ∃ s1, updateChecks s t currentSlideState elapsed
        = some (s1, { t with pc := Pc.controls }) ∧
      (s1 = s ∨ s1 = priv_setSlideState s SlideState.Show) := by
  unfold updateChecks
  simp only [hslide]
  cases currentSlideState with
  | In =>
    simp only
    split
    · exact ⟨_, rfl, Or.inr rfl⟩
    · exact ⟨_, rfl, Or.inl rfl⟩
  | Show =>
    have hd : ¬ slide.duration > 0 := not_lt.2 hduration
    simp only [hd, decide_False, Bool.false_and, Bool.false_eq_true, if_false]
    exact ⟨_, rfl, Or.inl rfl⟩

theorem update_without_timer (s : Splashentation) (t : TPlay) (slide : Slide) (elapsed : Time)
    (hslide : s.m_slides[t.currentSlide]? = some slide) (hduration : slide.duration ≤ 0) :
    ∃ s1, update s t elapsed = some (s1, { t with pc := Pc.controls }) ∧
      (s1 = s ∨ s1 = priv_setSlideState s SlideState.Show) := by
  rw [update_eq]
  split
  · exact updateChecks_without_timer s t slide _ elapsed hslide hduration
  · exact ⟨_, rfl, Or.inl rfl⟩

/-- One step that makes no request to advance, taken with no advance pending, leaves the
current slide, the slide index and the flag as they were. -/
theorem step_without_request (s s1 : Splashentation) (t : TPlay) (slide : Slide) (l : Label)
    (ht : s.m_playThread = some t) (hslide : s.m_slides[t.currentSlide]? = some slide)
    (hduration : slide.duration ≤ 0) (hmove : s.m_moveOnToNextSlide = false)
    (hreq : requestsAdvance s l = false) (hstep : step s l = some s1) :
    ∃ t1, s1.m_playThread = some t1 ∧ t1.currentSlide = t.currentSlide ∧
      s1.m_slides = s.m_slides ∧ s1.m_moveOnToNextSlide = false ∧
      s1.m_currentSlideIndex = s.m_currentSlideIndex := by
  cases l with
  | next => simp [requestsAdvance] at hreq
  | skip =>
    simp only [step, Option.some.injEq] at hstep
    subst hstep
    exact ⟨t, ht, rfl, rfl, hmove, rfl⟩
  | quit =>
    simp only [step, Option.some.injEq] at hstep
    subst hstep
    exact ⟨t, ht, rfl, rfl, hmove, rfl⟩
  | thread env =>
    simp only [step, threadStep, ht] at hstep
    cases hpc : t.pc with
    | loopHead =>
      simp only [hpc] at hstep
      cases hl : loopHead s t with
      | none => simp [hl] at hstep
      | some r =>
        simp only [hl, Option.map_some', Option.some.injEq] at hstep
        obtain ⟨m, hm, hr⟩ := loopHead_state s t r hl
        subst hstep
        exact ⟨r.2.1, rfl, by rw [hr], by simp [hm], by simp [hm, hmove], by simp [hm]⟩
    | pollEvents =>
      simp only [hpc] at hstep
      cases hev : env.event with
      | none =>
        simp only [hev, Option.map_some', Option.some.injEq] at hstep
        subst hstep
        exact ⟨_, rfl, rfl, rfl, hmove, rfl⟩
      | some event =>
        simp only [hev] at hstep
        cases hh : handleEvent s t event with
        | none => simp [hh] at hstep
        | some r =>
          obtain ⟨u, v⟩ := r
          simp only [hh, Option.map_some', Option.some.injEq] at hstep
          subst hstep
          simp only [requestsAdvance, ht, hev, hpc, decide_True, Bool.true_and, hh, hmove,
            Bool.not_false, Bool.and_true] at hreq
          obtain ⟨⟨e1, e2, -⟩, hcase⟩ := handleEvent_spec s u t v event hh
          refine ⟨v, rfl, ?_, e1, hreq, e2⟩
          rcases hcase with ⟨rfl, -⟩ | ⟨x, rfl, -⟩ <;> rfl
    | update =>
      simp only [hpc, Option.map_some', Option.some.injEq] at hstep
      subst hstep
      exact ⟨_, rfl, rfl, rfl, hmove, rfl⟩
    | updateRead =>
      simp only [hpc, Option.map_some', Option.some.injEq] at hstep
      subst hstep
      exact ⟨_, rfl, rfl, rfl, hmove, rfl⟩
    | updateChecks currentSlideState =>
      simp only [hpc] at hstep
      obtain ⟨u, hu, hcase⟩ :=
        updateChecks_without_timer s t slide currentSlideState env.elapsed hslide hduration
      simp only [hu, Option.map_some', Option.some.injEq] at hstep
      subst hstep
      rcases hcase with rfl | rfl
      · exact ⟨_, rfl, rfl, rfl, hmove, rfl⟩
      · exact ⟨_, rfl, rfl, rfl, hmove, rfl⟩
    | controls =>
      simp only [hpc, controls, hmove, Bool.false_eq_true, if_false] at hstep
      split_ifs at hstep <;>
        (simp only [Option.map_some', Option.some.injEq] at hstep
         subst hstep
         first
         | exact ⟨_, rfl, rfl, rfl, hmove, rfl⟩
         | exact ⟨_, rfl, rfl, rfl, rfl, rfl⟩)
    | returned site =>
      simp only [hpc, Option.map_some', Option.some.injEq] at hstep
      subst hstep
      exact ⟨t, rfl, rfl, rfl, hmove, rfl⟩

theorem run_without_request (ls : List Label) :
    ∀ (s s1 : Splashentation) (t : TPlay) (slide : Slide), s.m_playThread = some t →
      s.m_slides[t.currentSlide]? = some slide → slide.duration ≤ 0 →
      s.m_moveOnToNextSlide = false → noAdvanceRequested s ls = true → run s ls = some s1 →
      ∃ t1, s1.m_playThread = some t1 ∧ t1.currentSlide = t.currentSlide ∧
        s1.m_slides = s.m_slides ∧ s1.m_moveOnToNextSlide = false ∧
        s1.m_currentSlideIndex = s.m_currentSlideIndex := by
  induction ls with
  | nil =>
    intro s s1 t slide ht _ _ hmove _ hrun
    simp only [run, Option.some.injEq] at hrun
    subst hrun
    exact ⟨t, ht, rfl, rfl, hmove, rfl⟩
  | cons l rest ih =>
    intro s s1 t slide ht hslide hduration hmove hquiet hrun
    unfold run at hrun
    unfold noAdvanceRequested at hquiet
    cases hs : step s l with
    | none => simp [hs] at hrun
    | some u =>
      simp only [hs, Bool.and_eq_true, Bool.not_eq_true'] at hrun hquiet
      obtain ⟨t1, h1, h2, h3, h4, h5⟩ :=
        step_without_request s u t slide l ht hslide hduration hmove hquiet.1 hs
      obtain ⟨t2, g1, g2, g3, g4, g5⟩ :=
        ih u s1 t1 slide h1 (by rw [h3, h2]; exact hslide) hduration h4 hquiet.2 hrun
      exact ⟨t2, g1, g2.trans h2, g3.trans h3, g4, g5.trans h5⟩

theorem advancedBy_step (s : Splashentation) (k : Nat) (l : Label) (h : AdvancedBy s k)
    (hquiet : requestsExit s l = false) :
    ∃ s1, step s l = some s1 ∧ s1.m_slides = s.m_slides ∧
      AdvancedBy s1 (k + if isAdvance s l then 1 else 0) := by
  obtain ⟨t, ht, hlen, hskip, hquit, hcase⟩ := h
  cases l with
  | skip => simp [requestsExit] at hquiet
  | quit => simp [requestsExit] at hquiet
  | next =>
    refine ⟨next s, rfl, rfl, t, ht, hlen, hskip, hquit, ?_⟩
    simpa [isAdvance, next, priv_setSlideState] using hcase
  | thread env =>
    rcases hcase with ⟨hk, hplay, hrun, hcur, hidx, hp0, hp1⟩ | ⟨hk, hplay, hpc, hidx⟩
    · have hc : t.currentSlide < s.m_slides.length := hcur ▸ hk
      simp only [Splashentation.step, threadStep, ht, isAdvance]
      cases hpc : t.pc with
      | loopHead =>
        obtain ⟨m, cs, ps, hm⟩ := loopHead_spec s t hc (by omega)
        simp only [hm, Option.map_some', reduceCtorEq, decide_False, Bool.false_and,
          Bool.false_eq_true, if_false, Nat.add_zero]
        exact ⟨_, rfl, rfl, _, rfl, hlen, hskip, hquit,
          Or.inl ⟨hk, hplay, by simp [TPlay.running], hcur, hidx, hp0, hp1⟩⟩
      | pollEvents =>
        simp only [reduceCtorEq, decide_False, Bool.false_and, Bool.false_eq_true, if_false,
          Nat.add_zero]
        cases hev : env.event with
        | none =>
          simp only [Option.map_some']
          exact ⟨_, rfl, rfl, _, rfl, hlen, hskip, hquit,
            Or.inl ⟨hk, hplay, by simp [TPlay.running], hcur, hidx, hp0, hp1⟩⟩
        | some event =>
          obtain ⟨⟨u, v⟩, hr⟩ := handleEvent_defined s t event hc
          simp only [requestsExit, ht, hev, hpc, decide_True, Bool.true_and, hr,
            Bool.not_eq_false'] at hquiet
          obtain ⟨⟨e1, e2, -, e4, e5, -⟩, hcase⟩ := handleEvent_spec s u t v event hr
          simp only [hr, Option.map_some']
          refine ⟨_, rfl, e1, v, rfl, by simpa [e1] using hlen, e4.trans hskip, e5.trans hquit,
            Or.inl ?_⟩
          rcases hcase with ⟨rfl, hps⟩ | ⟨x, rfl, -⟩
          · simp only [e1, e2]
            exact ⟨hk, hps.trans hplay, hrun, hcur, hidx, hp0, hp1⟩
          · simp [TPlay.running] at hquiet
      | update =>
        simp only [reduceCtorEq, decide_False, Bool.false_and, Bool.false_eq_true, if_false,
          Nat.add_zero, Option.map_some']
        exact ⟨_, rfl, rfl, _, rfl, hlen, hskip, hquit,
          Or.inl ⟨hk, hplay, updateTest_running s t, hcur, hidx, hp0, hp1⟩⟩
      | updateRead =>
        simp only [reduceCtorEq, decide_False, Bool.false_and, Bool.false_eq_true, if_false,
          Nat.add_zero, Option.map_some']
        exact ⟨_, rfl, rfl, _, rfl, hlen, hskip, hquit,
          Or.inl ⟨hk, hplay, by simp [TPlay.running], hcur, hidx, hp0, hp1⟩⟩
      | updateChecks currentSlideState =>
        simp only [reduceCtorEq, decide_False, Bool.false_and, Bool.false_eq_true, if_false,
          Nat.add_zero]
        obtain ⟨u, hu, hcase⟩ := updateChecks_spec s t currentSlideState env.elapsed hc
        simp only [hu, Option.map_some']
        rcases hcase with rfl | ⟨-, rfl⟩ | ⟨-, rfl⟩
        · exact ⟨_, rfl, rfl, _, rfl, hlen, hskip, hquit,
            Or.inl ⟨hk, hplay, by simp [TPlay.running], hcur, hidx, hp0, hp1⟩⟩
        · exact ⟨_, rfl, rfl, _, rfl, hlen, hskip, hquit,
            Or.inl ⟨hk, hplay, by simp [TPlay.running], hcur, hidx, hp0, hp1⟩⟩
        · exact ⟨_, rfl, rfl, _, rfl, hlen, hskip, hquit,
            Or.inl ⟨hk, hplay, by simp [TPlay.running], hcur, hidx, hp0, hp1⟩⟩
      | controls =>
        simp only [Splashentation.controls, hskip, hquit, decide_True, Bool.not_false,
          Bool.and_self, Bool.true_and, Bool.false_eq_true, if_false]
        by_cases hmove : s.m_moveOnToNextSlide = true
        · have h1 : ¬ t.currentSlide ≥ s.m_slides.length := by omega
          have h2 : ¬ (t.currentSlide ≠ 0 ∧ t.previousSlide ≥ s.m_slides.length) := by omega
          simp only [hmove, h1, h2, if_true, if_false]
          by_cases hend : t.currentSlide + 1 = s.m_slides.length
          · simp only [hend, if_true, Option.map_some']
            exact ⟨_, rfl, rfl, _, rfl, hlen, rfl, rfl,
              Or.inr ⟨by simp only; omega, rfl, rfl, by simp only; omega⟩⟩
          · simp only [hend, if_false, Option.map_some']
            have hm : (t.currentSlide + 1) % 4294967296 = t.currentSlide + 1 :=
              Nat.mod_eq_of_lt (by omega)
            refine ⟨_, rfl, rfl, _, rfl, hlen, rfl, rfl,
              Or.inl ⟨by simp only; omega, hplay, by simp [TPlay.running], by simp only; omega,
                by simp only [hm]; omega, by simp, fun _ => ?_⟩⟩
            simp only
            split <;> omega
        · simp only [hmove, Bool.false_eq_true, if_false, Option.map_some', Nat.add_zero]
          exact ⟨_, rfl, rfl, _, rfl, hlen, hskip, hquit,
            Or.inl ⟨hk, hplay, by simp [TPlay.running], hcur, hidx, hp0, hp1⟩⟩
      | returned site => simp [TPlay.running, hpc] at hrun
    · simp only [Splashentation.step, threadStep, ht, hpc, isAdvance, Option.map_some',
        reduceCtorEq, decide_False, Bool.false_and, Bool.false_eq_true, if_false, Nat.add_zero]
      exact ⟨_, rfl, rfl, t, rfl, hlen, hskip, hquit, Or.inr ⟨hk, hplay, hpc, hidx⟩⟩

theorem advancedBy_run (ls : List Label) :
    ∀ (s : Splashentation) (k : Nat), AdvancedBy s k → noExitRequested s ls = true →
      ∃ s1, run s ls = some s1 ∧ s1.m_slides = s.m_slides ∧
        AdvancedBy s1 (k + advances s ls) := by
  induction ls with
  | nil => intro s k h _; exact ⟨s, rfl, rfl, h⟩
  | cons l rest ih =>
    intro s k h hquiet
    unfold noExitRequested at hquiet
    simp only [Bool.and_eq_true, Bool.not_eq_true'] at hquiet
    obtain ⟨s1, h1, hsl, hj⟩ := advancedBy_step s k l h hquiet.1
    rw [h1] at hquiet
    obtain ⟨s2, h2, hsl2, hj2⟩ := ih s1 _ hj hquiet.2
    refine ⟨s2, by simp only [Splashentation.run, h1, h2], hsl2.trans hsl, ?_⟩
    simpa only [advances, h1, Nat.add_assoc] using hj2

theorem next_replicate (s : Splashentation) (j : Nat) :
    run s (List.replicate (j + 1) Label.next) = some (next s) := by
  induction j with
  | zero => rfl
  | succ j ih =>
    rw [List.replicate_succ]
    simp only [run, step] at ih ⊢
    simpa [next, priv_setSlideState] using ih

theorem UnorderedMap.find_assign_other {K V : Type} [DecidableEq K] (m : UnorderedMap K V)
    (k k2 : K) (v : V) (h : k2 ≠ k) :
    UnorderedMap.find (UnorderedMap.assign m k v) k2 = UnorderedMap.find m k2 := by
  induction m with
  | nil => simp [UnorderedMap.assign, UnorderedMap.find, Ne.symm h]
  | cons e rest ih =>
    obtain ⟨k1, v1⟩ := e
    by_cases h1 : k1 = k
    · subst h1
      simp [UnorderedMap.assign, UnorderedMap.find, Ne.symm h]
    · by_cases h2 : k1 = k2
      · subst h2
        simp [UnorderedMap.assign, UnorderedMap.find, h]
      · simp [UnorderedMap.assign, UnorderedMap.find, h1, h2, ih]

theorem UnorderedMap.find_erase_other {K V : Type} [DecidableEq K] (m : UnorderedMap K V)
    (k k2 : K) (h : k2 ≠ k) :
    UnorderedMap.find (UnorderedMap.erase m k) k2 = UnorderedMap.find m k2 := by
  induction m with
  | nil => simp [UnorderedMap.erase, UnorderedMap.find]
  | cons e rest ih =>
    obtain ⟨k1, v1⟩ := e
    by_cases h1 : k1 = k
    · subst h1
      have : UnorderedMap.erase ((k1, v1) :: rest) k1 = UnorderedMap.erase rest k1 := by
        simp [UnorderedMap.erase]
      rw [this, ih]
      simp [UnorderedMap.find, Ne.symm h]
    · have : UnorderedMap.erase ((k1, v1) :: rest) k
          = (k1, v1) :: UnorderedMap.erase rest k := by
        simp [UnorderedMap.erase, h1]
      rw [this]
      by_cases h2 : k1 = k2
      · simp [UnorderedMap.find, h2]
      · simp [UnorderedMap.find, h2, ih]

theorem UnorderedMap.count_eq_zero_iff {K V : Type} [DecidableEq K] (m : UnorderedMap K V)
    (k : K) : UnorderedMap.count m k = 0 ↔ UnorderedMap.find m k = none := by
  unfold UnorderedMap.count
  cases UnorderedMap.find m k <;> simp

/-- What `getSlideControlAction` reads in a slide list. -/
theorem getSlideControlAction_eq (s : Splashentation) (h : s.m_playState ≠ PlayState.Playing)
    (j : Nat) (k : Key) :
    getSlideControlAction s j k
      = (s.m_slides[j]?).map (fun sl =>
          match sl.keys.find k with
          | none => ControlAction.None
          | some a => a) := by
  unfold getSlideControlAction
  rw [isPlaying_eq_false s h]
  simp only [Bool.false_eq_true, if_false]
  cases s.m_slides[j]? with
  | none => rfl
  | some sl =>
    simp only [Option.map_some']
    cases sl.keys.find k <;> rfl

theorem processKeys_found (controls : List (Key × ControlAction)) (key : Key) :
    ∀ s : Splashentation, processKeys s controls key true = (none, true, s) := by
  induction controls with
  | nil => intro s; rfl
  | cons c rest ih =>
    intro s
    unfold processKeys
    simp [priv_processKey, ih]

theorem processMouseButtons_found (controls : List (ControlAction × MouseButtons))
    (button : Button) :
    ∀ s : Splashentation, processMouseButtons s controls button true = (none, true, s) := by
  induction controls with
  | nil => intro s; rfl
  | cons c rest ih =>
    intro s
    unfold processMouseButtons
    simp [priv_processMouseButton, ih]

/-- What the frame of an iteration shows, for local variables that satisfy the invariant of
playback. -/
theorem frame_layers (fl : FloatModel) (s : Splashentation) (t : TPlay) (slideTime : Time)
    (hc : t.currentSlide < s.m_slides.length)
    (hp : (t.currentSlide = 0 ∧ t.previousSlide = s.m_slides.length) ∨
      t.previousSlide + 1 = t.currentSlide) :
    ∃ f, frame fl s t slideTime = some f ∧
      (∃ slide ds, s.m_slides[t.currentSlide]? = some slide ∧
        f.current = some (slide.color, ds)) ∧
      (s.m_slideState = SlideState.Show → f.previous = none) ∧
      (t.currentSlide = 0 → f.previous = none) ∧
      (s.m_slideState = SlideState.In → 1 ≤ t.currentSlide →
        ∃ slide ds, s.m_slides[t.currentSlide - 1]? = some slide ∧
          f.previous = some (slide.color, ds)) := by
  obtain ⟨m, cs, ps, hm⟩ := loopHead_spec s t hc (by omega)
  have hsl : s.m_slides[t.currentSlide]? = some s.m_slides[t.currentSlide] :=
    List.getElem?_eq_getElem hc
  unfold frame
  simp only [hm, if_true]
  refine ⟨_, rfl,
    ⟨s.m_slides[t.currentSlide], drawn m cs, hsl, by simp only [hsl, Option.map_some']⟩,
    fun hshow => ?_, fun h0 => ?_, fun hin h1 => ?_⟩
  · simp [hshow]
  · have hprev : t.previousSlide = s.m_slides.length := by omega
    simp [hprev]
  · have hprev : t.previousSlide = t.currentSlide - 1 := by omega
    have hlt : t.currentSlide - 1 < s.m_slides.length := by omega
    have hne : t.currentSlide - 1 ≠ s.m_slides.length := by omega
    have hpl : s.m_slides[t.currentSlide - 1]? = some s.m_slides[t.currentSlide - 1] :=
      List.getElem?_eq_getElem hlt
    refine ⟨s.m_slides[t.currentSlide - 1], drawn m ps, hpl, ?_⟩
    simp only [hprev, hin, hne, ne_eq, not_false_eq_true, decide_True, Bool.and_self, if_true,
      hpl, Option.map_some']

theorem priv_processKey_fades (s : Splashentation) (control : Key × ControlAction) (key : Key)
    (foundKey : Bool) (h : AdvanceFadesIn s) :
    AdvanceFadesIn (priv_processKey s control key foundKey).2.2 := by
  unfold priv_processKey
  split
  · exact h
  · split <;> try split
    all_goals first
      | exact h
      | (intro _; rfl)

theorem priv_processMouseButton_fades (s : Splashentation)
    (control : ControlAction × MouseButtons) (mouseButton : Button) (found : Bool)
    (h : AdvanceFadesIn s) :
    AdvanceFadesIn (priv_processMouseButton s control mouseButton found).2.2 := by
  unfold priv_processMouseButton
  split
  · exact h
  · simp only
    split
    · split <;> try split
      all_goals first
        | exact h
        | (intro _; rfl)
    · exact h

theorem processKeys_fades (controls : List (Key × ControlAction)) (key : Key) :
    ∀ (s : Splashentation) (found : Bool), AdvanceFadesIn s →
      AdvanceFadesIn (processKeys s controls key found).2.2 := by
  induction controls with
  | nil => intro s found h; exact h
  | cons c rest ih =>
    intro s found h
    unfold processKeys
    simp only
    split
    · exact ih _ _ (priv_processKey_fades s c key found h)
    · exact priv_processKey_fades s c key found h

theorem processMouseButtons_fades (controls : List (ControlAction × MouseButtons))
    (mouseButton : Button) :
    ∀ (s : Splashentation) (found : Bool), AdvanceFadesIn s →
      AdvanceFadesIn (processMouseButtons s controls mouseButton found).2.2 := by
  induction controls with
  | nil => intro s found h; exact h
  | cons c rest ih =>
    intro s found h
    unfold processMouseButtons
    simp only
    split
    · exact ih _ _ (priv_processMouseButton_fades s c mouseButton found h)
    · exact priv_processMouseButton_fades s c mouseButton found h

theorem handleEvent_fades (s s1 : Splashentation) (t t1 : TPlay) (event : Event)
    (h : AdvanceFadesIn s) (hh : handleEvent s t event = some (s1, t1)) :
    AdvanceFadesIn s1 := by
  unfold handleEvent at hh
  cases event with
  | Closed =>
    simp only [Option.some.injEq, Prod.mk.injEq] at hh
    obtain ⟨rfl, -⟩ := hh
    exact h
  | Other =>
    simp only [Option.some.injEq, Prod.mk.injEq] at hh
    obtain ⟨rfl, -⟩ := hh
    exact h
  | MouseButtonPressed button =>
    simp only at hh
    cases hsl : s.m_slides[t.currentSlide]? with
    | none => simp [hsl] at hh
    | some slide =>
      simp only [hsl] at hh
      have a1 := processMouseButtons_fades slide.mouseButtons button s false h
      generalize processMouseButtons s slide.mouseButtons button false = r1 at hh a1
      obtain ⟨o1, f1, u1⟩ := r1
      cases o1 with
      | some control =>
        simp only [Option.some.injEq, Prod.mk.injEq] at hh
        obtain ⟨rfl, -⟩ := hh
        exact a1
      | none =>
        simp only at hh
        have b1 := processMouseButtons_fades u1.m_globalMouseButtons button u1 f1 a1
        generalize processMouseButtons u1 u1.m_globalMouseButtons button f1 = r2 at hh b1
        obtain ⟨o2, f2, u2⟩ := r2
        cases o2 <;>
          (simp only [Option.some.injEq, Prod.mk.injEq] at hh
           obtain ⟨rfl, -⟩ := hh
           exact b1)
  | KeyPressed code =>
    simp only at hh
    cases hsl : s.m_slides[t.currentSlide]? with
    | none => simp [hsl] at hh
    | some slide =>
      simp only [hsl] at hh
      have a1 := processKeys_fades slide.keys code s false h
      generalize processKeys s slide.keys code false = r1 at hh a1
      obtain ⟨o1, f1, u1⟩ := r1
      cases o1 with
      | some control =>
        simp only [Option.some.injEq, Prod.mk.injEq] at hh
        obtain ⟨rfl, -⟩ := hh
        exact a1
      | none =>
        simp only at hh
        have b1 := processKeys_fades u1.m_globalKeys code u1 f1 a1
        generalize processKeys u1 u1.m_globalKeys code f1 = r2 at hh b1
        obtain ⟨o2, f2, u2⟩ := r2
        cases o2 <;>
          (simp only [Option.some.injEq, Prod.mk.injEq] at hh
           obtain ⟨rfl, -⟩ := hh
           exact b1)

theorem updateChecks_fades (s s1 : Splashentation) (t t1 : TPlay)
    (currentSlideState : SlideState) (elapsed : Time) (hmove : s.m_moveOnToNextSlide = false)
    (hu : updateChecks s t currentSlideState elapsed = some (s1, t1)) : AdvanceFadesIn s1 := by
  rcases updateChecks_state s s1 t t1 currentSlideState elapsed hu with rfl | rfl | rfl
  · intro hm
    rw [hmove] at hm
    cases hm
  · intro hm
    simp [priv_setSlideState, hmove] at hm
  · intro _
    rfl

theorem controls_fades (s s1 : Splashentation) (t t1 : TPlay)
    (h : AdvanceFadesIn s) (hc : controls s t = some (s1, t1)) : AdvanceFadesIn s1 := by
  unfold controls at hc
  simp only at hc
  split_ifs at hc <;> cases hc <;>
    first
    | exact h
    | (intro hm; simp at hm)

theorem controls_pc (s s1 : Splashentation) (t t1 : TPlay)
    (hc : controls s t = some (s1, t1)) : t1.insideTimerChecks = false := by
  unfold controls at hc
  simp only at hc
  split_ifs at hc <;> cases hc <;> rfl

theorem timerChecksInv_threadStep (s s1 : Splashentation) (env : Env) (h : TimerChecksInv s)
    (hs : threadStep s env = some s1) : TimerChecksInv s1 := by
  obtain ⟨hfade, hinside⟩ := h
  unfold threadStep at hs
  cases ht : s.m_playThread with
  | none =>
    simp only [ht, Option.some.injEq] at hs
    subst hs
    exact ⟨hfade, hinside⟩
  | some t =>
    simp only [ht] at hs
    cases hpc : t.pc with
    | loopHead =>
      simp only [hpc] at hs
      cases hl : loopHead s t with
      | none => simp [hl] at hs
      | some r =>
        simp only [hl, Option.map_some', Option.some.injEq] at hs
        obtain ⟨m, hm, hr⟩ := loopHead_state s t r hl
        subst hs
        refine ⟨by simpa [AdvanceFadesIn, hm] using hfade, fun t1 ht1 hin => ?_⟩
        simp only [Option.some.injEq] at ht1
        subst ht1
        rw [hr] at hin
        simp [TPlay.insideTimerChecks] at hin
    | pollEvents =>
      simp only [hpc] at hs
      cases hev : env.event with
      | none =>
        simp only [hev, Option.map_some', Option.some.injEq] at hs
        subst hs
        refine ⟨hfade, fun t1 ht1 hin => ?_⟩
        simp only [Option.some.injEq] at ht1
        subst ht1
        simp [TPlay.insideTimerChecks] at hin
      | some event =>
        simp only [hev] at hs
        cases hh : handleEvent s t event with
        | none => simp [hh] at hs
        | some r =>
          obtain ⟨u, v⟩ := r
          simp only [hh, Option.map_some', Option.some.injEq] at hs
          subst hs
          refine ⟨handleEvent_fades s u t v event hfade hh, fun t1 ht1 hin => ?_⟩
          simp only [Option.some.injEq] at ht1
          subst ht1
          rcases (handleEvent_spec s u t v event hh).2 with ⟨rfl, -⟩ | ⟨x, rfl, -⟩
          · simp [TPlay.insideTimerChecks, hpc] at hin
          · simp [TPlay.insideTimerChecks] at hin
    | update =>
      simp only [hpc, Option.map_some', Option.some.injEq] at hs
      subst hs
      refine ⟨hfade, fun t1 ht1 hin => ?_⟩
      simp only [Option.some.injEq] at ht1
      subst ht1
      rcases updateTest_cases s t with ⟨-, -, h2⟩ | h1
      · exact h2
      · simp [TPlay.insideTimerChecks, h1] at hin
    | updateRead =>
      simp only [hpc, Option.map_some', Option.some.injEq] at hs
      subst hs
      refine ⟨hfade, fun t1 _ _ => ?_⟩
      exact hinside t ht (by simp [TPlay.insideTimerChecks, hpc])
    | updateChecks currentSlideState =>
      simp only [hpc] at hs
      have hmove : s.m_moveOnToNextSlide = false :=
        hinside t ht (by simp [TPlay.insideTimerChecks, hpc])
      cases hu : updateChecks s t currentSlideState env.elapsed with
      | none => simp [hu] at hs
      | some r =>
        obtain ⟨u, v⟩ := r
        simp only [hu, Option.map_some', Option.some.injEq] at hs
        subst hs
        refine ⟨updateChecks_fades s u t v currentSlideState env.elapsed hmove hu,
          fun t1 ht1 hin => ?_⟩
        simp only [Option.some.injEq] at ht1
        subst ht1
        rw [(updateChecks_cases s u t v currentSlideState env.elapsed hu).1] at hin
        simp [TPlay.insideTimerChecks] at hin
    | controls =>
      simp only [hpc] at hs
      cases hc : controls s t with
      | none => simp [hc] at hs
      | some r =>
        obtain ⟨u, v⟩ := r
        simp only [hc, Option.map_some', Option.some.injEq] at hs
        subst hs
        refine ⟨controls_fades s u t v hfade hc, fun t1 ht1 hin => ?_⟩
        simp only [Option.some.injEq] at ht1
        subst ht1
        rw [controls_pc s u t v hc] at hin
        cases hin
    | returned site =>
      simp only [hpc, Option.map_some', Option.some.injEq] at hs
      subst hs
      refine ⟨hfade, fun t1 ht1 hin => ?_⟩
      simp only [Option.some.injEq] at ht1
      subst ht1
      simp [TPlay.insideTimerChecks, hpc] at hin

theorem timerChecksInv_step (s s1 : Splashentation) (l : Label) (h : TimerChecksInv s)
    (hquiet : nextInsideTimerChecks s l = false) (hs : step s l = some s1) :
    TimerChecksInv s1 := by
  cases l with
  | next =>
    simp only [step, Option.some.injEq] at hs
    subst hs
    refine ⟨fun _ => rfl, fun t ht hin => ?_⟩
    have ht0 : s.m_playThread = some t := ht
    simp only [nextInsideTimerChecks, ht0] at hquiet
    rw [hquiet] at hin
    cases hin
  | skip =>
    simp only [step, Option.some.injEq] at hs
    subst hs
    exact h
  | quit =>
    simp only [step, Option.some.injEq] at hs
    subst hs
    exact h
  | thread env => exact timerChecksInv_threadStep s s1 env h hs

theorem timerChecksInv_run (ls : List Label) :
    ∀ s s1 : Splashentation, TimerChecksInv s → noNextInsideTimerChecks s ls = true →
      run s ls = some s1 → TimerChecksInv s1 := by
  induction ls with
  | nil =>
    intro s s1 h _ hr
    simp only [run, Option.some.injEq] at hr
    subst hr
    exact h
  | cons l rest ih =>
    intro s s1 h hquiet hr
    unfold run at hr
    unfold noNextInsideTimerChecks at hquiet
    cases hs : step s l with
    | none => simp [hs] at hr
    | some u =>
      simp only [hs, Bool.and_eq_true, Bool.not_eq_true'] at hr hquiet
      exact ih u s1 (timerChecksInv_step s u l h hquiet.1 hs) hquiet.2 hr

theorem run_append (ls ls2 : List Label) :
    ∀ s : Splashentation, run s (ls ++ ls2) = (run s ls).bind (fun s1 => run s1 ls2) := by
  induction ls with
  | nil => intro s; rfl
  | cons l rest ih =>
    intro s
    simp only [List.cons_append, run]
    cases step s l with
    | none => rfl
    | some s1 => exact ih s1

theorem updateChecks_thread (s : Splashentation) (t : TPlay) (th : Option TPlay) (pc : Pc)
    (currentSlideState : SlideState) (elapsed : Time) :
    (updateChecks { s with m_playThread := th } { t with pc := pc } currentSlideState
        elapsed).map (fun r => { r.1 with m_playThread := some r.2 })
      = (updateChecks s t currentSlideState elapsed).map
          (fun r => { r.1 with m_playThread := some r.2 }) := by
  unfold updateChecks
  simp only
  cases s.m_slides[t.currentSlide]? with
  | none => rfl
  | some slide =>
    cases currentSlideState with
    | In =>
      simp only
      split_ifs <;> rfl
    | Show =>
      simp only
      split_ifs <;> rfl

/-- The three steps of the update, taken with no call of the owning thread in between, are
the update in one piece. -/
theorem update_steps (s : Splashentation) (t : TPlay) (e1 e2 elapsed : Time)
    (ht : s.m_playThread = some t) (hpc : t.pc = Pc.update)
    (hshow : t.showCurrentSlide = true) (hmove : s.m_moveOnToNextSlide = false) :
    run s [tick e1, tick e2, tick elapsed]
      = (update s t elapsed).map (fun r => { r.1 with m_playThread := some r.2 }) := by
  have h1 : step s (tick e1)
      = some { s with m_playThread := some { t with pc := Pc.updateRead } } := by
    simp only [step, tick, threadStep, ht, hpc, updateTest, hshow, hmove, Bool.not_false,
      Bool.and_self, if_true, Option.map_some']
  have h2 : step { s with m_playThread := some { t with pc := Pc.updateRead } } (tick e2)
      = some { s with
          m_playThread := some { t with pc := Pc.updateChecks (priv_getSlideState s) } } := by
    simp only [step, tick, threadStep, Option.map_some', priv_getSlideState]
  have h3 : step
        { s with
          m_playThread := some { t with pc := Pc.updateChecks (priv_getSlideState s) } }
        (tick elapsed)
      = (update s t elapsed).map (fun r => { r.1 with m_playThread := some r.2 }) := by
    have hcond : (t.showCurrentSlide && !s.m_moveOnToNextSlide) = true := by
      simp [hshow, hmove]
    rw [update_eq, if_pos hcond]
    rw [← updateChecks_thread s t
      (some { t with pc := Pc.updateChecks (priv_getSlideState s) })
      (Pc.updateChecks (priv_getSlideState s)) (priv_getSlideState s) elapsed]
    simp only [step, tick, threadStep]
  simp only [run, h1, h2]
  rw [h3]
  cases (update s t elapsed).map (fun r => { r.1 with m_playThread := some r.2 }) <;> rfl

/-- The first iteration on a slide that has just been entered (fade state `In`, no advance
pending), without events and without calls from the owning thread: the iteration does not
advance and does not request an advance, whatever the clock reads. -/
theorem first_iteration_keeps_slide (s : Splashentation) (t : TPlay)
    (e1 e2 e3 e4 e5 e6 : Time)
    (ht : s.m_playThread = some t) (hpc : t.pc = Pc.loopHead)
    (hc : t.currentSlide < s.m_slides.length)
    (hp : t.previousSlide ≠ s.m_slides.length → t.previousSlide < s.m_slides.length)
    (hin : s.m_slideState = SlideState.In) (hmove : s.m_moveOnToNextSlide = false) :
    ∃ s2 t2, run s [tick e1, tick e2, tick e3, tick e4, tick e5, tick e6] = some s2 ∧
      s2.m_playThread = some t2 ∧ t2.currentSlide = t.currentSlide ∧
      s2.m_currentSlideIndex = s.m_currentSlideIndex ∧ s2.m_moveOnToNextSlide = false ∧
      (t2.pc = Pc.loopHead ∨ t2.pc = Pc.returned Exit.controlSkip ∨
        t2.pc = Pc.returned Exit.controlQuit) := by
  obtain ⟨m, cs, ps, hm⟩ := loopHead_spec s t hc hp
  have h1 : step s (tick e1) = some
      { s with
        m_drawables := m
        m_playThread := some { t with
          showCurrentSlide := true
          showPreviousSlide := decide (s.m_slideState = SlideState.In) &&
            decide (t.previousSlide ≠ s.m_slides.length)
          pc := Pc.pollEvents } } := by
    simp only [step, tick, threadStep, ht, hpc, hm, Option.map_some']
  have h2 : ∀ (a : Splashentation) (ta : TPlay), a.m_playThread = some ta →
      ta.pc = Pc.pollEvents →
      step a (tick e2) = some { a with m_playThread := some { ta with pc := Pc.update } } := by
    intro a ta hta hpa
    simp only [step, tick, threadStep, hta, hpa, Option.map_some']
  have h12 : run s [tick e1, tick e2] = some
      { s with
        m_drawables := m
        m_playThread := some { t with
          showCurrentSlide := true
          showPreviousSlide := decide (s.m_slideState = SlideState.In) &&
            decide (t.previousSlide ≠ s.m_slides.length)
          pc := Pc.update } } := by
    simp only [run, h1]
    rw [h2 _ _ rfl rfl]
  obtain ⟨u, hu, hcase⟩ := update_spec
    { s with
      m_drawables := m
      m_playThread := some { t with
        showCurrentSlide := true
        showPreviousSlide := decide (s.m_slideState = SlideState.In) &&
          decide (t.previousSlide ≠ s.m_slides.length)
        pc := Pc.update } }
    { t with
      showCurrentSlide := true
      showPreviousSlide := decide (s.m_slideState = SlideState.In) &&
        decide (t.previousSlide ≠ s.m_slides.length)
      pc := Pc.update } e5 hc
  have h345 := update_steps
    { s with
      m_drawables := m
      m_playThread := some { t with
        showCurrentSlide := true
        showPreviousSlide := decide (s.m_slideState = SlideState.In) &&
          decide (t.previousSlide ≠ s.m_slides.length)
        pc := Pc.update } }
    { t with
      showCurrentSlide := true
      showPreviousSlide := decide (s.m_slideState = SlideState.In) &&
        decide (t.previousSlide ≠ s.m_slides.length)
      pc := Pc.update } e3 e4 e5 rfl rfl rfl hmove
  rw [hu, Option.map_some'] at h345
  have hfacts : u.m_moveOnToNextSlide = false ∧
      u.m_currentSlideIndex = s.m_currentSlideIndex ∧ u.m_slides = s.m_slides := by
    rcases hcase with rfl | ⟨-, -, rfl⟩ | ⟨-, hs, -⟩
    · exact ⟨hmove, rfl, rfl⟩
    · exact ⟨hmove, rfl, rfl⟩
    · simp [hin] at hs
  obtain ⟨hum, hui, -⟩ := hfacts
  have hsplit : [tick e1, tick e2, tick e3, tick e4, tick e5, tick e6]
      = [tick e1, tick e2] ++ ([tick e3, tick e4, tick e5] ++ [tick e6]) := rfl
  rw [hsplit, run_append, h12, Option.some_bind, run_append, h345, Option.some_bind]
  simp only [run, step, tick, threadStep, controls, hum, Bool.false_eq_true, if_false]
  split_ifs
  · exact ⟨_, _, rfl, rfl, rfl, hui, rfl, Or.inr (Or.inl rfl)⟩
  · exact ⟨_, _, rfl, rfl, rfl, hui, rfl, Or.inr (Or.inr rfl)⟩
  · exact ⟨_, _, rfl, rfl, rfl, hui, rfl, Or.inl rfl⟩

theorem playbackInv_of_run (s s0 s1 : Splashentation) (ls : List Label)
    (hplaying : isPlaying s = false) (hslides : s.m_slides.length ≠ 0)
    (hsize : s.m_slides.length < 4294967296) (hplay : play s = some s0)
    (hquiet : noNextInsideTimerChecks s0 ls = true)
    (hrun : run s0 ls = some s1) : PlaybackInv s1 ∧ TimerChecksInv s1 := by
  obtain ⟨hinv, -⟩ := playbackInv_play s s0 hplaying hslides hsize hplay
  obtain ⟨s2, h2, hinv2, -⟩ := playbackInv_run ls s0 hinv
  rw [hrun, Option.some.injEq] at h2
  subst h2
  refine ⟨hinv2, timerChecksInv_run ls s0 s1 ?_ hquiet hrun⟩
  obtain ⟨-, rfl⟩ := play_starts s s0 hplaying hslides hplay
  refine ⟨fun hm => ?_, fun _ _ _ => rfl⟩
  simp at hm

theorem justEntered_state (s s0 s1 : Splashentation)
    (hplaying : isPlaying s = false) (hslides : s.m_slides.length ≠ 0)
    (hsize : s.m_slides.length < 4294967296) (hplay : play s = some s0)
    (h : JustEntered s0 s1) :
    ∃ t1, s1.m_playThread = some t1 ∧ t1.pc = Pc.loopHead ∧
      t1.currentSlide < s1.m_slides.length ∧
      (t1.previousSlide ≠ s1.m_slides.length → t1.previousSlide < s1.m_slides.length) ∧
      s1.m_slideState = SlideState.In ∧ s1.m_moveOnToNextSlide = false := by
  rcases h with rfl | ⟨ls, p, env, t1, hrun, hnorace, hadv, hstep, ht1, hrunning⟩
  · obtain ⟨-, rfl⟩ := play_starts s s1 hplaying hslides hplay
    exact ⟨_, rfl, rfl, Nat.pos_of_ne_zero hslides, fun h => absurd rfl h, rfl, rfl⟩
  · obtain ⟨hinv, hfade, -⟩ :=
      playbackInv_of_run s s0 p ls hplaying hslides hsize hplay hnorace hrun
    obtain ⟨q, hq, ⟨t2, ht2, -, hidx, hcur⟩, -⟩ := playbackInv_step p (Label.thread env) hinv
    rw [hstep, Option.some.injEq] at hq
    subst hq
    rw [ht1, Option.some.injEq] at ht2
    subst ht2
    obtain ⟨t, ht, -⟩ := hinv
    simp only [isAdvance, ht, Bool.and_eq_true, decide_eq_true_eq, Bool.not_eq_true'] at hadv
    obtain ⟨⟨⟨hpc, hskip⟩, hquit⟩, hmove⟩ := hadv
    have hin : p.m_slideState = SlideState.In := hfade hmove
    simp only [step, threadStep, ht, hpc, controls, hskip, hquit, hmove, Bool.false_eq_true,
      if_false, if_true] at hstep
    split_ifs at hstep
    all_goals simp only [Option.map_some', Option.some.injEq, Option.map_none',
      reduceCtorEq] at hstep
    all_goals
      subst hstep
      simp only [Option.some.injEq] at ht1
      subst ht1
      first
      | (simp [TPlay.running] at hrunning; done)
      | (obtain ⟨hi, hp⟩ := hcur (by simp)
         refine ⟨_, rfl, rfl, ?_, ?_, hin, rfl⟩
         · simp only at hi hidx ⊢
           omega
         · simp only at hp hidx hi ⊢
           intro hne
           rcases hp with ⟨h0, -⟩ | hp
           · omega
           · omega)

theorem threadStep_running_playState (s s1 : Splashentation) (t t1 : TPlay) (env : Env)
    (hs : threadStep s env = some s1) (ht : s.m_playThread = some t)
    (ht1 : s1.m_playThread = some t1) (hrun : t1.running = true) :
    s1.m_playState = s.m_playState := by
  unfold threadStep at hs
  simp only [ht] at hs
  cases hpc : t.pc with
  | loopHead =>
    simp only [hpc] at hs
    cases hl : loopHead s t with
    | none => simp [hl] at hs
    | some r =>
      simp only [hl, Option.map_some', Option.some.injEq] at hs
      obtain ⟨m, hm, -⟩ := loopHead_state s t r hl
      subst hs
      simp [hm]
  | pollEvents =>
    simp only [hpc] at hs
    cases hev : env.event with
    | none =>
      simp only [hev, Option.map_some', Option.some.injEq] at hs
      subst hs
      rfl
    | some event =>
      simp only [hev] at hs
      cases hh : handleEvent s t event with
      | none => simp [hh] at hs
      | some r =>
        obtain ⟨u, v⟩ := r
        simp only [hh, Option.map_some', Option.some.injEq] at hs
        subst hs
        simp only [Option.some.injEq] at ht1
        subst ht1
        rcases (handleEvent_spec s u t v event hh).2 with ⟨-, hp⟩ | ⟨x, rfl, -⟩
        · exact hp
        · simp [TPlay.running] at hrun
  | update =>
    simp only [hpc, Option.map_some', Option.some.injEq] at hs
    subst hs
    rfl
  | updateRead =>
    simp only [hpc, Option.map_some', Option.some.injEq] at hs
    subst hs
    rfl
  | updateChecks currentSlideState =>
    simp only [hpc] at hs
    cases hu : updateChecks s t currentSlideState env.elapsed with
    | none => simp [hu] at hs
    | some r =>
      obtain ⟨u, v⟩ := r
      simp only [hu, Option.map_some', Option.some.injEq] at hs
      subst hs
      rcases updateChecks_state s u t v currentSlideState env.elapsed hu with
        rfl | rfl | rfl <;> rfl
  | controls =>
    simp only [hpc] at hs
    cases hc : controls s t with
    | none => simp [hc] at hs
    | some r =>
      obtain ⟨u, v⟩ := r
      simp only [hc, Option.map_some', Option.some.injEq] at hs
      subst hs
      simp only [Option.some.injEq] at ht1
      subst ht1
      unfold controls at hc
      simp only at hc
      split_ifs at hc <;> cases hc <;>
        first
        | rfl
        | simp [TPlay.running] at hrun
  | returned site =>
    simp only [hpc, Option.map_some', Option.some.injEq] at hs
    subst hs
    rfl

theorem playedInv_step (s : Splashentation) (l : Label) (h : PlayedInv s) :
    ∃ s1, step s l = some s1 ∧ s1.m_slides = s.m_slides ∧ PlayedInv s1 := by
  obtain ⟨t, ht, hidx, hcase⟩ := h
  rcases hcase with ⟨hrun, hplay, hinv⟩ | ⟨hrun, hplay⟩
  · obtain ⟨s1, hs, hinv1, hsl⟩ := playbackInv_step s l hinv
    refine ⟨s1, hs, hsl, ?_⟩
    obtain ⟨t1, ht1, hlen1, hidx1, hcur1⟩ := hinv1
    refine ⟨t1, ht1, hidx1, ?_⟩
    cases l with
    | next =>
      simp only [step, Option.some.injEq] at hs
      subst hs
      have : t1 = t := by
        have := ht1.symm.trans ht
        simpa using this
      subst this
      exact Or.inl ⟨hrun, hplay, ⟨t1, ht1, hlen1, hidx1, hcur1⟩⟩
    | skip =>
      simp only [step, Option.some.injEq] at hs
      subst hs
      have : t1 = t := by
        have := ht1.symm.trans ht
        simpa using this
      subst this
      exact Or.inl ⟨hrun, hplay, ⟨t1, ht1, hlen1, hidx1, hcur1⟩⟩
    | quit =>
      simp only [step, Option.some.injEq] at hs
      subst hs
      have : t1 = t := by
        have := ht1.symm.trans ht
        simpa using this
      subst this
      exact Or.inl ⟨hrun, hplay, ⟨t1, ht1, hlen1, hidx1, hcur1⟩⟩
    | thread env =>
      simp only [step] at hs
      cases hr1 : t1.running with
      | true =>
        have hp := threadStep_running_playState s s1 t t1 env hs ht ht1 hr1
        exact Or.inl ⟨rfl, hp.trans hplay, ⟨t1, ht1, hlen1, hidx1, hcur1⟩⟩
      | false =>
        refine Or.inr ⟨rfl, ?_⟩
        have hx : ∃ x, t1.pc = Pc.returned x := by
          unfold TPlay.running at hr1
          cases hpc : t1.pc with
          | returned x => exact ⟨x, rfl⟩
          | loopHead => simp [hpc] at hr1
          | pollEvents => simp [hpc] at hr1
          | update => simp [hpc] at hr1
          | updateRead => simp [hpc] at hr1
          | updateChecks c => simp [hpc] at hr1
          | controls => simp [hpc] at hr1
        obtain ⟨x, hx⟩ := hx
        obtain ⟨-, hstate⟩ := threadStep_exit s s1 t t1 env x ht
          ((TPlay.running_iff t).1 hrun) hs ht1 hx
        rcases (ExitState.cases x _ hstate).1 with h1 | h1 <;> simp [h1]
  · obtain ⟨x, hx⟩ : ∃ x, t.pc = Pc.returned x := by
      unfold TPlay.running at hrun
      cases hpc : t.pc with
      | returned x => exact ⟨x, rfl⟩
      | loopHead => simp [hpc] at hrun
      | pollEvents => simp [hpc] at hrun
      | update => simp [hpc] at hrun
      | updateRead => simp [hpc] at hrun
      | updateChecks c => simp [hpc] at hrun
      | controls => simp [hpc] at hrun
    obtain ⟨s1, hs, hp1, ht1, hi1, hsl1⟩ := returned_stable [l] s t x ht hx
    have hs1 : step s l = some s1 := by
      unfold run at hs
      cases hst : step s l with
      | none => simp [hst] at hs
      | some u => simpa [hst, run] using hs
    refine ⟨s1, hs1, hsl1, t, ht1, by rw [hi1, hsl1]; exact hidx, Or.inr ⟨hrun, ?_⟩⟩
    rw [hp1]
    exact hplay

theorem playedInv_apply (s : Splashentation) (o : Operation) (h : PlayedInv s)
    (hclear : clearsSlideList s o = false) :
    (o ≠ Operation.play → ∃ s1, applyOperation s o = some s1) ∧
    ∀ s1, applyOperation s o = some s1 → PlayedInv s1 := by
  cases o with
  | label l =>
    obtain ⟨s1, hs, -, hinv⟩ := playedInv_step s l h
    refine ⟨fun _ => ⟨s1, hs⟩, fun s2 h2 => ?_⟩
    simp only [applyOperation, hs, Option.some.injEq] at h2
    exact h2 ▸ hinv
  | addSlide slide =>
    refine ⟨fun _ => ⟨_, rfl⟩, fun s2 h2 => ?_⟩
    simp only [applyOperation, Option.some.injEq] at h2
    subst h2
    unfold addSlide
    split
    · exact h
    · rename_i hp
      obtain ⟨t, ht, hidx, hcase⟩ := h
      refine ⟨t, ht, ?_, ?_⟩
      · simp only [List.length_append, List.length_singleton]
        omega
      · rcases hcase with ⟨-, hplay, -⟩ | hcase
        · exact absurd (isPlaying_eq_true s hplay) hp
        · exact Or.inr hcase
  | clearSlides =>
    refine ⟨fun _ => ⟨_, rfl⟩, fun s2 h2 => ?_⟩
    simp only [applyOperation, Option.some.injEq] at h2
    subst h2
    simp only [clearsSlideList, Bool.not_eq_false'] at hclear
    simp only [clearSlides, hclear, if_true]
    exact h
  | play =>
    refine ⟨fun hne => absurd rfl hne, fun s2 h2 => ?_⟩
    obtain ⟨t, ht, hidx, hcase⟩ := h
    simp only [applyOperation, Splashentation.play] at h2
    split at h2
    · simp only [Option.some.injEq] at h2
      subst h2
      exact ⟨t, ht, hidx, hcase⟩
    · simp [ht] at h2

theorem playedInv_run (os : List Operation) :
    ∀ s : Splashentation, PlayedInv s → noSlideListCleared s os = true →
      ((∀ o ∈ os, o ≠ Operation.play) → ∃ s1, runOperations s os = some s1) ∧
      ∀ s1, runOperations s os = some s1 → PlayedInv s1 := by
  induction os with
  | nil =>
    intro s h _
    refine ⟨fun _ => ⟨s, rfl⟩, fun s1 h1 => ?_⟩
    simp only [runOperations, Option.some.injEq] at h1
    exact h1 ▸ h
  | cons o rest ih =>
    intro s h hclear
    unfold noSlideListCleared at hclear
    simp only [Bool.and_eq_true, Bool.not_eq_true'] at hclear
    obtain ⟨hdef, hinv⟩ := playedInv_apply s o h hclear.1
    constructor
    · intro hno
      obtain ⟨u, hu⟩ := hdef (hno o (List.mem_cons_self _ _))
      have hc := hclear.2
      rw [hu] at hc
      obtain ⟨s1, hs1⟩ := (ih u (hinv u hu) hc).1
        (fun o2 ho2 => hno o2 (List.mem_cons_of_mem _ ho2))
      exact ⟨s1, by simp only [runOperations, hu, hs1]⟩
    · intro s1 h1
      unfold runOperations at h1
      cases hu : applyOperation s o with
      | none => simp [hu] at h1
      | some u =>
        simp only [hu] at h1
        have hc := hclear.2
        rw [hu] at hc
        exact (ih u (hinv u hu) hc).2 s1 h1

theorem run_flag_calls (ls : List Label) :
    ∀ s : Splashentation, (∀ l ∈ ls, l = Label.skip ∨ l = Label.quit) →
      ∃ k q, run s ls = some { s with m_controlSkip := k, m_controlQuit := q } := by
  induction ls with
  | nil => intro s _; exact ⟨s.m_controlSkip, s.m_controlQuit, rfl⟩
  | cons l rest ih =>
    intro s h
    have hrest : ∀ x ∈ rest, x = Label.skip ∨ x = Label.quit :=
      fun x hx => h x (List.mem_cons_of_mem _ hx)
    rcases h l (List.mem_cons_self _ _) with rfl | rfl
    · obtain ⟨k, q, hr⟩ := ih (skip s) hrest
      exact ⟨k, q, by simp only [run, step, hr]; rfl⟩
    · obtain ⟨k, q, hr⟩ := ih (quit s) hrest
      exact ⟨k, q, by simp only [run, step, hr]; rfl⟩

theorem updateChecks_flags (s : Splashentation) (t : TPlay) (th : Option TPlay) (pc : Pc)
    (k q : Bool) (currentSlideState : SlideState) (elapsed : Time) :
    (updateChecks { s with m_controlSkip := k, m_controlQuit := q, m_playThread := th }
        { t with pc := pc } currentSlideState elapsed).map
        (fun r => { r.1 with m_playThread := some r.2 })
      = (updateChecks s t currentSlideState elapsed).map
          (fun r => { r.1 with m_controlSkip := k, m_controlQuit := q,
                               m_playThread := some r.2 }) := by
  unfold updateChecks
  simp only
  cases s.m_slides[t.currentSlide]? with
  | none => rfl
  | some slide =>
    cases currentSlideState with
    | In =>
      simp only
      split_ifs <;> rfl
    | Show =>
      simp only
      split_ifs <;> rfl

/-- The three steps of the update with calls of `skip` and `quit` in between: the update in
one piece, and the flags the calls set. -/
theorem update_steps_flag_calls (s : Splashentation) (t : TPlay) (e1 e2 elapsed : Time)
    (ls1 ls2 : List Label)
    (ht : s.m_playThread = some t) (hpc : t.pc = Pc.update)
    (hshow : t.showCurrentSlide = true) (hmove : s.m_moveOnToNextSlide = false)
    (h1 : ∀ l ∈ ls1, l = Label.skip ∨ l = Label.quit)
    (h2 : ∀ l ∈ ls2, l = Label.skip ∨ l = Label.quit) :
    ∃ k q, run s (tick e1 :: ls1 ++ tick e2 :: ls2 ++ [tick elapsed])
      = (update s t elapsed).map
          (fun r => { r.1 with m_controlSkip := k, m_controlQuit := q,
                               m_playThread := some r.2 }) := by
  have hs1 : step s (tick e1)
      = some { s with m_playThread := some { t with pc := Pc.updateRead } } := by
    simp only [step, tick, threadStep, ht, hpc, updateTest, hshow, hmove, Bool.not_false,
      Bool.and_self, if_true, Option.map_some']
  obtain ⟨k1, q1, hr1⟩ :=
    run_flag_calls ls1 { s with m_playThread := some { t with pc := Pc.updateRead } } h1
  have hs2 : step { s with m_controlSkip := k1, m_controlQuit := q1,
                           m_playThread := some { t with pc := Pc.updateRead } } (tick e2)
      = some { s with
          m_controlSkip := k1
          m_controlQuit := q1
          m_playThread := some { t with pc := Pc.updateChecks (priv_getSlideState s) } } := by
    simp only [step, tick, threadStep, Option.map_some', priv_getSlideState]
  obtain ⟨k2, q2, hr2⟩ :=
    run_flag_calls ls2 { s with
          m_controlSkip := k1
          m_controlQuit := q1
          m_playThread := some { t with pc := Pc.updateChecks (priv_getSlideState s) } } h2
  have hs3 : step { s with
          m_controlSkip := k2
          m_controlQuit := q2
          m_playThread := some { t with pc := Pc.updateChecks (priv_getSlideState s) } }
        (tick elapsed)
      = (update s t elapsed).map
          (fun r => { r.1 with m_controlSkip := k2, m_controlQuit := q2,
                               m_playThread := some r.2 }) := by
    have hcond : (t.showCurrentSlide && !s.m_moveOnToNextSlide) = true := by
      simp [hshow, hmove]
    rw [update_eq, if_pos hcond]
    rw [← updateChecks_flags s t
      (some { t with pc := Pc.updateChecks (priv_getSlideState s) })
      (Pc.updateChecks (priv_getSlideState s)) k2 q2 (priv_getSlideState s) elapsed]
    simp only [step, tick, threadStep]
  refine ⟨k2, q2, ?_⟩
  have hsplit : tick e1 :: ls1 ++ tick e2 :: ls2 ++ [tick elapsed]
      = [tick e1] ++ (ls1 ++ ([tick e2] ++ (ls2 ++ [tick elapsed]))) := by
    simp
  rw [hsplit, run_append]
  simp only [run, hs1, Option.some_bind]
  rw [run_append, hr1, Option.some_bind, run_append]
  simp only [run]
  rw [hs2]
  simp only [Option.some_bind]
  rw [run_append, hr2, Option.some_bind]
  simp only [run]
  rw [hs3]
  cases (update s t elapsed).map
    (fun r => { r.1 with m_controlSkip := k2, m_controlQuit := q2,
                         m_playThread := some r.2 }) <;> rfl

theorem Time.add_eq (left right : Time) (h : Time.representable (left + right)) :
    Time.add left right = left + right := by
  obtain ⟨h1, h2⟩ := h
  show (left + right + 9223372036854775808 : Int) % 18446744073709551616
      - 9223372036854775808 = (left + right : Int)
  have h3 : (left + right + 9223372036854775808 : Int) % 18446744073709551616
      = left + right + 9223372036854775808 :=
    Int.emod_eq_of_lt (by linarith) (by linarith)
  rw [h3]
  ring

/-- The update in one piece, for a slide with a timer whose sum of transition and duration
is a count `sf::Time` can hold. -/
theorem update_timer_checks (s : Splashentation) (t : TPlay) (slide : Slide)
    (elapsed : Time) (hshow : t.showCurrentSlide = true)
    (hmove : s.m_moveOnToNextSlide = false)
    (hslide : s.m_slides[t.currentSlide]? = some slide) (hduration : 0 < slide.duration)
    (hfits : Time.representable (slide.transition + slide.duration)) :
    ∃ s1, update s t elapsed = some (s1, { t with pc := Pc.controls }) ∧
      (s.m_slideState = SlideState.In →
        (s1.m_slideState = SlideState.Show ↔
          slide.transition = 0 ∨ slide.transition ≤ elapsed) ∧
        s1.m_moveOnToNextSlide = false ∧
        (s1 = s ∨ s1 = priv_setSlideState s SlideState.Show)) ∧
      (s.m_slideState = SlideState.Show →
        (s1.m_moveOnToNextSlide = true ↔ slide.transition + slide.duration ≤ elapsed) ∧
        (s1.m_moveOnToNextSlide = true → s1 = next s ∧ s1.m_slideState = SlideState.In) ∧
        (s1.m_moveOnToNextSlide = false → s1 = s)) := by
  have hcond : (t.showCurrentSlide && !s.m_moveOnToNextSlide) = true := by
    simp [hshow, hmove]
  rw [update_eq, if_pos hcond]
  unfold updateChecks
  simp only [hslide, priv_getSlideState, Time.add_eq _ _ hfits]
  cases hst : s.m_slideState with
  | In =>
    simp only [reduceCtorEq, false_implies, and_true, true_implies]
    by_cases hc : slide.transition = 0 ∨ slide.transition ≤ elapsed
    · have hb : (decide (slide.transition = 0) || decide (elapsed ≥ slide.transition))
          = true := by
        simpa using hc
      rw [if_pos hb]
      exact ⟨_, rfl, by simp [priv_setSlideState, hc], by simp [priv_setSlideState, hmove],
        Or.inr rfl⟩
    · have hb : ¬ (decide (slide.transition = 0) || decide (elapsed ≥ slide.transition))
          = true := by
        simpa using hc
      rw [if_neg hb]
      exact ⟨_, rfl, by simp [hst, hc], hmove, Or.inl rfl⟩
  | Show =>
    simp only [reduceCtorEq, false_implies, true_and, true_implies]
    by_cases hc : slide.transition + slide.duration ≤ elapsed
    · have hb : (decide (slide.duration > 0) &&
          decide (elapsed ≥ slide.transition + slide.duration)) = true := by
        simp [hduration, hc]
      rw [if_pos hb]
      exact ⟨_, rfl, by simp [next, priv_setSlideState, hc],
        fun _ => ⟨rfl, rfl⟩, fun h => by simp [next, priv_setSlideState] at h⟩
    · have hb : ¬ (decide (slide.duration > 0) &&
          decide (elapsed ≥ slide.transition + slide.duration)) = true := by
        simp [hc]
      rw [if_neg hb]
      exact ⟨_, rfl, by simp [hmove, hc], fun h => by simp [hmove] at h, fun _ => rfl⟩

theorem processKeys_skip (pre rest : List (Key × ControlAction)) (key : Key) (found : Bool) :
    ∀ s : Splashentation, (∀ c ∈ pre, c.1 ≠ key) →
      processKeys s (pre ++ rest) key found = processKeys s rest key found := by
  induction pre with
  | nil => intro s _; rfl
  | cons c pre ih =>
    intro s h
    have hc : c.1 ≠ key := h c (List.mem_cons_self _ _)
    have hrest : ∀ d ∈ pre, d.1 ≠ key := fun d hd => h d (List.mem_cons_of_mem _ hd)
    have hp : priv_processKey s c key found = (true, found, s) := by
      simp [priv_processKey, hc]
    simp only [List.cons_append, processKeys, hp, if_true]
    exact ih s hrest

theorem processMouseButtons_skip (pre rest : List (ControlAction × MouseButtons))
    (button : Button) (found : Bool) :
    ∀ s : Splashentation,
      (∀ c ∈ pre, c.2 &&& pressedMouseButtons button ≠ pressedMouseButtons button) →
      processMouseButtons s (pre ++ rest) button found
        = processMouseButtons s rest button found := by
  induction pre with
  | nil => intro s _; rfl
  | cons c pre ih =>
    intro s h
    have hc := h c (List.mem_cons_self _ _)
    have hrest : ∀ d ∈ pre, d.2 &&& pressedMouseButtons button ≠ pressedMouseButtons button :=
      fun d hd => h d (List.mem_cons_of_mem _ hd)
    have hp : priv_processMouseButton s c button found = (true, found, s) := by
      unfold priv_processMouseButton
      split
      · rfl
      · simp only [hc, if_false]
    simp only [List.cons_append, processMouseButtons, hp, if_true]
    exact ih s hrest

theorem processKeys_nil_of_no_match (controls : List (Key × ControlAction)) (key : Key)
    (found : Bool) (s : Splashentation) (h : ∀ c ∈ controls, c.1 ≠ key) :
    processKeys s controls key found = (none, found, s) := by
  have := processKeys_skip controls [] key found s h
  rw [List.append_nil] at this
  rw [this]
  rfl

theorem processMouseButtons_nil_of_no_match (controls : List (ControlAction × MouseButtons))
    (button : Button) (found : Bool) (s : Splashentation)
    (h : ∀ c ∈ controls, c.2 &&& pressedMouseButtons button ≠ pressedMouseButtons button) :
    processMouseButtons s controls button found = (none, found, s) := by
  have := processMouseButtons_skip controls [] button found s h
  rw [List.append_nil] at this
  rw [this]
  rfl

/-- A key press whose first matching per-slide binding is `Next`, on a fully shown slide. -/
theorem handleEvent_key_next_shown (s : Splashentation) (t : TPlay) (slide : Slide) (key : Key)
    (pre post : List (Key × ControlAction))
    (hslide : s.m_slides[t.currentSlide]? = some slide)
    (hkeys : slide.keys = pre ++ (key, ControlAction.Next) :: post)
    (hpre : ∀ c ∈ pre, c.1 ≠ key) (hshow : s.m_slideState = SlideState.Show) :
    handleEvent s t (Event.KeyPressed key) = some (next s, t) := by
  have h1 : processKeys s slide.keys key false = (none, true, next s) := by
    rw [hkeys, processKeys_skip pre _ key false s hpre]
    unfold processKeys
    simp only [priv_processKey, priv_getSlideState, hshow, Bool.false_or, ne_eq,
      not_true_eq_false, decide_False, Bool.false_eq_true, if_false, if_true]
    exact processKeys_found post key (next s)
  unfold handleEvent
  simp only [hslide, h1, processKeys_found]

theorem handleEvent_key_next_shown_global (s : Splashentation) (t : TPlay) (slide : Slide)
    (key : Key) (pre post : List (Key × ControlAction))
    (hslide : s.m_slides[t.currentSlide]? = some slide)
    (hnone : ∀ c ∈ slide.keys, c.1 ≠ key)
    (hkeys : s.m_globalKeys = pre ++ (key, ControlAction.Next) :: post)
    (hpre : ∀ c ∈ pre, c.1 ≠ key) (hshow : s.m_slideState = SlideState.Show) :
    handleEvent s t (Event.KeyPressed key) = some (next s, t) := by
  have h1 : processKeys s slide.keys key false = (none, false, s) :=
    processKeys_nil_of_no_match slide.keys key false s hnone
  have h2 : processKeys s s.m_globalKeys key false = (none, true, next s) := by
    rw [hkeys, processKeys_skip pre _ key false s hpre]
    unfold processKeys
    simp only [priv_processKey, priv_getSlideState, hshow, Bool.false_or, ne_eq,
      not_true_eq_false, decide_False, Bool.false_eq_true, if_false, if_true]
    exact processKeys_found post key (next s)
  unfold handleEvent
  simp only [hslide, h1, h2]

theorem handleEvent_key_next_fading (s : Splashentation) (t : TPlay) (slide : Slide) (key : Key)
    (pre post gpre gpost : List (Key × ControlAction))
    (hslide : s.m_slides[t.currentSlide]? = some slide)
    (hkeys : slide.keys = pre ++ (key, ControlAction.Next) :: post)
    (hpre : ∀ c ∈ pre, c.1 ≠ key) (hpost : ∀ c ∈ post, c.1 ≠ key)
    (hglobal : s.m_globalKeys = gpre ++ (key, ControlAction.Quit) :: gpost)
    (hgpre : ∀ c ∈ gpre, c.1 ≠ key) (hin : s.m_slideState = SlideState.In) :
    handleEvent s t (Event.KeyPressed key)
      = some ({ s with m_playState := PlayState.Quit },
          { t with pc := Pc.returned (Exit.key (key, ControlAction.Quit)) }) := by
  have h1 : processKeys s slide.keys key false = (none, false, s) := by
    rw [hkeys, processKeys_skip pre _ key false s hpre]
    unfold processKeys
    simp only [priv_processKey, priv_getSlideState, hin, Bool.false_or, ne_eq,
      not_true_eq_false, decide_False, Bool.false_eq_true, if_false, if_true, reduceCtorEq]
    exact processKeys_nil_of_no_match post key false s hpost
  have h2 : processKeys s s.m_globalKeys key false
      = (some (key, ControlAction.Quit), false, { s with m_playState := PlayState.Quit }) := by
    have h : processKeys s (gpre ++ (key, ControlAction.Quit) :: gpost) key false
        = (some (key, ControlAction.Quit), false,
            { s with m_playState := PlayState.Quit }) := by
      rw [processKeys_skip gpre _ key false s hgpre]
      simp only [processKeys, priv_processKey, Bool.false_or, ne_eq, not_true_eq_false,
        decide_False, Bool.false_eq_true, if_false]
    rw [← hglobal] at h
    exact h
  unfold handleEvent
  simp only [hslide, h1, h2]

theorem handleEvent_mouse_next_shown (s : Splashentation) (t : TPlay) (slide : Slide)
    (button : Button) (m : MouseButtons) (pre post : List (ControlAction × MouseButtons))
    (hmask : m &&& pressedMouseButtons button = pressedMouseButtons button)
    (hslide : s.m_slides[t.currentSlide]? = some slide)
    (hbuttons : slide.mouseButtons = pre ++ (ControlAction.Next, m) :: post)
    (hpre : ∀ c ∈ pre, c.2 &&& pressedMouseButtons button ≠ pressedMouseButtons button)
    (hshow : s.m_slideState = SlideState.Show) :
    handleEvent s t (Event.MouseButtonPressed button) = some (next s, t) := by
  have h1 : processMouseButtons s slide.mouseButtons button false = (none, true, next s) := by
    rw [hbuttons, processMouseButtons_skip pre _ button false s hpre]
    unfold processMouseButtons
    simp only [priv_processMouseButton, priv_getSlideState, hshow, hmask, Bool.false_eq_true,
      if_false, if_true]
    exact processMouseButtons_found post button (next s)
  unfold handleEvent
  simp only [hslide, h1, processMouseButtons_found]

theorem handleEvent_mouse_next_shown_global (s : Splashentation) (t : TPlay) (slide : Slide)
    (button : Button) (m : MouseButtons) (pre post : List (ControlAction × MouseButtons))
    (hmask : m &&& pressedMouseButtons button = pressedMouseButtons button)
    (hslide : s.m_slides[t.currentSlide]? = some slide)
    (hnone : ∀ c ∈ slide.mouseButtons,
      c.2 &&& pressedMouseButtons button ≠ pressedMouseButtons button)
    (hbuttons : s.m_globalMouseButtons = pre ++ (ControlAction.Next, m) :: post)
    (hpre : ∀ c ∈ pre, c.2 &&& pressedMouseButtons button ≠ pressedMouseButtons button)
    (hshow : s.m_slideState = SlideState.Show) :
    handleEvent s t (Event.MouseButtonPressed button) = some (next s, t) := by
  have h1 : processMouseButtons s slide.mouseButtons button false = (none, false, s) :=
    processMouseButtons_nil_of_no_match slide.mouseButtons button false s hnone
  have h2 : processMouseButtons s s.m_globalMouseButtons button false
      = (none, true, next s) := by
    rw [hbuttons, processMouseButtons_skip pre _ button false s hpre]
    unfold processMouseButtons
    simp only [priv_processMouseButton, priv_getSlideState, hshow, hmask, Bool.false_eq_true,
      if_false, if_true]
    exact processMouseButtons_found post button (next s)
  unfold handleEvent
  simp only [hslide, h1, h2]

theorem handleEvent_mouse_next_fading (s : Splashentation) (t : TPlay) (slide : Slide)
    (button : Button) (m mq : MouseButtons)
    (pre post gpre gpost : List (ControlAction × MouseButtons))
    (hmask : m &&& pressedMouseButtons button = pressedMouseButtons button)
    (hmq : mq &&& pressedMouseButtons button = pressedMouseButtons button)
    (hslide : s.m_slides[t.currentSlide]? = some slide)
    (hbuttons : slide.mouseButtons = pre ++ (ControlAction.Next, m) :: post)
    (hpre : ∀ c ∈ pre, c.2 &&& pressedMouseButtons button ≠ pressedMouseButtons button)
    (hpost : ∀ c ∈ post, c.2 &&& pressedMouseButtons button ≠ pressedMouseButtons button)
    (hglobal : s.m_globalMouseButtons = gpre ++ (ControlAction.Quit, mq) :: gpost)
    (hgpre : ∀ c ∈ gpre, c.2 &&& pressedMouseButtons button ≠ pressedMouseButtons button)
    (hin : s.m_slideState = SlideState.In) :
    handleEvent s t (Event.MouseButtonPressed button)
      = some ({ s with m_playState := PlayState.Quit },
          { t with pc := Pc.returned (Exit.mouseButton (ControlAction.Quit, mq)) }) := by
  have h1 : processMouseButtons s slide.mouseButtons button false = (none, false, s) := by
    rw [hbuttons, processMouseButtons_skip pre _ button false s hpre]
    unfold processMouseButtons
    simp only [priv_processMouseButton, priv_getSlideState, hin, hmask, Bool.false_eq_true,
      if_false, if_true, reduceCtorEq]
    exact processMouseButtons_nil_of_no_match post button false s hpost
  have h2 : processMouseButtons s s.m_globalMouseButtons button false
      = (some (ControlAction.Quit, mq), false, { s with m_playState := PlayState.Quit }) := by
    have h : processMouseButtons s (gpre ++ (ControlAction.Quit, mq) :: gpost) button false
        = (some (ControlAction.Quit, mq), false,
            { s with m_playState := PlayState.Quit }) := by
      rw [processMouseButtons_skip gpre _ button false s hgpre]
      simp only [processMouseButtons, priv_processMouseButton, hmq, Bool.false_eq_true,
        if_false, if_true]
    rw [← hglobal] at h
    exact h
  unfold handleEvent
  simp only [hslide, h1, h2]

theorem priv_processKey_fading (s : Splashentation) (control : Key × ControlAction) (key : Key)
    (found : Bool) (hin : s.m_slideState = SlideState.In) :
    (priv_processKey s control key found).2.2.m_moveOnToNextSlide = s.m_moveOnToNextSlide ∧
    (priv_processKey s control key found).2.2.m_slideState = SlideState.In := by
  unfold priv_processKey
  split
  · exact ⟨rfl, hin⟩
  · split
    · exact ⟨rfl, hin⟩
    · exact ⟨rfl, hin⟩
    · simp only [priv_getSlideState, hin, reduceCtorEq, if_false]
      exact ⟨trivial, trivial⟩
    · exact ⟨rfl, hin⟩

theorem priv_processMouseButton_fading (s : Splashentation)
    (control : ControlAction × MouseButtons) (button : Button) (found : Bool)
    (hin : s.m_slideState = SlideState.In) :
    (priv_processMouseButton s control button found).2.2.m_moveOnToNextSlide
        = s.m_moveOnToNextSlide ∧
    (priv_processMouseButton s control button found).2.2.m_slideState = SlideState.In := by
  unfold priv_processMouseButton
  split
  · exact ⟨rfl, hin⟩
  · simp only
    split
    · split
      · exact ⟨rfl, hin⟩
      · exact ⟨rfl, hin⟩
      · simp only [priv_getSlideState, hin, reduceCtorEq, if_false]
        exact ⟨trivial, trivial⟩
      · exact ⟨rfl, hin⟩
    · exact ⟨rfl, hin⟩

theorem processKeys_fading (controls : List (Key × ControlAction)) (key : Key) :
    ∀ (s : Splashentation) (found : Bool), s.m_slideState = SlideState.In →
      (processKeys s controls key found).2.2.m_moveOnToNextSlide = s.m_moveOnToNextSlide ∧
      (processKeys s controls key found).2.2.m_slideState = SlideState.In := by
  induction controls with
  | nil => intro s found hin; exact ⟨rfl, hin⟩
  | cons c rest ih =>
    intro s found hin
    obtain ⟨h1, h2⟩ := priv_processKey_fading s c key found hin
    unfold processKeys
    simp only
    split
    · obtain ⟨g1, g2⟩ := ih _ (priv_processKey s c key found).2.1 h2
      exact ⟨g1.trans h1, g2⟩
    · exact ⟨h1, h2⟩

theorem processMouseButtons_fading (controls : List (ControlAction × MouseButtons))
    (button : Button) :
    ∀ (s : Splashentation) (found : Bool), s.m_slideState = SlideState.In →
      (processMouseButtons s controls button found).2.2.m_moveOnToNextSlide
          = s.m_moveOnToNextSlide ∧
      (processMouseButtons s controls button found).2.2.m_slideState = SlideState.In := by
  induction controls with
  | nil => intro s found hin; exact ⟨rfl, hin⟩
  | cons c rest ih =>
    intro s found hin
    obtain ⟨h1, h2⟩ := priv_processMouseButton_fading s c button found hin
    unfold processMouseButtons
    simp only
    split
    · obtain ⟨g1, g2⟩ := ih _ (priv_processMouseButton s c button found).2.1 h2
      exact ⟨g1.trans h1, g2⟩
    · exact ⟨h1, h2⟩

/-- While the slide fades in, no event sets the pending-advance flag or touches the fade
state, whatever the tables hold. -/
theorem handleEvent_fading (s s1 : Splashentation) (t t1 : TPlay) (event : Event)
    (hin : s.m_slideState = SlideState.In) (h : handleEvent s t event = some (s1, t1)) :
    s1.m_moveOnToNextSlide = s.m_moveOnToNextSlide ∧ s1.m_slideState = SlideState.In := by
  unfold handleEvent at h
  cases event with
  | Closed =>
    simp only [Option.some.injEq, Prod.mk.injEq] at h
    obtain ⟨rfl, -⟩ := h
    exact ⟨rfl, hin⟩
  | Other =>
    simp only [Option.some.injEq, Prod.mk.injEq] at h
    obtain ⟨rfl, -⟩ := h
    exact ⟨rfl, hin⟩
  | MouseButtonPressed button =>
    simp only at h
    cases hsl : s.m_slides[t.currentSlide]? with
    | none => simp [hsl] at h
    | some slide =>
      simp only [hsl] at h
      obtain ⟨a1, a2⟩ := processMouseButtons_fading slide.mouseButtons button s false hin
      generalize processMouseButtons s slide.mouseButtons button false = r1 at h a1 a2
      obtain ⟨o1, f1, u1⟩ := r1
      cases o1 with
      | some control =>
        simp only [Option.some.injEq, Prod.mk.injEq] at h
        obtain ⟨rfl, -⟩ := h
        exact ⟨a1, a2⟩
      | none =>
        simp only at h
        obtain ⟨b1, b2⟩ := processMouseButtons_fading u1.m_globalMouseButtons button u1 f1 a2
        generalize processMouseButtons u1 u1.m_globalMouseButtons button f1 = r2 at h b1 b2
        obtain ⟨o2, f2, u2⟩ := r2
        cases o2 <;>
          (simp only [Option.some.injEq, Prod.mk.injEq] at h
           obtain ⟨rfl, -⟩ := h
           exact ⟨b1.trans a1, b2⟩)
  | KeyPressed code =>
    simp only at h
    cases hsl : s.m_slides[t.currentSlide]? with
    | none => simp [hsl] at h
    | some slide =>
      simp only [hsl] at h
      obtain ⟨a1, a2⟩ := processKeys_fading slide.keys code s false hin
      generalize processKeys s slide.keys code false = r1 at h a1 a2
      obtain ⟨o1, f1, u1⟩ := r1
      cases o1 with
      | some control =>
        simp only [Option.some.injEq, Prod.mk.injEq] at h
        obtain ⟨rfl, -⟩ := h
        exact ⟨a1, a2⟩
      | none =>
        simp only at h
        obtain ⟨b1, b2⟩ := processKeys_fading u1.m_globalKeys code u1 f1 a2
        generalize processKeys u1 u1.m_globalKeys code f1 = r2 at h b1 b2
        obtain ⟨o2, f2, u2⟩ := r2
        cases o2 <;>
          (simp only [Option.some.injEq, Prod.mk.injEq] at h
           obtain ⟨rfl, -⟩ := h
           exact ⟨b1.trans a1, b2⟩)

/-- The opacity of the render sprite in the frame of an iteration: the alpha of lines 188 to
192 for the fade state, the clock reading and the transition of the current slide. -/
theorem frame_opacity (fl : FloatModel) (s : Splashentation) (t : TPlay) (slideTime : Time)
    (slide : Slide) (hslide : s.m_slides[t.currentSlide]? = some slide)
    (hp : t.previousSlide ≠ s.m_slides.length → t.previousSlide < s.m_slides.length) :
    ∃ f, frame fl s t slideTime = some f ∧
      f.opacity = (alpha fl s.m_slideState slideTime slide.transition).map (opacity fl) := by
  have hc : t.currentSlide < s.m_slides.length := by
    rcases Nat.lt_or_ge t.currentSlide s.m_slides.length with h | h
    · exact h
    · rw [List.getElem?_eq_none h] at hslide
      cases hslide
  obtain ⟨m, cs, ps, hm⟩ := loopHead_spec s t hc hp
  unfold frame
  simp only [hm, if_true]
  refine ⟨_, rfl, ?_⟩
  simp only [hslide, priv_getSlideState]
  rfl

/-- The play state at the return sites of `t_play`: when a step of the playback thread
leaves the loop (the thread was inside the loop and is at a return site `x` afterwards), then
whatever happens later the play state is `Finished` or `Quit`. It is `Quit` exactly at the
return sites of a `Closed` event, of a key or mouse control whose action is `Quit`, and of the
quit flag, and `Finished` exactly at the others. `ExitCause` ties each return site to what the
code tested; for a mouse control this is the mask test of `priv_processMouseButton`, which a
press of an extra button passes for every mask. -/
theorem loop_exit_play_state (s s1 s2 : Splashentation) (t t1 : TPlay) (env : Env) (x : Exit)
    (ls : List Label) (ht : s.m_playThread = some t) (hrun : t.running = true)
    (hstep : threadStep s env = some s1) (ht1 : s1.m_playThread = some t1)
    (hx : t1.pc = Pc.returned x) (hls : run s1 ls = some s2) :
    ExitCause s t env x ∧
    (s2.m_playState = PlayState.Finished ∨ s2.m_playState = PlayState.Quit) ∧
    (s2.m_playState = PlayState.Quit ↔
      x = Exit.closed ∨ (∃ k, x = Exit.key (k, ControlAction.Quit)) ∨
      (∃ m, x = Exit.mouseButton (ControlAction.Quit, m)) ∨ x = Exit.controlQuit) ∧
    (s2.m_playState = PlayState.Finished ↔
      x = Exit.complete ∨ (∃ k, x = Exit.key (k, ControlAction.Skip)) ∨
      (∃ m, x = Exit.mouseButton (ControlAction.Skip, m)) ∨ x = Exit.controlSkip) := by
  obtain ⟨hcause, hstate⟩ := threadStep_exit s s1 t t1 env x ht ((TPlay.running_iff t).1 hrun) hstep ht1 hx
  obtain ⟨s3, h3, hp, -⟩ := returned_stable ls s1 t1 x ht1 hx
  rw [hls] at h3
  simp only [Option.some.injEq] at h3
  subst h3
  rw [hp]
  exact ⟨hcause, ExitState.cases x s1.m_playState hstate⟩

end Lemmas

/-! ### C1: `play` while playing -/

/-- C1: for every presentation whose play state is `Playing`, `play` returns the object as it
was: the slide index, the pending-advance flag, the fade state, the play state, the slide list
and the thread object are unchanged, so that no second playback is started. -/
theorem play_while_playing_is_noop (s : Splashentation)
    (h : s.m_playState = PlayState.Playing) :
    play s = some s := by
  simp [play, isPlaying, getPlayState, h]

/-- C1 at the concrete presentation `demoPlaying`. -/
theorem play_while_playing_is_noop_witness :
    demoPlaying.m_playState = PlayState.Playing ∧ play demoPlaying = some demoPlaying :=
  ⟨rfl, play_while_playing_is_noop demoPlaying rfl⟩

/-! ### C2: the slide index during playback -/

/-- C2: after a `play` that starts playback (not playing before, at least one slide, fewer
than `2 ^ 32` slides), every sequence of steps of the playback thread, with any events and clock
readings, and of calls of `next`, `skip` and `quit` is defined and leads to a state in which
`getCurrentSlideIndex` is less than the number of slides; and unless the loop has completed, it
is the offset of the iterator `currentSlide`, the slide being shown. -/
theorem slide_index_in_bounds (s s0 : Splashentation) (ls : List Label)
    (hplaying : isPlaying s = false) (hslides : s.m_slides.length ≠ 0)
    (hsize : s.m_slides.length < 4294967296) (hplay : play s = some s0) :
    ∃ s1 t, run s0 ls = some s1 ∧ s1.m_playThread = some t ∧ s1.m_slides = s.m_slides ∧
      getCurrentSlideIndex s1 < s1.m_slides.length ∧
      (t.pc ≠ Pc.returned Exit.complete → getCurrentSlideIndex s1 = t.currentSlide) := by
  obtain ⟨hinv, hsl⟩ := playbackInv_play s s0 hplaying hslides hsize hplay
  obtain ⟨s1, hrun, ⟨t, ht, -, hidx, hcur⟩, hsl1⟩ := playbackInv_run ls s0 hinv
  exact ⟨s1, t, hrun, ht, hsl1.trans hsl, hidx, fun hpc => (hcur hpc).1⟩

/-- C2 at the presentation `demoReady`, for a run that advances to the second slide. -/
theorem slide_index_in_bounds_witness :
    isPlaying demoReady = false ∧ demoReady.m_slides.length ≠ 0 ∧
    demoReady.m_slides.length < 4294967296 ∧ play demoReady = some demoPlaying ∧
    ∃ s1 t, run demoPlaying [tick 0, tick 0, Label.next, tick 0, tick 0, Label.quit] = some s1 ∧
      s1.m_playThread = some t ∧ s1.m_slides = demoReady.m_slides ∧
      getCurrentSlideIndex s1 < s1.m_slides.length ∧
      (t.pc ≠ Pc.returned Exit.complete → getCurrentSlideIndex s1 = t.currentSlide) :=
  ⟨rfl, by decide, by decide, rfl,
    slide_index_in_bounds demoReady demoPlaying
      [tick 0, tick 0, Label.next, tick 0, tick 0, Label.quit] rfl (by decide) (by decide) rfl⟩

/-! ### C3: the shared dictionaries and the instance that plays -/

/-- C3, as the code has it: the operations on the shared dictionaries are refused by the
instance they are called on while that instance is playing; whatever another instance does is
not consulted. For every instance `b` in state `Playing`, `addFont`, `loadFont`, `removeFont`,
`addTexture`, `loadTexture`, `removeTexture` and `clearAllResources` called on `b` leave both
dictionaries unchanged. -/
theorem resources_unchanged_while_own_instance_plays (d : Decoder) (b : Splashentation)
    (r : Resources) (name filename : String) (font : Font) (texture : Texture)
    (h : b.m_playState = PlayState.Playing) :
    addFont b r name font = r ∧ (loadFont d b r name filename).2 = r ∧
    removeFont b r name = r ∧ addTexture b r name texture = r ∧
    (loadTexture d b r name filename).2 = r ∧ removeTexture b r name = r ∧
    clearAllResources b r = r := by
  have hp := isPlaying_eq_true b h
  simp [addFont, loadFont, removeFont, addTexture, loadTexture, removeTexture,
    clearAllResources, hp]

/-- C3 as amended, at the instance `demoPlaying`. -/
theorem resources_unchanged_while_own_instance_plays_witness :
    demoPlaying.m_playState = PlayState.Playing ∧
    addFont demoPlaying demoResources "arial" { handle := 9 } = demoResources ∧
    (loadFont demoDecoder demoPlaying demoResources "arial" "arial.ttf").2 = demoResources ∧
    removeFont demoPlaying demoResources "arial" = demoResources ∧
    addTexture demoPlaying demoResources "arial" { handle := 9 } = demoResources ∧
    (loadTexture demoDecoder demoPlaying demoResources "arial" "arial.ttf").2 = demoResources ∧
    removeTexture demoPlaying demoResources "arial" = demoResources ∧
    clearAllResources demoPlaying demoResources = demoResources :=
  ⟨rfl, resources_unchanged_while_own_instance_plays demoDecoder demoPlaying demoResources
    "arial" "arial.ttf" { handle := 9 } { handle := 9 } rfl⟩

/-- C3 as stated fails: with the instance `demoPlaying` in state `Playing` and a second
instance `demoReady` (state `Ready`) on the same dictionaries, each of the seven operations
called on `demoReady` changes a dictionary. -/
theorem resources_changed_while_other_instance_plays :
    demoPlaying.m_playState = PlayState.Playing ∧
    addFont demoReady demoResources "title" { handle := 9 } ≠ demoResources ∧
    (loadFont demoDecoder demoReady demoResources "title" "title.ttf").2 ≠ demoResources ∧
    removeFont demoReady demoResources "arial" ≠ demoResources ∧
    addTexture demoReady demoResources "logo" { handle := 9 } ≠ demoResources ∧
    (loadTexture demoDecoder demoReady demoResources "logo" "logo.png").2 ≠ demoResources ∧
    removeTexture demoReady demoResources "sun photo" ≠ demoResources ∧
    clearAllResources demoReady demoResources ≠ demoResources := by
  decide

/-! ### C4: the play state and the mutating operations -/

/-- C4: while the play state is `Playing`, `addSlide`, `clearSlides`,
`addGlobalControlAction`, `removeGlobalControlAction`, `setGlobalMouseButtons`,
`addSlideControlAction`, `removeSlideControlAction` and `setSlideMouseButtons` return the
object unchanged. In every other play state (`Ready`, `Finished`, `Quit`) they take effect:
`addSlide` appends its argument to the slide list, `clearSlides` empties it, a key without a
binding is bound to the action, a removed key reads back as `None`, a mouse-button mask reads
back as set; for the per-slide tables on an existing slide alike. -/
theorem mutators_gated_by_play_state (s : Splashentation) (slide : Slide)
    (controlAction : ControlAction) (key : Key) (mouseButtons : MouseButtons)
    (slideIndex : Nat) :
    (s.m_playState = PlayState.Playing →
      addSlide s slide = s ∧ clearSlides s = s ∧
      addGlobalControlAction s controlAction key = s ∧
      removeGlobalControlAction s key = s ∧
      setGlobalMouseButtons s controlAction mouseButtons = s ∧
      addSlideControlAction s slideIndex controlAction key = some s ∧
      removeSlideControlAction s slideIndex key = some s ∧
      setSlideMouseButtons s slideIndex controlAction mouseButtons = some s) ∧
    (s.m_playState ≠ PlayState.Playing →
      (addSlide s slide).m_slides = s.m_slides ++ [slide] ∧
      (clearSlides s).m_slides = [] ∧
      (s.m_globalKeys.count key = 0 →
        getGlobalControlAction (addGlobalControlAction s controlAction key) key
          = controlAction) ∧
      getGlobalControlAction (removeGlobalControlAction s key) key = ControlAction.None ∧
      getGlobalMouseButtons (setGlobalMouseButtons s controlAction mouseButtons) controlAction
        = mouseButtons ∧
      ∀ sl, s.m_slides[slideIndex]? = some sl →
        (sl.keys.count key = 0 →
          (addSlideControlAction s slideIndex controlAction key).bind
            (fun s1 => getSlideControlAction s1 slideIndex key) = some controlAction) ∧
        (removeSlideControlAction s slideIndex key).bind
          (fun s1 => getSlideControlAction s1 slideIndex key) = some ControlAction.None ∧
        (setSlideMouseButtons s slideIndex controlAction mouseButtons).bind
          (fun s1 => getSlideMouseButtons s1 slideIndex controlAction) = some mouseButtons) := by
  constructor
  · intro h
    have hp := isPlaying_eq_true s h
    simp [addSlide, clearSlides, addGlobalControlAction, removeGlobalControlAction,
      setGlobalMouseButtons, addSlideControlAction, removeSlideControlAction,
      setSlideMouseButtons, hp]
  · intro h
    have hp := isPlaying_eq_false s h
    have hq : ∀ s1 : Splashentation, s1.m_playState = s.m_playState → isPlaying s1 = false :=
      fun s1 h1 => isPlaying_eq_false s1 (h1 ▸ h)
    refine ⟨?_, ?_, ?_, ?_, ?_, ?_⟩
    · simp [addSlide, hp, Slide.copy_eq]
    · simp [clearSlides, hp]
    · intro hc
      simp only [addGlobalControlAction, hp, hc, Bool.false_eq_true, if_false, if_true,
        getGlobalControlAction, hq, UnorderedMap.find_assign_self]
    · simp only [removeGlobalControlAction, hp, Bool.false_eq_true, if_false,
        getGlobalControlAction, hq, UnorderedMap.find_erase_self]
    · simp only [setGlobalMouseButtons, hp, Bool.false_eq_true, if_false,
        getGlobalMouseButtons, hq, UnorderedMap.find_assign_self]
    · intro sl hsl
      have hlt : slideIndex < s.m_slides.length := by
        rcases Nat.lt_or_ge slideIndex s.m_slides.length with h1 | h1
        · exact h1
        · rw [List.getElem?_eq_none h1] at hsl
          cases hsl
      refine ⟨?_, ?_, ?_⟩
      · intro hc
        simp only [addSlideControlAction, hp, hsl, hc, Bool.false_eq_true, if_false, if_true,
          Option.some_bind, getSlideControlAction, hq, List.getElem?_set_self hlt,
          UnorderedMap.find_assign_self]
      · simp only [removeSlideControlAction, hp, hsl, Bool.false_eq_true, if_false,
          Option.some_bind, getSlideControlAction, hq, List.getElem?_set_self hlt,
          UnorderedMap.find_erase_self]
      · simp only [setSlideMouseButtons, hp, hsl, Bool.false_eq_true, if_false,
          Option.some_bind, getSlideMouseButtons, hq, List.getElem?_set_self hlt,
          UnorderedMap.find_assign_self]

/-- C4 at the playing instance `demoPlaying` and at the instance `demoReady`. -/
theorem mutators_gated_by_play_state_witness :
    (demoPlaying.m_playState = PlayState.Playing ∧
      addSlide demoPlaying demoSlide3 = demoPlaying ∧ clearSlides demoPlaying = demoPlaying) ∧
    (demoReady.m_playState ≠ PlayState.Playing ∧
      (addSlide demoReady demoSlide3).m_slides = demoReady.m_slides ++ [demoSlide3] ∧
      (clearSlides demoReady).m_slides = []) :=
  ⟨⟨rfl,
      ((mutators_gated_by_play_state demoPlaying demoSlide3 ControlAction.Next 57 1 0).1 rfl).1,
      ((mutators_gated_by_play_state demoPlaying demoSlide3 ControlAction.Next 57 1 0).1
        rfl).2.1⟩,
    ⟨by decide,
      ((mutators_gated_by_play_state demoReady demoSlide3 ControlAction.Next 57 1 0).2
        (by decide)).1,
      ((mutators_gated_by_play_state demoReady demoSlide3 ControlAction.Next 57 1 0).2
        (by decide)).2.1⟩⟩

/-! ### C5: the play state when the loop ends -/

/-- C5 fails on the code through the mask test of `priv_processMouseButton`. The presentation
binds `Quit` to the left mouse button only (and, in a second playback, to no button at all).
After the first frame a press of the first extra button `XButton1`, which is not the left
button and for which the mask built is `None`, makes `t_play` return from the loop over the
global table with play state `Quit`: no window was closed, no key was pressed, the press is
not bound to `Quit`, and the quit flag is not set. A press of the right button, which is not
bound to `Quit` either, leaves the playback running, as the claim says. -/
theorem unbound_mouse_press_ends_in_quit :
    getGlobalMouseButtons (setGlobalMouseButtons demoReady ControlAction.Quit MouseButtons.Left)
        ControlAction.Quit = MouseButtons.Left ∧
    pressedMouseButtons Button.XButton1 = MouseButtons.None ∧
    ((play (setGlobalMouseButtons demoReady ControlAction.Quit MouseButtons.Left)).bind
        (fun p => run p [tick 0, deliver (Event.MouseButtonPressed Button.XButton1)])).map
        exitView
      = some (PlayState.Quit, false, false,
          some (Pc.returned (Exit.mouseButton (ControlAction.Quit, MouseButtons.Left)))) ∧
    ((play (setGlobalMouseButtons demoReady ControlAction.Quit MouseButtons.Left)).bind
        (fun p => run p [tick 0, deliver (Event.MouseButtonPressed Button.Right)])).map
        exitView
      = some (PlayState.Playing, false, false, some Pc.pollEvents) ∧
    ((play (setGlobalMouseButtons demoReady ControlAction.Quit MouseButtons.None)).bind
        (fun p => run p [tick 0, deliver (Event.MouseButtonPressed Button.XButton1)])).map
        exitView
      = some (PlayState.Quit, false, false,
          some (Pc.returned (Exit.mouseButton (ControlAction.Quit, MouseButtons.None)))) :=
  ⟨by decide, by decide, by decide, by decide, by decide⟩

/-! ### C6: the flags of `skip` and `quit` -/

/-- C6: `skip` sets `m_controlSkip` and `quit` sets `m_controlQuit`, and a flag that is set
stays set through every later step. So in every state `s1` reached from a state `s` in which
the thread is at its external-controls check: if the skip flag was set in `s`, the step ends
playback with play state `Finished`; if the quit flag was set in `s` and the skip flag is not
set in `s1`, it ends playback with play state `Quit`. In both cases the slide index, the
iterator `currentSlide` and a pending advance are left as they were. With both flags set the
first case applies: the result is `Finished`. -/
theorem skip_quit_observed (s s1 : Splashentation) (ls : List Label) (t : TPlay) (env : Env)
    (hrun : run s ls = some s1) (ht : s1.m_playThread = some t) (hpc : t.pc = Pc.controls) :
    (skip s).m_controlSkip = true ∧ (quit s).m_controlQuit = true ∧
    (s.m_controlSkip = true →
      ∃ s2, threadStep s1 env = some s2 ∧ s2.m_playState = PlayState.Finished ∧
        getCurrentSlideIndex s2 = getCurrentSlideIndex s1 ∧
        s2.m_moveOnToNextSlide = s1.m_moveOnToNextSlide ∧
        s2.m_playThread = some { t with pc := Pc.returned Exit.controlSkip }) ∧
    (s.m_controlQuit = true → s1.m_controlSkip = false →
      ∃ s2, threadStep s1 env = some s2 ∧ s2.m_playState = PlayState.Quit ∧
        getCurrentSlideIndex s2 = getCurrentSlideIndex s1 ∧
        s2.m_moveOnToNextSlide = s1.m_moveOnToNextSlide ∧
        s2.m_playThread = some { t with pc := Pc.returned Exit.controlQuit }) := by
  obtain ⟨-, hskip, hquit⟩ := run_flags ls s s1 hrun
  refine ⟨rfl, rfl, fun h => ?_, fun h h0 => ?_⟩
  · have h1 := hskip h
    simp only [threadStep, ht, hpc, controls, h1, if_true, Option.map_some']
    exact ⟨_, rfl, rfl, rfl, rfl, rfl⟩
  · have h1 := hquit h
    simp only [threadStep, ht, hpc, controls, h0, h1, if_true, Bool.false_eq_true, if_false,
      Option.map_some']
    exact ⟨_, rfl, rfl, rfl, rfl, rfl⟩

/-- C6 at `demoPlaying`: `skip` is called before the first iteration, which then ends
playback at its external-controls check. -/
theorem skip_quit_observed_witness :
    run (skip demoPlaying) [tick 0, tick 0, tick 0, tick 0, tick 0] = some demoSkipAtControls ∧
    demoSkipAtControls.m_playThread
      = some { TPlay.start demoReady with showCurrentSlide := true, pc := Pc.controls } ∧
    (skip demoPlaying).m_controlSkip = true ∧
    ∃ s2, threadStep demoSkipAtControls { event := none, elapsed := 0 } = some s2 ∧
      s2.m_playState = PlayState.Finished ∧
      getCurrentSlideIndex s2 = getCurrentSlideIndex demoSkipAtControls ∧
      s2.m_moveOnToNextSlide = demoSkipAtControls.m_moveOnToNextSlide ∧
      s2.m_playThread = some { TPlay.start demoReady with
        showCurrentSlide := true, pc := Pc.returned Exit.controlSkip } :=
  ⟨rfl, rfl, rfl,
    (skip_quit_observed (skip demoPlaying) demoSkipAtControls
      [tick 0, tick 0, tick 0, tick 0, tick 0]
      { TPlay.start demoReady with showCurrentSlide := true, pc := Pc.controls }
      { event := none, elapsed := 0 } rfl rfl rfl).2.2.1 rfl⟩

/-! ### C7: the drawables of a frame -/

/-- C8: for every transition time `t > 0` and every elapsed slide time `e`, the alpha of a
slide that is fading in is the quotient of the two times in seconds clamped to `[0, 1]`, which
in exact arithmetic is `e / t` clamped to `[0, 1]`; it is `1` whenever `e ≥ t` and it is
non-decreasing in `e`. The alpha of a slide in the `Show` state is `1`. In either state the
opacity derived from it is the integer part of `255 * alpha` and lies in `0..255`. All of it
holds for every rounding of the `float` arithmetic that `FloatModel` admits.

The loop composites the current slide with this alpha: whenever the iterators of the thread
are valid and the current slide has the transition `t`, the frame drawn with the clock at `e`
sets the opacity of the render sprite to the opacity derived from the alpha for the fade state
of the object, `e` and `t`, a value in `0..255`. And in every iteration of every playback the
frame is drawn with the opacity derived from the alpha for the fade state, the clock reading
and the transition of the slide at `currentSlide`. -/
theorem alpha_is_clamped_ratio (fl : FloatModel) (e t : Time) (ht : 0 < t) :
    alpha fl SlideState.In e t
      = some (max 0 (min 1 (fl.round (asSeconds fl e / asSeconds fl t)))) ∧
    alpha FloatModel.exact SlideState.In e t = some (max 0 (min 1 ((e : ℚ) / (t : ℚ)))) ∧
    (t ≤ e → alpha fl SlideState.In e t = some 1) ∧
    (∀ e2 a a2, e ≤ e2 → alpha fl SlideState.In e t = some a →
      alpha fl SlideState.In e2 t = some a2 → a ≤ a2) ∧
    alpha fl SlideState.Show e t = some 1 ∧
    (∀ slideState, ∃ a, alpha fl slideState e t = some a ∧ 0 ≤ a ∧ a ≤ 1 ∧
      opacity fl a = ⌊fl.round (255 * a)⌋ ∧ 0 ≤ opacity fl a ∧ opacity fl a ≤ 255) ∧
    (∀ (s : Splashentation) (th : TPlay) (slide : Slide),
      s.m_slides[th.currentSlide]? = some slide → slide.transition = t →
      (th.previousSlide ≠ s.m_slides.length → th.previousSlide < s.m_slides.length) →
      ∃ f a, frame fl s th e = some f ∧ alpha fl s.m_slideState e t = some a ∧
        f.opacity = some (opacity fl a) ∧ 0 ≤ opacity fl a ∧ opacity fl a ≤ 255) ∧
    (∀ (p p0 p1 : Splashentation) (ls : List Label) (t1 : TPlay),
      isPlaying p = false → p.m_slides.length ≠ 0 → p.m_slides.length < 4294967296 →
      play p = some p0 → run p0 ls = some p1 → p1.m_playThread = some t1 →
      t1.pc = Pc.loopHead →
      ∃ slide f, p1.m_slides[t1.currentSlide]? = some slide ∧ frame fl p1 t1 e = some f ∧
        f.opacity = (alpha fl p1.m_slideState e slide.transition).map (opacity fl)) := by
  have htq : 0 < asSeconds fl t := asSeconds_pos fl t ht
  have hshow : alpha fl SlideState.Show e t = some 1 := by
    simp [alpha]
  have hbound : ∀ x : ℚ, 0 ≤ max 0 (min 1 x) ∧ max 0 (min 1 x) ≤ 1 := fun x =>
    ⟨le_max_left _ _, max_le (by norm_num) (min_le_left _ _)⟩
  have hall : ∀ slideState, ∃ a, alpha fl slideState e t = some a ∧ 0 ≤ a ∧ a ≤ 1 ∧
      opacity fl a = ⌊fl.round (255 * a)⌋ ∧ 0 ≤ opacity fl a ∧ opacity fl a ≤ 255 := by
    intro st
    cases st with
    | In =>
      exact ⟨_, alpha_in fl e t ht, (hbound _).1, (hbound _).2,
        opacity_range fl _ (hbound _).1 (hbound _).2⟩
    | Show =>
      exact ⟨1, hshow, by norm_num, le_rfl, opacity_range fl 1 (by norm_num) le_rfl⟩
  refine ⟨alpha_in fl e t ht, ?_, fun hle => ?_, fun e2 a a2 hle ha ha2 => ?_, hshow,
    hall, fun s th slide hslide htr hp => ?_,
    fun p p0 p1 ls t1 hplaying hslides hsize hplay hrun ht1 hpc => ?_⟩
  · rw [alpha_in FloatModel.exact e t ht, asSeconds_exact_div]
  · rw [alpha_in fl e t ht]
    have h1 : (1 : ℚ) ≤ fl.round (asSeconds fl e / asSeconds fl t) := by
      rw [← fl.round_one]
      apply fl.round_mono
      rw [le_div_iff₀ htq, one_mul]
      exact asSeconds_mono fl t e hle
    rw [min_eq_left h1, max_eq_right (by norm_num)]
  · rw [alpha_in fl e t ht, Option.some.injEq] at ha
    rw [alpha_in fl e2 t ht, Option.some.injEq] at ha2
    subst ha ha2
    have h1 : fl.round (asSeconds fl e / asSeconds fl t)
        ≤ fl.round (asSeconds fl e2 / asSeconds fl t) :=
      fl.round_mono _ _ (div_le_div_of_nonneg_right (asSeconds_mono fl e e2 hle) (le_of_lt htq))
    exact max_le_max le_rfl (min_le_min le_rfl h1)
  · obtain ⟨f, hf, hop⟩ := frame_opacity fl s th e slide hslide hp
    obtain ⟨a, ha, -, -, -, h0, h255⟩ := hall s.m_slideState
    refine ⟨f, a, hf, ha, ?_, h0, h255⟩
    rw [hop, htr, ha]
    rfl
  · obtain ⟨hinv, -⟩ := playbackInv_play p p0 hplaying hslides hsize hplay
    obtain ⟨q, hq, ⟨t2, ht2, -, hidx, hcur⟩, -⟩ := playbackInv_run ls p0 hinv
    rw [hrun, Option.some.injEq] at hq
    subst hq
    rw [ht1, Option.some.injEq] at ht2
    subst ht2
    obtain ⟨hi, hprev⟩ := hcur (by simp [hpc])
    have hc : t1.currentSlide < p1.m_slides.length := hi ▸ hidx
    obtain ⟨f, hf, hop⟩ := frame_opacity fl p1 t1 e p1.m_slides[t1.currentSlide]
      (List.getElem?_eq_getElem hc) (by omega)
    exact ⟨_, f, List.getElem?_eq_getElem hc, hf, hop⟩

/-- C8 in exact arithmetic, for a slide half-way through a transition of two seconds, and in
the first frame of `demoPlaying` one second after its start. -/
theorem alpha_is_clamped_ratio_witness :
    (0 : Time) < 2000000 ∧
    alpha FloatModel.exact SlideState.In 1000000 2000000
      = some (max 0 (min 1 (((1000000 : Time) : ℚ) / ((2000000 : Time) : ℚ)))) ∧
    demoPlaying.m_slides[(TPlay.start demoReady).currentSlide]? = some demoSlide1 ∧
    demoSlide1.transition = 2000000 ∧
    ∃ f a, frame FloatModel.exact demoPlaying (TPlay.start demoReady) 1000000 = some f ∧
      alpha FloatModel.exact demoPlaying.m_slideState 1000000 2000000 = some a ∧
      f.opacity = some (opacity FloatModel.exact a) ∧
      0 ≤ opacity FloatModel.exact a ∧ opacity FloatModel.exact a ≤ 255 :=
  ⟨by decide, (alpha_is_clamped_ratio FloatModel.exact 1000000 2000000 (by decide)).2.1,
    rfl, rfl,
    (alpha_is_clamped_ratio FloatModel.exact 1000000 2000000 (by decide)).2.2.2.2.2.2.1
      demoPlaying (TPlay.start demoReady) demoSlide1 rfl rfl (by decide)⟩

/-! ### C9: a slide without a timer -/

/-- C9: when the current slide has a duration of zero or less, then for every transition
time and every clock reading the timer checks of an iteration never request an advance: they
leave the pending-advance flag as it was and at most switch the fade state to `Show`. Hence
with no advance pending, no call of `next` and no `Next` control action, every run leaves the
iterator `currentSlide` and the slide index where they were, whether or not playback has been
ended meanwhile. -/
theorem zero_duration_has_no_timer (s : Splashentation) (t : TPlay) (slide : Slide)
    (hslide : s.m_slides[t.currentSlide]? = some slide) (hduration : slide.duration ≤ 0) :
    (∀ elapsed, ∃ s1, update s t elapsed = some (s1, { t with pc := Pc.controls }) ∧
      s1.m_moveOnToNextSlide = s.m_moveOnToNextSlide ∧
      (s1 = s ∨ s1 = priv_setSlideState s SlideState.Show)) ∧
    (s.m_playThread = some t → s.m_moveOnToNextSlide = false →
      ∀ ls s1, noAdvanceRequested s ls = true → run s ls = some s1 →
        ∃ t1, s1.m_playThread = some t1 ∧ t1.currentSlide = t.currentSlide ∧
          s1.m_moveOnToNextSlide = false ∧
          getCurrentSlideIndex s1 = getCurrentSlideIndex s) := by
  constructor
  · intro elapsed
    obtain ⟨s1, h1, h2⟩ := update_without_timer s t slide elapsed hslide hduration
    refine ⟨s1, h1, ?_, h2⟩
    rcases h2 with rfl | rfl <;> rfl
  · intro ht hmove ls s1 hquiet hrun
    obtain ⟨t1, h1, h2, -, h4, h5⟩ :=
      run_without_request ls s s1 t slide ht hslide hduration hmove hquiet hrun
    exact ⟨t1, h1, h2, h4, h5⟩

/-- C9 at `demoOnSecond`, whose current slide has duration zero, a thousand seconds after
the slide was entered. -/
theorem zero_duration_has_no_timer_witness :
    demoOnSecond.m_slides[demoOnSecondThread.currentSlide]? = some demoSlide2 ∧
    demoSlide2.duration ≤ 0 ∧
    ∃ s1, update demoOnSecond demoOnSecondThread 1000000000
        = some (s1, { demoOnSecondThread with pc := Pc.controls }) ∧
      s1.m_moveOnToNextSlide = demoOnSecond.m_moveOnToNextSlide ∧
      (s1 = demoOnSecond ∨ s1 = priv_setSlideState demoOnSecond SlideState.Show) :=
  ⟨rfl, by decide,
    (zero_duration_has_no_timer demoOnSecond demoOnSecondThread demoSlide2 rfl (by decide)).1
      1000000000⟩

/-! ### C10: the slides are played in order -/

/-- C10: take a presentation of `n ≥ 1` slides (fewer than `2 ^ 32`) with neither flag set,
a `play` that starts playback, and any run in which nothing asks playback to end (no call of
`skip` or `quit`, no `Closed` event, no input bound to `Quit` or `Skip`). Let `k` be the
number of advances of the run, of which an iteration makes at most one. Then the run is
defined and `k ≤ n`; while `k < n` the presentation is playing and both the iterator
`currentSlide` and the slide index equal `k`, so that every advance moved them on by exactly
one; and `k = n` exactly when playback has completed, with play state `Finished` and the slide
index left at `n - 1`. Any number of calls of `next` in a row has the effect of one call. -/
theorem slides_advance_in_order (s s0 : Splashentation) (ls : List Label)
    (hplaying : isPlaying s = false) (hslides : s.m_slides.length ≠ 0)
    (hsize : s.m_slides.length < 4294967296) (hskip : s.m_controlSkip = false)
    (hquit : s.m_controlQuit = false) (hplay : play s = some s0)
    (hquiet : noExitRequested s0 ls = true) :
    ∃ s1 t, run s0 ls = some s1 ∧ s1.m_playThread = some t ∧
      advances s0 ls ≤ s.m_slides.length ∧
      (advances s0 ls < s.m_slides.length →
        s1.m_playState = PlayState.Playing ∧ t.running = true ∧
        t.currentSlide = advances s0 ls ∧ getCurrentSlideIndex s1 = advances s0 ls) ∧
      (advances s0 ls = s.m_slides.length →
        s1.m_playState = PlayState.Finished ∧ t.pc = Pc.returned Exit.complete ∧
        getCurrentSlideIndex s1 + 1 = s.m_slides.length) ∧
      ∀ j, run s1 (List.replicate (j + 1) Label.next) = some (next s1) := by
  obtain ⟨-, rfl⟩ := play_starts s s0 hplaying hslides hplay
  have hstart : AdvancedBy
      { s with m_currentSlideIndex := 0, m_moveOnToNextSlide := false,
               m_slideState := SlideState.In, m_playState := PlayState.Playing,
               m_playThread := some (TPlay.start s) } 0 :=
    ⟨_, rfl, hsize, hskip, hquit,
      Or.inl ⟨Nat.pos_of_ne_zero hslides, rfl, rfl, rfl, rfl, fun _ => rfl,
        fun h => absurd rfl h⟩⟩
  obtain ⟨s1, hrun, hsl, t, ht, -, -, -, hcase⟩ := advancedBy_run ls _ 0 hstart hquiet
  rw [Nat.zero_add] at hcase
  have hsl1 : s1.m_slides.length = s.m_slides.length := by rw [hsl]
  rw [hsl1] at hcase
  refine ⟨s1, t, hrun, ht, ?_, ?_, ?_, next_replicate s1⟩
  · rcases hcase with ⟨hk, -⟩ | ⟨hk, -⟩
    · exact Nat.le_of_lt hk
    · exact Nat.le_of_eq hk
  · intro hlt
    rcases hcase with ⟨-, h1, h2, h3, h4, -⟩ | ⟨hk, -⟩
    · exact ⟨h1, h2, h3, h4⟩
    · omega
  · intro heq
    rcases hcase with ⟨hk, -⟩ | ⟨-, h1, h2, h3⟩
    · omega
    · exact ⟨h1, h2, h3⟩

/-- C10 at `demoReady`: `next` is called twice before the first iteration, which then makes
one advance. -/
theorem slides_advance_in_order_witness :
    isPlaying demoReady = false ∧ demoReady.m_slides.length ≠ 0 ∧
    demoReady.m_slides.length < 4294967296 ∧ demoReady.m_controlSkip = false ∧
    demoReady.m_controlQuit = false ∧ play demoReady = some demoPlaying ∧
    noExitRequested demoPlaying
      [Label.next, Label.next, tick 0, tick 0, tick 0, tick 0] = true ∧
    advances demoPlaying [Label.next, Label.next, tick 0, tick 0, tick 0, tick 0] = 1 ∧
    ∃ s1 t, run demoPlaying [Label.next, Label.next, tick 0, tick 0, tick 0, tick 0] = some s1 ∧
      s1.m_playThread = some t ∧
      advances demoPlaying [Label.next, Label.next, tick 0, tick 0, tick 0, tick 0]
        ≤ demoReady.m_slides.length ∧
      (advances demoPlaying [Label.next, Label.next, tick 0, tick 0, tick 0, tick 0]
          < demoReady.m_slides.length →
        s1.m_playState = PlayState.Playing ∧ t.running = true ∧
        t.currentSlide
          = advances demoPlaying [Label.next, Label.next, tick 0, tick 0, tick 0, tick 0] ∧
        getCurrentSlideIndex s1
          = advances demoPlaying [Label.next, Label.next, tick 0, tick 0, tick 0, tick 0]) ∧
      (advances demoPlaying [Label.next, Label.next, tick 0, tick 0, tick 0, tick 0]
          = demoReady.m_slides.length →
        s1.m_playState = PlayState.Finished ∧ t.pc = Pc.returned Exit.complete ∧
        getCurrentSlideIndex s1 + 1 = demoReady.m_slides.length) ∧
      ∀ j, run s1 (List.replicate (j + 1) Label.next) = some (next s1) :=
  ⟨rfl, by decide, by decide, rfl, rfl, rfl, rfl, rfl,
    slides_advance_in_order demoReady demoPlaying
      [Label.next, Label.next, tick 0, tick 0, tick 0, tick 0] rfl (by decide) (by decide) rfl
      rfl rfl rfl⟩

/-! ### C11: asset operations while the instance plays -/

/-- C11: for every name and file name, if the instance is in state `Playing` then `loadFont`
and `loadTexture` return false, `getFont` and `getTexture` return the null pointer, and these
four calls as well as `addFont`, `removeFont`, `addTexture`, `removeTexture` and
`clearAllResources` leave the font and texture dictionaries exactly as they were. -/
theorem asset_operations_fail_while_playing (d : Decoder) (s : Splashentation) (r : Resources)
    (name filename : String) (font : Font) (texture : Texture)
    (h : s.m_playState = PlayState.Playing) :
    loadFont d s r name filename = (false, r) ∧
    loadTexture d s r name filename = (false, r) ∧
    getFont s r name = (none, r) ∧ getTexture s r name = (none, r) ∧
    addFont s r name font = r ∧ removeFont s r name = r ∧
    addTexture s r name texture = r ∧ removeTexture s r name = r ∧
    clearAllResources s r = r := by
  have hp := isPlaying_eq_true s h
  simp [loadFont, loadTexture, getFont, getTexture, addFont, removeFont, addTexture,
    removeTexture, clearAllResources, hp]

/-- C11 at the playing instance `demoPlaying`. -/
theorem asset_operations_fail_while_playing_witness :
    demoPlaying.m_playState = PlayState.Playing ∧
    loadFont demoDecoder demoPlaying demoResources "title" "title.ttf" = (false, demoResources) ∧
    loadTexture demoDecoder demoPlaying demoResources "title" "title.ttf"
      = (false, demoResources) ∧
    getFont demoPlaying demoResources "title" = (none, demoResources) ∧
    getTexture demoPlaying demoResources "title" = (none, demoResources) ∧
    addFont demoPlaying demoResources "title" { handle := 5 } = demoResources ∧
    removeFont demoPlaying demoResources "title" = demoResources ∧
    addTexture demoPlaying demoResources "title" { handle := 6 } = demoResources ∧
    removeTexture demoPlaying demoResources "title" = demoResources ∧
    clearAllResources demoPlaying demoResources = demoResources :=
  ⟨rfl, asset_operations_fail_while_playing demoDecoder demoPlaying demoResources "title"
    "title.ttf" { handle := 5 } { handle := 6 } rfl⟩

/-! ### C12: the slide index and the slide count -/

/-- C12, as the code has it: after a `play` that starts playback (fewer than `2 ^ 32`
slides), through any sequence of steps of the playback thread and of the operations
`addSlide`, `clearSlides`, `play`, `next`, `skip` and `quit` in which no call of `clearSlides`
takes effect, `getCurrentSlideIndex` is less than, hence at most, the number of slides, also
after playback has reached `Finished` or `Quit`. Such a sequence is defined as long as it has
no call of `play`. A call of `clearSlides` after playback has ended empties the slide list
and leaves the slide index as it was. -/
theorem slide_index_below_count_unless_cleared (s s0 : Splashentation) (os : List Operation)
    (hplaying : isPlaying s = false) (hslides : s.m_slides.length ≠ 0)
    (hsize : s.m_slides.length < 4294967296) (hplay : play s = some s0)
    (hclear : noSlideListCleared s0 os = true) :
    (∀ s1, runOperations s0 os = some s1 → getCurrentSlideIndex s1 < s1.m_slides.length) ∧
    ((∀ o ∈ os, o ≠ Operation.play) → ∃ s1, runOperations s0 os = some s1) ∧
    (∀ s1, runOperations s0 os = some s1 → s1.m_playState ≠ PlayState.Playing →
      (clearSlides s1).m_slides = [] ∧
      getCurrentSlideIndex (clearSlides s1) = getCurrentSlideIndex s1) := by
  obtain ⟨hinv, -⟩ := playbackInv_play s s0 hplaying hslides hsize hplay
  have hstart : PlayedInv s0 := by
    obtain ⟨-, rfl⟩ := play_starts s s0 hplaying hslides hplay
    exact ⟨_, rfl, Nat.pos_of_ne_zero hslides, Or.inl ⟨rfl, rfl, hinv⟩⟩
  obtain ⟨hdef, hall⟩ := playedInv_run os s0 hstart hclear
  refine ⟨fun s1 h1 => ?_, hdef, fun s1 _ hp => ?_⟩
  · obtain ⟨t, -, hidx, -⟩ := hall s1 h1
    exact hidx
  · simp [clearSlides, isPlaying_eq_false s1 hp, getCurrentSlideIndex]

/-- C12 as amended, at `demoReady`: a `clearSlides` during playback takes no effect, and a
slide is added after the window was closed. -/
theorem slide_index_below_count_unless_cleared_witness :
    isPlaying demoReady = false ∧ demoReady.m_slides.length ≠ 0 ∧
    demoReady.m_slides.length < 4294967296 ∧ play demoReady = some demoPlaying ∧
    noSlideListCleared demoPlaying
      [Operation.clearSlides, Operation.label (tick 0),
        Operation.label (deliver Event.Closed), Operation.addSlide demoSlide3] = true ∧
    ∃ s1, runOperations demoPlaying
      [Operation.clearSlides, Operation.label (tick 0),
        Operation.label (deliver Event.Closed), Operation.addSlide demoSlide3] = some s1 :=
  ⟨rfl, by decide, by decide, rfl, rfl,
    (slide_index_below_count_unless_cleared demoReady demoPlaying
      [Operation.clearSlides, Operation.label (tick 0),
        Operation.label (deliver Event.Closed), Operation.addSlide demoSlide3]
      rfl (by decide) (by decide) rfl rfl).2.1 (by decide)⟩

/-- C12 as stated fails: `demoReady` is played, advances to its second slide on a call of
`next`, and its window is closed; the play state is `Quit` and the slide index is `1`. A call
of `clearSlides` then leaves no slide, and the slide index, still `1`, exceeds the slide
count. -/
theorem slide_index_exceeds_count_after_clear :
    isPlaying demoReady = false ∧ demoReady.m_slides.length ≠ 0 ∧
    play demoReady = some demoPlaying ∧
    ∃ s1, runOperations demoPlaying
        [Operation.label (tick 0), Operation.label (tick 0), Operation.label Label.next,
          Operation.label (tick 0), Operation.label (tick 0), Operation.label (tick 0),
          Operation.label (deliver Event.Closed), Operation.clearSlides] = some s1 ∧
      s1.m_playState = PlayState.Quit ∧
      ¬ (getCurrentSlideIndex s1 ≤ s1.m_slides.length) :=
  ⟨rfl, by decide, rfl, _, rfl, rfl, by decide⟩

/-! ### C13: the previous and the current slide -/

/-- C13: after a `play` that starts playback, in every state reached in which the playback
thread is at the start of an iteration: the slide index is the offset of `currentSlide`; while
it is `0` the iterator `previousSlide` is at `end()`, so that there is no previous slide, and
once it is `i ≥ 1` the previous slide is the one at `i - 1`. The frame of the iteration shows
the current slide; it shows no previous slide on the first slide and none while the fade state
is `Show`, and with the fade state `In` and `i ≥ 1` it shows the slide at `i - 1` under the
current one. -/
theorem cross_fade_previous_and_current (fl : FloatModel) (s s0 : Splashentation)
    (ls : List Label) (slideTime : Time)
    (hplaying : isPlaying s = false) (hslides : s.m_slides.length ≠ 0)
    (hsize : s.m_slides.length < 4294967296) (hplay : play s = some s0) :
    ∃ s1 t, run s0 ls = some s1 ∧ s1.m_playThread = some t ∧
      (t.pc = Pc.loopHead →
        getCurrentSlideIndex s1 = t.currentSlide ∧
        (t.currentSlide = 0 → t.previousSlide = s1.m_slides.length) ∧
        (1 ≤ t.currentSlide → t.previousSlide + 1 = t.currentSlide) ∧
        ∃ f, frame fl s1 t slideTime = some f ∧
          (∃ slide ds, s1.m_slides[t.currentSlide]? = some slide ∧
            f.current = some (slide.color, ds)) ∧
          (s1.m_slideState = SlideState.Show → f.previous = none) ∧
          (t.currentSlide = 0 → f.previous = none) ∧
          (s1.m_slideState = SlideState.In → 1 ≤ t.currentSlide →
            ∃ slide ds, s1.m_slides[t.currentSlide - 1]? = some slide ∧
              f.previous = some (slide.color, ds))) := by
  obtain ⟨hinv, -⟩ := playbackInv_play s s0 hplaying hslides hsize hplay
  obtain ⟨s1, hrun, ⟨t, ht, -, hidx, hcur⟩, -⟩ := playbackInv_run ls s0 hinv
  refine ⟨s1, t, hrun, ht, fun hpc => ?_⟩
  obtain ⟨hi, hp⟩ := hcur (by simp [hpc])
  have hc : t.currentSlide < s1.m_slides.length := hi ▸ hidx
  exact ⟨hi, fun h0 => by omega, fun h1 => by omega, frame_layers fl s1 t slideTime hc hp⟩

/-- C13 at `demoReady`, at the start of the first iteration on the second slide. -/
theorem cross_fade_previous_and_current_witness :
    isPlaying demoReady = false ∧ demoReady.m_slides.length ≠ 0 ∧
    demoReady.m_slides.length < 4294967296 ∧ play demoReady = some demoPlaying ∧
    ∃ s1 t, run demoPlaying [Label.next, tick 0, tick 0, tick 0, tick 0] = some s1 ∧
      s1.m_playThread = some t :=
  ⟨rfl, by decide, by decide, rfl,
    match cross_fade_previous_and_current FloatModel.exact demoReady demoPlaying
      [Label.next, tick 0, tick 0, tick 0, tick 0] 0 rfl (by decide) (by decide) rfl with
    | ⟨s1, t, h1, h2, _⟩ => ⟨s1, t, h1, h2⟩⟩

/-! ### C14: the two timer checks -/

/-- C14 fails on the code in two ways. The sum `transition + duration` is a sum of 64-bit
counts: for `demoForeverSlide`, with the default transition of two seconds and the largest
duration, it wraps to a negative count, so the first timer check made in the `Show` state, at
a little over two seconds, requests the advance although `e ≥ t + d` is false. And the timer
checks do not hold the lock of `next`: in the playback of `demoPairReady` a call of `next`
falls between the test of the pending-advance flag and the read of the fade state, the check
of the `In` state then switches to `Show` with the advance pending, and the progression enters
the second slide in the `Show` state; its very first iteration, at 0.6 seconds, requests the
timed advance, and the six steps of that single iteration end the playback. -/
theorem timed_advance_on_first_iteration :
    ((play demoForeverReady).bind (fun p => run p
        [tick 0, tick 0, tick 0, tick 0, tick 2000000, tick 2000000])).map playbackView
      = some (SlideState.Show, false, some (0, Pc.loopHead)) ∧
    ((play demoForeverReady).bind (fun p => run p
        [tick 0, tick 0, tick 0, tick 0, tick 2000000, tick 2000000,
         tick 2016667, tick 2016667, tick 2016667, tick 2016667, tick 2016667])).map
        playbackView
      = some (SlideState.In, true, some (0, Pc.controls)) ∧
    0 < demoForeverSlide.duration ∧
    ¬ (demoForeverSlide.transition + demoForeverSlide.duration ≤ 2016667) ∧
    ((play demoPairReady).bind (fun p => run p
        [tick 0, tick 0, tick 0, tick 0, tick 2000000, tick 2000000,
         tick 2016667, tick 2016667, tick 2016667, Label.next, tick 2016667, tick 2016667,
         tick 2016667])).map playbackView
      = some (SlideState.Show, false, some (1, Pc.loopHead)) ∧
    ((play demoPairReady).bind (fun p => run p
        [tick 0, tick 0, tick 0, tick 0, tick 2000000, tick 2000000,
         tick 2016667, tick 2016667, tick 2016667, Label.next, tick 2016667, tick 2016667,
         tick 2016667,
         tick 600000, tick 600000, tick 600000, tick 600000, tick 600000, tick 600000])).map
        playbackView
      = some (SlideState.In, false, some (2, Pc.returned Exit.complete)) :=
  ⟨by decide, by decide, by decide, by decide, by decide, by decide⟩

/-- C14, amended: take an iteration whose current slide is shown, with no advance pending, a
slide with transition `t` and duration `d > 0` whose sum `t + d` is a count that `sf::Time`
can hold, and let the clock read `e`. The update, run with no call of `next` between its
steps, does this: in the `In` state it switches the fade state to `Show` if and only if `t` is
zero or `e ≥ t`, and requests no advance; in the `Show` state it requests an advance, which is
the effect of `next` (the pending-advance flag set, the fade state back to `In`), if and only
if `e ≥ t + d`, and otherwise changes nothing. The state `s1` so described is the result of
the three steps of the playback thread, whatever calls of `skip` and `quit` fall between
them, up to the two flags these calls set. Hence, in a playback in which no call of `next`
falls inside the timer checks, a timed advance takes two iterations: a slide is entered, by
`play` or by the progression, in the `In` state with no advance pending, and the iteration
that follows, without events and without calls of the owning thread, leaves the iterator
`currentSlide`, the slide index and the flag as they were, whatever the clock reads. -/
theorem timer_checks_of_an_iteration (s : Splashentation) (t : TPlay) (slide : Slide)
    (elapsed : Time) (hshow : t.showCurrentSlide = true)
    (hmove : s.m_moveOnToNextSlide = false)
    (hslide : s.m_slides[t.currentSlide]? = some slide) (hduration : 0 < slide.duration)
    (hfits : Time.representable (slide.transition + slide.duration)) :
    (∃ s1, update s t elapsed = some (s1, { t with pc := Pc.controls }) ∧
      (s.m_playThread = some t → t.pc = Pc.update →
        ∀ (e1 e2 : Time) (ls1 ls2 : List Label),
          (∀ l ∈ ls1, l = Label.skip ∨ l = Label.quit) →
          (∀ l ∈ ls2, l = Label.skip ∨ l = Label.quit) →
          ∃ k q, run s (tick e1 :: ls1 ++ tick e2 :: ls2 ++ [tick elapsed])
            = some { s1 with m_controlSkip := k, m_controlQuit := q,
                             m_playThread := some { t with pc := Pc.controls } }) ∧
      (s.m_slideState = SlideState.In →
        (s1.m_slideState = SlideState.Show ↔
          slide.transition = 0 ∨ slide.transition ≤ elapsed) ∧
        s1.m_moveOnToNextSlide = false ∧
        (s1 = s ∨ s1 = priv_setSlideState s SlideState.Show)) ∧
      (s.m_slideState = SlideState.Show →
        (s1.m_moveOnToNextSlide = true ↔ slide.transition + slide.duration ≤ elapsed) ∧
        (s1.m_moveOnToNextSlide = true → s1 = next s ∧ s1.m_slideState = SlideState.In) ∧
        (s1.m_moveOnToNextSlide = false → s1 = s))) ∧
    (∀ p p0 p1 : Splashentation, isPlaying p = false → p.m_slides.length ≠ 0 →
      p.m_slides.length < 4294967296 → play p = some p0 → JustEntered p0 p1 →
      p1.m_slideState = SlideState.In ∧ p1.m_moveOnToNextSlide = false ∧
      ∀ e1 e2 e3 e4 e5 e6 : Time, ∃ p2 t1 t2,
        p1.m_playThread = some t1 ∧ t1.pc = Pc.loopHead ∧
        run p1 [tick e1, tick e2, tick e3, tick e4, tick e5, tick e6] = some p2 ∧
        p2.m_playThread = some t2 ∧ t2.currentSlide = t1.currentSlide ∧
        getCurrentSlideIndex p2 = getCurrentSlideIndex p1 ∧
        p2.m_moveOnToNextSlide = false) := by
  constructor
  · obtain ⟨s1, h1, h2, h3⟩ :=
      update_timer_checks s t slide elapsed hshow hmove hslide hduration hfits
    refine ⟨s1, h1, fun ht hpc e1 e2 ls1 ls2 hl1 hl2 => ?_, h2, h3⟩
    obtain ⟨k, q, hr⟩ :=
      update_steps_flag_calls s t e1 e2 elapsed ls1 ls2 ht hpc hshow hmove hl1 hl2
    rw [h1] at hr
    exact ⟨k, q, hr⟩
  · intro p p0 p1 hplaying hslides hsize hplay hentered
    obtain ⟨t1, ht1, hpc, hc, hp, hin, hmv⟩ :=
      justEntered_state p p0 p1 hplaying hslides hsize hplay hentered
    refine ⟨hin, hmv, fun e1 e2 e3 e4 e5 e6 => ?_⟩
    obtain ⟨p2, t2, hrun, ht2, hcur, hidx, hm2, -⟩ :=
      first_iteration_keeps_slide p1 t1 e1 e2 e3 e4 e5 e6 ht1 hpc hc hp hin hmv
    exact ⟨p2, t1, t2, ht1, hpc, hrun, ht2, hcur, hidx, hm2⟩

/-- C14 at `demoShowFirst`, whose slide has a transition of two seconds and a duration of
one second, three seconds after the slide was entered: the advance is requested, by the
update in one piece and by its three steps with a call of `skip` in between. And the first
slide of `demoPlaying`, entered by `play`, is in the `In` state with no advance pending. -/
theorem timer_checks_of_an_iteration_witness :
    demoShowFirstThread.showCurrentSlide = true ∧
    demoShowFirst.m_moveOnToNextSlide = false ∧
    demoShowFirst.m_slides[demoShowFirstThread.currentSlide]? = some demoSlide1 ∧
    0 < demoSlide1.duration ∧
    Time.representable (demoSlide1.transition + demoSlide1.duration) ∧
    (∃ s1, update demoShowFirst demoShowFirstThread 3000000
        = some (s1, { demoShowFirstThread with pc := Pc.controls }) ∧
      (∃ k q, run demoShowFirst (tick 0 :: [Label.skip] ++ tick 0 :: [] ++ [tick 3000000])
        = some { s1 with m_controlSkip := k, m_controlQuit := q,
                         m_playThread := some { demoShowFirstThread with pc := Pc.controls } }) ∧
      s1.m_moveOnToNextSlide = true) ∧
    isPlaying demoReady = false ∧ demoReady.m_slides.length ≠ 0 ∧
    demoReady.m_slides.length < 4294967296 ∧ play demoReady = some demoPlaying ∧
    JustEntered demoPlaying demoPlaying ∧
    demoPlaying.m_slideState = SlideState.In ∧ demoPlaying.m_moveOnToNextSlide = false :=
  ⟨rfl, rfl, rfl, by decide, ⟨by decide, by decide⟩,
    match (timer_checks_of_an_iteration demoShowFirst demoShowFirstThread demoSlide1
      3000000 rfl rfl rfl (by decide) ⟨by decide, by decide⟩).1 with
    | ⟨s1, h1, h2, _, h4⟩ =>
      ⟨s1, h1, h2 rfl rfl 0 0 [Label.skip] [] (by simp) (by simp), (h4 rfl).1.2 (by decide)⟩,
    rfl, by decide, by decide, rfl, Or.inl rfl,
    ((timer_checks_of_an_iteration demoShowFirst demoShowFirstThread demoSlide1
      3000000 rfl rfl rfl (by decide) ⟨by decide, by decide⟩).2 demoReady demoPlaying
      demoPlaying rfl (by decide) (by decide) rfl (Or.inl rfl)).1,
    ((timer_checks_of_an_iteration demoShowFirst demoShowFirstThread demoSlide1
      3000000 rfl rfl rfl (by decide) ⟨by decide, by decide⟩).2 demoReady demoPlaying
      demoPlaying rfl (by decide) (by decide) rfl (Or.inl rfl)).2.1⟩

/-! ### C15: mouse presses and the configured buttons -/

/-- C15 fails on the code: for the buttons `XButton1` and `XButton2` the mask built by
`priv_processMouseButton` is `None`, and the test `(m & None) == None` holds for every mask
`m`. So a press of `XButton1` performs `Quit` for the control `(Quit, None)`, which is bound
to no button, and a press of `XButton2` performs `Skip` for the control `(Skip, Left)`; in the
playback loop the press of `XButton1` ends the playback of `demoMouseNone` with play state
`Quit`. For a press of `Right` the control `(Quit, None)` does nothing, as the claim says. -/
theorem extra_mouse_button_triggers_every_binding :
    pressedMouseButtons Button.XButton1 = MouseButtons.None ∧
    pressedMouseButtons Button.XButton2 = MouseButtons.None ∧
    priv_processMouseButton demoPolling (ControlAction.Quit, MouseButtons.None) Button.XButton1
        false
      = (false, false, { demoPolling with m_playState := PlayState.Quit }) ∧
    priv_processMouseButton demoPolling (ControlAction.Skip, MouseButtons.Left) Button.XButton2
        false
      = (false, false, { demoPolling with m_playState := PlayState.Finished }) ∧
    (threadStep demoMouseNone
        { event := some (Event.MouseButtonPressed Button.XButton1), elapsed := 0 }).map
        (fun s => s.m_playState)
      = some PlayState.Quit ∧
    priv_processMouseButton demoPolling (ControlAction.Quit, MouseButtons.None) Button.Right
        false
      = (true, false, demoPolling) := by
  decide

/-! ### C16: key bindings are first-come -/

/-- C16: while not playing, for the global key table and for the key table of an existing
slide `i` alike: after `addGlobalControlAction(a, k)` or `addSlideControlAction(i, a, k)` the
matching get for `k` returns the action `k` was already bound to if it had one and `a`
otherwise; after the matching remove for `k` the get returns `None`; and in both cases the
get for every other key (and, for the per-slide calls, for every other slide) returns what it
returned before. -/
theorem key_bindings_first_come (s : Splashentation) (a : ControlAction) (k k2 : Key)
    (i j : Nat) (h : s.m_playState ≠ PlayState.Playing) :
    getGlobalControlAction (addGlobalControlAction s a k) k
      = (match s.m_globalKeys.find k with
         | some a0 => a0
         | none => a) ∧
    (k2 ≠ k →
      getGlobalControlAction (addGlobalControlAction s a k) k2 = getGlobalControlAction s k2) ∧
    getGlobalControlAction (removeGlobalControlAction s k) k = ControlAction.None ∧
    (k2 ≠ k →
      getGlobalControlAction (removeGlobalControlAction s k) k2
        = getGlobalControlAction s k2) ∧
    ∀ slide, s.m_slides[i]? = some slide →
      (∃ s1, addSlideControlAction s i a k = some s1 ∧
        getSlideControlAction s1 i k
          = some (match slide.keys.find k with
                  | some a0 => a0
                  | none => a) ∧
        (j ≠ i ∨ k2 ≠ k → getSlideControlAction s1 j k2 = getSlideControlAction s j k2)) ∧
      (∃ s1, removeSlideControlAction s i k = some s1 ∧
        getSlideControlAction s1 i k = some ControlAction.None ∧
        (j ≠ i ∨ k2 ≠ k → getSlideControlAction s1 j k2 = getSlideControlAction s j k2)) := by
  have hp := isPlaying_eq_false s h
  have hq : ∀ s1 : Splashentation, s1.m_playState = s.m_playState → isPlaying s1 = false :=
    fun s1 h1 => isPlaying_eq_false s1 (h1 ▸ h)
  refine ⟨?_, ?_, ?_, ?_, ?_⟩
  · unfold addGlobalControlAction
    rw [hp]
    simp only [Bool.false_eq_true, if_false]
    cases hf : UnorderedMap.find s.m_globalKeys k with
    | none =>
      rw [if_pos ((UnorderedMap.count_eq_zero_iff _ _).2 hf)]
      simp only [getGlobalControlAction, hq, Bool.false_eq_true, if_false,
        UnorderedMap.find_assign_self]
    | some a0 =>
      have hc : ¬ UnorderedMap.count s.m_globalKeys k = 0 := by
        rw [UnorderedMap.count_eq_zero_iff, hf]; simp
      rw [if_neg hc]
      simp only [getGlobalControlAction, hp, Bool.false_eq_true, if_false, hf]
  · intro hne
    unfold addGlobalControlAction
    rw [hp]
    simp only [Bool.false_eq_true, if_false]
    split
    · simp only [getGlobalControlAction, hq, hp, Bool.false_eq_true, if_false,
        UnorderedMap.find_assign_other _ _ _ _ hne]
    · rfl
  · simp only [removeGlobalControlAction, hp, Bool.false_eq_true, if_false,
      getGlobalControlAction, hq, UnorderedMap.find_erase_self]
  · intro hne
    simp only [removeGlobalControlAction, hp, Bool.false_eq_true, if_false,
      getGlobalControlAction, hq, UnorderedMap.find_erase_other _ _ _ hne]
  · intro slide hsl
    have hlt : i < s.m_slides.length := by
      rcases Nat.lt_or_ge i s.m_slides.length with h1 | h1
      · exact h1
      · rw [List.getElem?_eq_none h1] at hsl
        cases hsl
    have hother : ∀ (sl2 : Slide),
        (k2 ≠ k → UnorderedMap.find sl2.keys k2 = UnorderedMap.find slide.keys k2) →
        (j ≠ i ∨ k2 ≠ k →
          getSlideControlAction { s with m_slides := s.m_slides.set i sl2 } j k2
            = getSlideControlAction s j k2) := by
      intro sl2 hk hor
      rw [getSlideControlAction_eq _ (by exact h), getSlideControlAction_eq s h]
      simp only
      by_cases hji : j = i
      · subst hji
        rw [List.getElem?_set_self hlt, hsl]
        have hne : k2 ≠ k := by
          rcases hor with hji | hne
          · exact absurd rfl hji
          · exact hne
        simp only [Option.map_some', hk hne]
      · rw [List.getElem?_set_ne (Ne.symm hji)]
    constructor
    · unfold addSlideControlAction
      rw [hp]
      simp only [Bool.false_eq_true, if_false, hsl]
      cases hf : UnorderedMap.find slide.keys k with
      | none =>
        rw [if_pos ((UnorderedMap.count_eq_zero_iff _ _).2 hf)]
        refine ⟨_, rfl, ?_, hother _ (fun hne => ?_)⟩
        · rw [getSlideControlAction_eq _ (by exact h)]
          simp only [List.getElem?_set_self hlt, Option.map_some',
            UnorderedMap.find_assign_self]
        · exact UnorderedMap.find_assign_other _ _ _ _ hne
      | some a0 =>
        have hc : ¬ UnorderedMap.count slide.keys k = 0 := by
          rw [UnorderedMap.count_eq_zero_iff, hf]; simp
        rw [if_neg hc]
        refine ⟨_, rfl, ?_, fun _ => rfl⟩
        rw [getSlideControlAction_eq s h, hsl]
        simp only [Option.map_some', hf]
    · unfold removeSlideControlAction
      rw [hp]
      simp only [Bool.false_eq_true, if_false, hsl]
      refine ⟨_, rfl, ?_, hother _ (fun hne => ?_)⟩
      · rw [getSlideControlAction_eq _ (by exact h)]
        simp only [List.getElem?_set_self hlt, Option.map_some', UnorderedMap.find_erase_self]
      · exact UnorderedMap.find_erase_other _ _ _ hne

/-- C16 at `demoReady`, where the key `36` is already bound to `Quit`: adding `Next` for it
does not overwrite the binding. -/
theorem key_bindings_first_come_witness :
    demoReady.m_playState ≠ PlayState.Playing ∧
    getGlobalControlAction (addGlobalControlAction demoReady ControlAction.Next 36) 36
      = ControlAction.Quit ∧
    getGlobalControlAction (removeGlobalControlAction demoReady 36) 36 = ControlAction.None :=
  ⟨by decide,
    (key_bindings_first_come demoReady ControlAction.Next 36 57 1 1 (by decide)).1,
    (key_bindings_first_come demoReady ControlAction.Next 36 57 1 1 (by decide)).2.2.1⟩

/-! ### C17: a `Next` control action and the fade state -/

/-- C17: take a key input bound to `Next` (the control `(key, Next)` for the pressed key) and
a mouse input bound to `Next` (a control `(Next, m)` whose mask `m` passes the test of
`priv_processMouseButton` for the pressed button), not yet marked as handled. If the fade
state is `In`, `priv_processKey` and `priv_processMouseButton` return true, so that the loop
continues, leave the object unchanged (pending-advance flag, fade state and play state
included) and leave the input unmarked. If the fade state is `Show`, they return true with
the input marked as handled and the object is the one after `next`: the pending-advance flag
is set, the fade state is back to `In`, the play state is unchanged. Once an input is marked
as handled, a loop over any table, per-slide or global, applies no binding to it.

In the event handling of the playback loop this gives: while the fade state is `In`, no event
changes the pending-advance flag or the fade state. When the first binding that matches the
input is a `Next`, in the table of the current slide or, with no match there, in the global
table, then in the `Show` state the whole event does what `next` does and nothing more: the
mark set by that binding is carried from the loop over the per-slide table into the loop over
the global table, so whatever the rest of the per-slide table and the global table hold is not
applied and the thread stays in its loop. In the `In` state the per-slide `Next` is passed
over and a global binding of the same input to `Quit` is applied: the thread returns with play
state `Quit`. -/
theorem next_honoured_only_when_shown (s : Splashentation) (key : Key) (m : MouseButtons)
    (button : Button)
    (hmask : m &&& pressedMouseButtons button = pressedMouseButtons button) :
    (s.m_slideState = SlideState.In →
      priv_processKey s (key, ControlAction.Next) key false = (true, false, s) ∧
      priv_processMouseButton s (ControlAction.Next, m) button false = (true, false, s)) ∧
    (s.m_slideState = SlideState.Show →
      priv_processKey s (key, ControlAction.Next) key false = (true, true, next s) ∧
      priv_processMouseButton s (ControlAction.Next, m) button false = (true, true, next s) ∧
      (next s).m_moveOnToNextSlide = true ∧ (next s).m_slideState = SlideState.In ∧
      (next s).m_playState = s.m_playState ∧
      (∀ rest, processKeys s ((key, ControlAction.Next) :: rest) key false
        = (none, true, next s)) ∧
      (∀ rest, processMouseButtons s ((ControlAction.Next, m) :: rest) button false
        = (none, true, next s))) ∧
    (∀ (s2 : Splashentation) (controls : List (Key × ControlAction)),
      processKeys s2 controls key true = (none, true, s2)) ∧
    (∀ (s2 : Splashentation) (controls : List (ControlAction × MouseButtons)),
      processMouseButtons s2 controls button true = (none, true, s2)) ∧
    (∀ (t t1 : TPlay) (s1 : Splashentation) (event : Event),
      s.m_slideState = SlideState.In → handleEvent s t event = some (s1, t1) →
      s1.m_moveOnToNextSlide = s.m_moveOnToNextSlide ∧ s1.m_slideState = SlideState.In) ∧
    (∀ (t : TPlay) (slide : Slide), s.m_slides[t.currentSlide]? = some slide →
      (∀ pre post, slide.keys = pre ++ (key, ControlAction.Next) :: post →
        (∀ c ∈ pre, c.1 ≠ key) →
        (s.m_slideState = SlideState.Show →
          handleEvent s t (Event.KeyPressed key) = some (next s, t)) ∧
        (s.m_slideState = SlideState.In → (∀ c ∈ post, c.1 ≠ key) →
          ∀ gpre gpost, s.m_globalKeys = gpre ++ (key, ControlAction.Quit) :: gpost →
            (∀ c ∈ gpre, c.1 ≠ key) →
            handleEvent s t (Event.KeyPressed key)
              = some ({ s with m_playState := PlayState.Quit },
                  { t with pc := Pc.returned (Exit.key (key, ControlAction.Quit)) }))) ∧
      (∀ pre post, (∀ c ∈ slide.keys, c.1 ≠ key) →
        s.m_globalKeys = pre ++ (key, ControlAction.Next) :: post → (∀ c ∈ pre, c.1 ≠ key) →
        s.m_slideState = SlideState.Show →
        handleEvent s t (Event.KeyPressed key) = some (next s, t)) ∧
      (∀ pre post, slide.mouseButtons = pre ++ (ControlAction.Next, m) :: post →
        (∀ c ∈ pre, c.2 &&& pressedMouseButtons button ≠ pressedMouseButtons button) →
        (s.m_slideState = SlideState.Show →
          handleEvent s t (Event.MouseButtonPressed button) = some (next s, t)) ∧
        (s.m_slideState = SlideState.In →
          (∀ c ∈ post, c.2 &&& pressedMouseButtons button ≠ pressedMouseButtons button) →
          ∀ gpre gpost mq, mq &&& pressedMouseButtons button = pressedMouseButtons button →
            s.m_globalMouseButtons = gpre ++ (ControlAction.Quit, mq) :: gpost →
            (∀ c ∈ gpre, c.2 &&& pressedMouseButtons button ≠ pressedMouseButtons button) →
            handleEvent s t (Event.MouseButtonPressed button)
              = some ({ s with m_playState := PlayState.Quit },
                  { t with
                    pc := Pc.returned (Exit.mouseButton (ControlAction.Quit, mq)) }))) ∧
      (∀ pre post,
        (∀ c ∈ slide.mouseButtons,
          c.2 &&& pressedMouseButtons button ≠ pressedMouseButtons button) →
        s.m_globalMouseButtons = pre ++ (ControlAction.Next, m) :: post →
        (∀ c ∈ pre, c.2 &&& pressedMouseButtons button ≠ pressedMouseButtons button) →
        s.m_slideState = SlideState.Show →
        handleEvent s t (Event.MouseButtonPressed button) = some (next s, t))) := by
  refine ⟨fun h => ?_, fun h => ?_, fun s2 controls => processKeys_found controls key s2,
    fun s2 controls => processMouseButtons_found controls button s2,
    fun t t1 s1 event hin hh => handleEvent_fading s s1 t t1 event hin hh,
    fun t slide hslide => ⟨fun pre post hkeys hpre => ⟨fun hshow => ?_, fun hin hpost gpre
      gpost hglobal hgpre => ?_⟩, fun pre post hnone hkeys hpre hshow => ?_,
      fun pre post hbuttons hpre => ⟨fun hshow => ?_, fun hin hpost gpre gpost mq hmq hglobal
        hgpre => ?_⟩, fun pre post hnone hbuttons hpre hshow => ?_⟩⟩
  · simp [priv_processKey, priv_processMouseButton, priv_getSlideState, h, hmask]
  · have hk : priv_processKey s (key, ControlAction.Next) key false = (true, true, next s) := by
      simp [priv_processKey, priv_getSlideState, h]
    have hm : priv_processMouseButton s (ControlAction.Next, m) button false
        = (true, true, next s) := by
      simp [priv_processMouseButton, priv_getSlideState, h, hmask]
    refine ⟨hk, hm, rfl, rfl, rfl, fun rest => ?_, fun rest => ?_⟩
    · unfold processKeys
      simp only [hk, if_true]
      exact processKeys_found rest key (next s)
    · unfold processMouseButtons
      simp only [hm, if_true]
      exact processMouseButtons_found rest button (next s)
  · exact handleEvent_key_next_shown s t slide key pre post hslide hkeys hpre hshow
  · exact handleEvent_key_next_fading s t slide key pre post gpre gpost hslide hkeys hpre hpost
      hglobal hgpre hin
  · exact handleEvent_key_next_shown_global s t slide key pre post hslide hnone hkeys hpre hshow
  · exact handleEvent_mouse_next_shown s t slide button m pre post hmask hslide hbuttons hpre
      hshow
  · exact handleEvent_mouse_next_fading s t slide button m mq pre post gpre gpost hmask hmq
      hslide hbuttons hpre hpost hglobal hgpre hin
  · exact handleEvent_mouse_next_shown_global s t slide button m pre post hmask hslide hnone
      hbuttons hpre hshow

/-- C17 at `demoNextOrQuit`, whose slide is in the `Show` state and binds the key `57` to
`Next` while the global table binds it to `Quit`: the key press does what `next` does and
the thread stays in its loop. -/
theorem next_honoured_only_when_shown_witness :
    MouseButtons.Left &&& pressedMouseButtons Button.Left = pressedMouseButtons Button.Left ∧
    demoNextOrQuit.m_slideState = SlideState.Show ∧
    demoNextOrQuit.m_slides[demoOnSecondThread.currentSlide]? = some demoSlide2 ∧
    demoSlide2.keys = [] ++ (57, ControlAction.Next) :: [] ∧
    demoNextOrQuit.m_globalKeys = [(57, ControlAction.Quit)] ∧
    handleEvent demoNextOrQuit demoOnSecondThread (Event.KeyPressed 57)
      = some (next demoNextOrQuit, demoOnSecondThread) ∧
    (next demoNextOrQuit).m_moveOnToNextSlide = true ∧
    (next demoNextOrQuit).m_slideState = SlideState.In ∧
    (next demoNextOrQuit).m_playState = PlayState.Playing :=
  ⟨by decide, rfl, rfl, rfl, rfl,
    ((next_honoured_only_when_shown demoNextOrQuit 57 MouseButtons.Left Button.Left
      (by decide)).2.2.2.2.2 demoOnSecondThread demoSlide2 rfl).1 [] [] rfl
      (fun _ h => absurd h (List.not_mem_nil _)) |>.1 rfl,
    rfl, rfl, rfl⟩

end Splashentation
